import Mathlib

/-!
# Phobos: workout store and query engine

A shallow embedding of the Go packages `exercises`, `templates` and `workouts`
of the phobos repository.  The relational store (SQLite, schema of
`runMigrations`) is a record of row lists in insertion (rowid) order; every
SQL statement of the source is a function on that record; `db.Exec`,
`db.Query` and `db.QueryRow` are primitives of a connection `DB` that carries
the store together with the schedule of driver failures.

Conventions of the embedding:

* `INTEGER` columns and Go `int`/`int64` values are `Int`; `TIMESTAMP` columns
  are seconds (`Nat`), `DATE` columns are day numbers (`Nat`), whose order is
  the order of the stored `YYYY-MM-DD` text; `REAL` weights are rationals.
* `ORDER BY` is a stable sort of the rows in scan order; `LIMIT 1` and
  `QueryRow` take the first row.
* `CURRENT_TIMESTAMP` is the argument `now` of the operation that uses it.
* Foreign keys are enforced, as the connection string of `db.Open` asks.
* `fmt.Errorf` wrapping keeps the cause and drops the message.
-/

namespace Phobos

/-! ## Rows and store -/

/-- SQL `REAL` weight of a set. -/
abbrev Weight := ℚ

/-- Go type `WorkoutStatus`; the column admits exactly these two texts. -/
inductive WorkoutStatus where
  | in_progress
  | finished
  deriving DecidableEq, Repr

/-- Row of `exercises`, also the Go struct `exercises.Exercise`. -/
structure Exercise where
  id : Int
  name : String
  created_at : Nat
  deriving DecidableEq, Repr

/-- Row of `workout_templates`. -/
structure TemplateRow where
  id : Int
  name : String
  created_at : Nat
  updated_at : Nat
  deriving DecidableEq, Repr

/-- Row of `template_exercises`. -/
structure TemplateExerciseRow where
  id : Int
  template_id : Int
  exercise_id : Int
  target_sets : Int
  target_reps : Int
  position : Int
  deriving DecidableEq, Repr

/-- Row of `workouts`. -/
structure WorkoutRow where
  id : Int
  name : String
  date : Nat
  notes : Option String
  status : WorkoutStatus
  template_id : Option Int
  created_at : Nat
  finished_at : Option Nat
  deriving DecidableEq, Repr

/-- Row of `workout_exercises`. -/
structure WorkoutExerciseRow where
  id : Int
  workout_id : Int
  exercise_id : Int
  position : Int
  deriving DecidableEq, Repr

/-- Row of `logged_sets`, also the Go struct `workouts.LoggedSet`. -/
structure LoggedSet where
  id : Int
  workout_exercise_id : Int
  reps : Int
  weight : Weight
  position : Int
  created_at : Nat
  deriving DecidableEq, Repr

/-- Row of `routines`. -/
structure RoutineRow where
  id : Int
  name : String
  created_at : Nat
  updated_at : Nat
  deriving DecidableEq, Repr

/-- Row of `routine_templates`. -/
structure RoutineTemplateRow where
  id : Int
  routine_id : Int
  template_id : Int
  position : Int
  deriving DecidableEq, Repr

/-- The database: one row list per table, and per table the largest rowid
ever handed out (`sqlite_sequence`, kept for `AUTOINCREMENT`). -/
structure Store where
  exercises : List Exercise
  workout_templates : List TemplateRow
  template_exercises : List TemplateExerciseRow
  workouts : List WorkoutRow
  workout_exercises : List WorkoutExerciseRow
  logged_sets : List LoggedSet
  routines : List RoutineRow
  routine_templates : List RoutineTemplateRow
  seq_exercises : Int
  seq_workout_templates : Int
  seq_template_exercises : Int
  seq_workouts : Int
  seq_workout_exercises : Int
  seq_logged_sets : Int
  seq_routines : Int
  seq_routine_templates : Int
  deriving DecidableEq, Repr

/-- The store right after `runMigrations`. -/
def Store.empty : Store :=
  ⟨[], [], [], [], [], [], [], [], 0, 0, 0, 0, 0, 0, 0, 0⟩

/-- Failure of a statement. -/
inductive DbErr where
  /-- The driver could not run the statement (connection, disk, lock). -/
  | driver
  /-- Sentinel `sql.ErrNoRows` of `QueryRow(...).Scan`. -/
  | no_rows
  /-- A `UNIQUE` constraint failed. -/
  | unique
  /-- A `FOREIGN KEY` constraint failed. -/
  | foreign_key
  /-- A `CHECK` constraint failed. -/
  | check
  deriving DecidableEq, Repr

deriving instance DecidableEq for Except

/-- A `*sql.DB`: the store and the schedule of driver failures, one flag per
statement still to come (`true`: that statement fails in the driver); past the
end of the schedule no statement fails. -/
structure DB where
  store : Store
  faults : List Bool
  deriving DecidableEq, Repr

/-- A connection whose driver never fails. -/
def DB.healthy (s : Store) : DB := ⟨s, []⟩

/-- Whether the driver fails the next statement. -/
def DB.fails (db : DB) : Bool := db.faults.headD false

/-- The connection after a statement that left the store as it was. -/
def DB.step (db : DB) : DB := ⟨db.store, db.faults.tail⟩

/-- Outcome of `db.Exec`: under autocommit a failed statement leaves the store
as it was. -/
def DB.Exec {α : Type} (db : DB) (stmt : Store → Except DbErr (α × Store)) :
    Except DbErr α × DB :=
  if db.fails then (.error .driver, db.step)
  else
    match stmt db.store with
    | .error e => (.error e, db.step)
    | .ok (a, s) => (.ok a, ⟨s, db.faults.tail⟩)

/-- Outcome of `db.Query` followed by reading all rows. -/
def DB.Query {α : Type} (db : DB) (q : Store → List α) : Except DbErr (List α) × DB :=
  (if db.fails then .error .driver else .ok (q db.store), db.step)

/-- Outcome of `db.QueryRow(...).Scan`: the first row, `sql.ErrNoRows` when
there is none. -/
def DB.QueryRow {α : Type} (db : DB) (q : Store → List α) : Except DbErr α × DB :=
  (if db.fails then .error .driver
    else
      match q db.store with
      | [] => .error .no_rows
      | a :: _ => .ok a,
    db.step)

/-- Test `err == sql.ErrNoRows`. -/
def isNoRows {α : Type} : Except DbErr α → Bool
  | .error .no_rows => true
  | _ => false

/-- Rowid of the next `AUTOINCREMENT` insert: one more than the largest rowid
that is or ever was in the table. -/
def nextId (seq : Int) (ids : List Int) : Int :=
  ids.foldl max (max seq 0) + 1

/-- SQL aggregate `MAX(column)`: `NULL` over no rows. -/
def sqlMax : List Int → Option Int
  | [] => none
  | a :: l => some (l.foldl max a)

/-- Rows in `ORDER BY` order: a stable sort by the given order. -/
def orderBy {α : Type} (r : α → α → Prop) [DecidableRel r] (l : List α) : List α :=
  l.insertionSort r

/-! ## Integrity that the schema guarantees -/

/-- Primary key of `exercises`. -/
def pkExercises (s : Store) : Prop := (s.exercises.map fun e => e.id).Nodup

/-- Primary key of `workout_templates`. -/
def pkTemplates (s : Store) : Prop := (s.workout_templates.map fun t => t.id).Nodup

/-- Primary key of `workouts`. -/
def pkWorkouts (s : Store) : Prop := (s.workouts.map fun w => w.id).Nodup

/-- Primary key of `workout_exercises`. -/
def pkWorkoutExercises (s : Store) : Prop := (s.workout_exercises.map fun we => we.id).Nodup

/-- Primary key of `logged_sets`. -/
def pkLoggedSets (s : Store) : Prop := (s.logged_sets.map fun ls => ls.id).Nodup

/-- Foreign key `workout_exercises.workout_id REFERENCES workouts(id)`. -/
def fkWorkoutOfWorkoutExercise (s : Store) : Prop :=
  ∀ we ∈ s.workout_exercises, we.workout_id ∈ s.workouts.map fun w => w.id

/-- Foreign key `workout_exercises.exercise_id REFERENCES exercises(id)`. -/
def fkExerciseOfWorkoutExercise (s : Store) : Prop :=
  ∀ we ∈ s.workout_exercises, we.exercise_id ∈ s.exercises.map fun e => e.id

/-- Foreign key `logged_sets.workout_exercise_id REFERENCES
workout_exercises(id)`. -/
def fkParentOfLoggedSet (s : Store) : Prop :=
  ∀ ls ∈ s.logged_sets, ls.workout_exercise_id ∈ s.workout_exercises.map fun we => we.id

instance (s : Store) : Decidable (pkExercises s) := by unfold pkExercises; exact inferInstance

instance (s : Store) : Decidable (pkTemplates s) := by unfold pkTemplates; exact inferInstance

instance (s : Store) : Decidable (pkWorkouts s) := by unfold pkWorkouts; exact inferInstance

instance (s : Store) : Decidable (pkWorkoutExercises s) := by
  unfold pkWorkoutExercises; exact inferInstance

instance (s : Store) : Decidable (pkLoggedSets s) := by unfold pkLoggedSets; exact inferInstance

instance (s : Store) : Decidable (fkWorkoutOfWorkoutExercise s) := by
  unfold fkWorkoutOfWorkoutExercise; exact inferInstance

instance (s : Store) : Decidable (fkExerciseOfWorkoutExercise s) := by
  unfold fkExerciseOfWorkoutExercise; exact inferInstance

instance (s : Store) : Decidable (fkParentOfLoggedSet s) := by
  unfold fkParentOfLoggedSet; exact inferInstance

/-! ## Go maps -/

/-- A Go `map[int64]V`, as the list of its entries. -/
abbrev GoMap (V : Type) := List (Int × V)

/-- Lookup `m[k]` with the comma-ok result. -/
def GoMap.get {V : Type} (m : GoMap V) (k : Int) : Option V :=
  (m.find? fun e => e.1 = k).map Prod.snd

/-- Assignment `m[k] = v`. -/
def GoMap.set {V : Type} (m : GoMap V) (k : Int) (v : V) : GoMap V :=
  (k, v) :: m.filter fun e => e.1 ≠ k

/-! ## Package exercises -/

namespace exercises

/-- The order `ORDER BY name ASC`. -/
def byName (a b : Exercise) : Prop := a.name ≤ b.name

instance : DecidableRel byName := fun a b => by
  unfold byName; exact inferInstance

/-- Go `exercises.ListAll`. -/
def ListAll (db : DB) : Except DbErr (List Exercise) × DB :=
  db.Query fun s => orderBy byName s.exercises

end exercises

/-! ## Package templates -/

namespace templates

/-- Go `templates.UpdateExercise`; the new targets must pass the `CHECK`
constraints of the table when a row is updated. -/
def UpdateExercise (db : DB) (id targetSets targetReps : Int) : Except DbErr Unit × DB :=
  db.Exec fun s =>
    if (∃ te ∈ s.template_exercises, te.id = id) ∧ (targetSets ≤ 0 ∨ targetReps ≤ 0) then
      .error .check
    else
      .ok ((), { s with
        template_exercises := s.template_exercises.map fun te =>
          if te.id = id then { te with target_sets := targetSets, target_reps := targetReps }
          else te })

end templates

/-! ## Package workouts: models -/

namespace workouts

/-- Go struct `WorkoutExercise`. -/
structure WorkoutExercise where
  ID : Int
  WorkoutID : Int
  ExerciseID : Int
  Exercise : Phobos.Exercise
  Position : Int
  Sets : List LoggedSet
  LastWeight : Option Weight
  TargetSets : Option Int
  TargetReps : Option Int
  deriving DecidableEq, Repr

/-- Go struct `Workout`. -/
structure Workout where
  ID : Int
  Name : String
  Date : Nat
  Notes : String
  Status : WorkoutStatus
  TemplateID : Option Int
  CreatedAt : Nat
  FinishedAt : Option Nat
  Exercises : List WorkoutExercise
  deriving DecidableEq, Repr

/-- Method `(*Workout).IsFinished`. -/
def Workout.IsFinished (w : Workout) : Bool :=
  w.Status = WorkoutStatus.finished

/-! ## Package workouts: last weight -/

/-- The join `logged_sets ls JOIN workout_exercises we ON
ls.workout_exercise_id = we.id JOIN workouts w ON we.workout_id = w.id`. -/
def setJoin (s : Store) : List (LoggedSet × WorkoutExerciseRow × WorkoutRow) :=
  s.logged_sets.flatMap fun ls =>
    (s.workout_exercises.filter fun we => ls.workout_exercise_id = we.id).flatMap fun we =>
      (s.workouts.filter fun w => we.workout_id = w.id).map fun w => (ls, we, w)

/-- The order `ORDER BY w.date DESC, ls.created_at DESC` on joined rows. -/
def recentFirst (a b : LoggedSet × WorkoutExerciseRow × WorkoutRow) : Prop :=
  b.2.2.date < a.2.2.date ∨ (a.2.2.date = b.2.2.date ∧ b.1.created_at ≤ a.1.created_at)

instance : DecidableRel recentFirst := fun a b => by
  unfold recentFirst; exact inferInstance

/-- Rows of the query of `GetLastWeight` before `LIMIT 1`. -/
def lastWeightRows (s : Store) (exerciseID excludeWorkoutID : Int) :
    List (LoggedSet × WorkoutExerciseRow × WorkoutRow) :=
  orderBy recentFirst
    ((setJoin s).filter fun r =>
      r.2.1.exercise_id = exerciseID ∧ r.2.2.status = WorkoutStatus.finished ∧
        r.2.2.id ≠ excludeWorkoutID)

/-- Go `GetLastWeight`.  The scanned `sql.NullFloat64` stays invalid whenever
`Scan` fails, and the first test returns on an invalid value. -/
def GetLastWeight (db : DB) (exerciseID excludeWorkoutID : Int) :
    Except DbErr (Option Weight) × DB :=
  let (err, db1) := db.QueryRow fun s =>
    ((lastWeightRows s exerciseID excludeWorkoutID).take 1).map fun r => r.1.weight
  let weight : Option Weight :=
    match err with
    | .ok w => some w
    | .error _ => none
  if isNoRows err || weight.isNone then (.ok none, db1)
  else
    match err with
    | .error e => (.error e, db1)
    | .ok _ => (.ok weight, db1)

/-- The pair `(ls, w)` is a logged set of exercise `E` that lies in the
Finished workout `w`, a workout other than `X`. -/
def lastWeightSource (s : Store) (E X : Int) (ls : LoggedSet) (w : WorkoutRow) : Prop :=
  ls ∈ s.logged_sets ∧ w ∈ s.workouts ∧ w.status = WorkoutStatus.finished ∧ w.id ≠ X ∧
    ∃ we ∈ s.workout_exercises,
      ls.workout_exercise_id = we.id ∧ we.workout_id = w.id ∧ we.exercise_id = E

/-- The scalar subquery of `getLastWeightsBatch`: the id of the first row of
the single-exercise query, `NULL` when that query has no row. -/
def lastSetId (s : Store) (exerciseID excludeWorkoutID : Int) : Option Int :=
  ((lastWeightRows s exerciseID excludeWorkoutID).take 1).head?.map fun r => r.1.id

/-- Go `getLastWeightsBatch`. -/
def getLastWeightsBatch (db : DB) (exerciseIDs : List Int) (excludeWorkoutID : Int) :
    Except DbErr (GoMap Weight) × DB :=
  if exerciseIDs.length = 0 then (.ok [], db)
  else
    match db.Query fun s =>
      ((setJoin s).filter fun r =>
        r.2.1.exercise_id ∈ exerciseIDs ∧ r.2.2.status = WorkoutStatus.finished ∧
          r.2.2.id ≠ excludeWorkoutID ∧
          some r.1.id = lastSetId s r.2.1.exercise_id excludeWorkoutID).map
        fun r => (r.2.1.exercise_id, r.1.weight) with
    | (.error e, db1) => (.error e, db1)
    | (.ok rows, db1) =>
      (.ok (rows.foldl (fun result r => result.set r.1 r.2) []), db1)

/-! ## Package workouts: logged sets -/

/-- The order `ORDER BY position ASC` on sets. -/
def byPosition (a b : LoggedSet) : Prop := a.position ≤ b.position

instance : DecidableRel byPosition := fun a b => by
  unfold byPosition; exact inferInstance

/-- The order `ORDER BY workout_exercise_id, position ASC` on sets. -/
def byParentThenPosition (a b : LoggedSet) : Prop :=
  a.workout_exercise_id < b.workout_exercise_id ∨
    (a.workout_exercise_id = b.workout_exercise_id ∧ a.position ≤ b.position)

instance : DecidableRel byParentThenPosition := fun a b => by
  unfold byParentThenPosition; exact inferInstance

/-- Go `GetLoggedSets`. -/
def GetLoggedSets (db : DB) (workoutExerciseID : Int) : Except DbErr (List LoggedSet) × DB :=
  db.Query fun s =>
    orderBy byPosition (s.logged_sets.filter fun ls => ls.workout_exercise_id = workoutExerciseID)

/-- Go `getLoggedSetsBatch`. -/
def getLoggedSetsBatch (db : DB) (workoutExerciseIDs : List Int) :
    Except DbErr (GoMap (List LoggedSet)) × DB :=
  if workoutExerciseIDs.length = 0 then (.ok [], db)
  else
    match db.Query fun s =>
      orderBy byParentThenPosition
        (s.logged_sets.filter fun ls => ls.workout_exercise_id ∈ workoutExerciseIDs) with
    | (.error e, db1) => (.error e, db1)
    | (.ok rows, db1) =>
      (.ok (rows.foldl (fun result s =>
          result.set s.workout_exercise_id
            ((result.get s.workout_exercise_id).getD [] ++ [s])) []), db1)

/-- Statement `INSERT INTO logged_sets (workout_exercise_id, reps, weight,
position)`. -/
def insertLoggedSet (now : Nat) (workoutExerciseID reps : Int) (weight : Weight)
    (position : Int) (s : Store) : Except DbErr (Int × Store) :=
  if reps < 0 ∨ weight < 0 then .error .check
  else if ∃ ls ∈ s.logged_sets,
      ls.workout_exercise_id = workoutExerciseID ∧ ls.position = position then
    .error .unique
  else if workoutExerciseID ∉ s.workout_exercises.map (fun we => we.id) then
    .error .foreign_key
  else
    let id := nextId s.seq_logged_sets (s.logged_sets.map fun ls => ls.id)
    .ok (id, { s with
      logged_sets := s.logged_sets ++ [⟨id, workoutExerciseID, reps, weight, position, now⟩]
      seq_logged_sets := id })

/-- Go `AddSet`. -/
def AddSet (now : Nat) (db : DB) (workoutExerciseID reps : Int) (weight : Weight) :
    Except DbErr Int × DB :=
  match db.QueryRow fun s =>
    [sqlMax ((s.logged_sets.filter fun ls =>
      ls.workout_exercise_id = workoutExerciseID).map fun ls => ls.position)] with
  | (.error e, db1) => (.error e, db1)
  | (.ok maxPos, db1) =>
    let nextPos : Int :=
      match maxPos with
      | some m => m + 1
      | none => 1
    db1.Exec (insertLoggedSet now workoutExerciseID reps weight nextPos)

/-- Go `UpdateSet`. -/
def UpdateSet (db : DB) (id reps : Int) (weight : Weight) : Except DbErr Unit × DB :=
  db.Exec fun s =>
    if (∃ ls ∈ s.logged_sets, ls.id = id) ∧ (reps < 0 ∨ weight < 0) then .error .check
    else
      .ok ((), { s with
        logged_sets := s.logged_sets.map fun ls =>
          if ls.id = id then { ls with reps := reps, weight := weight } else ls })

/-- Go `DeleteSet`. -/
def DeleteSet (db : DB) (id : Int) : Except DbErr Unit × DB :=
  db.Exec fun s =>
    .ok ((), { s with logged_sets := s.logged_sets.filter fun ls => ls.id ≠ id })

/-- Go `GetSetByID`. -/
def GetSetByID (db : DB) (id : Int) : Except DbErr (Option LoggedSet) × DB :=
  match db.QueryRow fun s => s.logged_sets.filter fun ls => ls.id = id with
  | (.error .no_rows, db1) => (.ok none, db1)
  | (.error e, db1) => (.error e, db1)
  | (.ok set, db1) => (.ok (some set), db1)

/-! ## Package workouts: workout exercises -/

/-- The join `workout_exercises we JOIN exercises e ON we.exercise_id = e.id`. -/
def exerciseJoin (s : Store) : List (WorkoutExerciseRow × Exercise) :=
  s.workout_exercises.flatMap fun we =>
    (s.exercises.filter fun e => we.exercise_id = e.id).map fun e => (we, e)

/-- The order `ORDER BY we.position ASC` on joined rows. -/
def byExercisePosition (a b : WorkoutExerciseRow × Exercise) : Prop :=
  a.1.position ≤ b.1.position

instance : DecidableRel byExercisePosition := fun a b => by
  unfold byExercisePosition; exact inferInstance

/-- The `rows.Scan` of a joined row into a `WorkoutExercise`. -/
def scanWorkoutExercise (r : WorkoutExerciseRow × Exercise) : WorkoutExercise :=
  ⟨r.1.id, r.1.workout_id, r.1.exercise_id, r.2, r.1.position, [], none, none, none⟩

/-- Go `GetWorkoutExercises`. -/
def GetWorkoutExercises (db : DB) (workoutID : Int) :
    Except DbErr (List WorkoutExercise) × DB :=
  match db.Query fun s =>
    orderBy byExercisePosition ((exerciseJoin s).filter fun r => r.1.workout_id = workoutID) with
  | (.error e, db1) => (.error e, db1)
  | (.ok rows, db1) =>
    let exercises := rows.map scanWorkoutExercise
    let workoutExerciseIDs := exercises.map fun we => we.ID
    let exerciseIDs := exercises.map fun we => we.ExerciseID
    if exercises.length = 0 then (.ok exercises, db1)
    else
      match getLoggedSetsBatch db1 workoutExerciseIDs with
      | (.error e, db2) => (.error e, db2)
      | (.ok setsMap, db2) =>
        match getLastWeightsBatch db2 exerciseIDs workoutID with
        | (.error e, db3) => (.error e, db3)
        | (.ok lastWeightsMap, db3) =>
          (.ok (exercises.map fun we =>
            { we with
              Sets := (setsMap.get we.ID).getD []
              LastWeight := lastWeightsMap.get we.ExerciseID }), db3)

/-- Go `GetWorkoutExerciseByID`. -/
def GetWorkoutExerciseByID (db : DB) (id : Int) : Except DbErr (Option WorkoutExercise) × DB :=
  match db.QueryRow fun s => (exerciseJoin s).filter fun r => r.1.id = id with
  | (.error .no_rows, db1) => (.ok none, db1)
  | (.error e, db1) => (.error e, db1)
  | (.ok row, db1) =>
    let we := scanWorkoutExercise row
    match GetLoggedSets db1 we.ID with
    | (.error e, db2) => (.error e, db2)
    | (.ok sets, db2) =>
      match GetLastWeight db2 we.ExerciseID we.WorkoutID with
      | (.error e, db3) => (.error e, db3)
      | (.ok lastWeight, db3) =>
        (.ok (some { we with Sets := sets, LastWeight := lastWeight }), db3)

/-- Statement `INSERT INTO workout_exercises (workout_id, exercise_id,
position)`. -/
def insertWorkoutExercise (workoutID exerciseID position : Int) (s : Store) :
    Except DbErr (Int × Store) :=
  if ∃ we ∈ s.workout_exercises, we.workout_id = workoutID ∧ we.position = position then
    .error .unique
  else if workoutID ∉ s.workouts.map (fun w => w.id) ∨
      exerciseID ∉ s.exercises.map (fun e => e.id) then
    .error .foreign_key
  else
    let id := nextId s.seq_workout_exercises (s.workout_exercises.map fun we => we.id)
    .ok (id, { s with
      workout_exercises := s.workout_exercises ++ [⟨id, workoutID, exerciseID, position⟩]
      seq_workout_exercises := id })

/-- Go `AddExercise`. -/
def AddExercise (db : DB) (workoutID exerciseID : Int) : Except DbErr Int × DB :=
  match db.QueryRow fun s =>
    [sqlMax ((s.workout_exercises.filter fun we =>
      we.workout_id = workoutID).map fun we => we.position)] with
  | (.error e, db1) => (.error e, db1)
  | (.ok maxPos, db1) =>
    let nextPos : Int :=
      match maxPos with
      | some m => m + 1
      | none => 1
    db1.Exec (insertWorkoutExercise workoutID exerciseID nextPos)

/-- Go `RemoveExercise`; the sets of the row go with it (`ON DELETE CASCADE`). -/
def RemoveExercise (db : DB) (id : Int) : Except DbErr Unit × DB :=
  db.Exec fun s =>
    .ok ((), { s with
      workout_exercises := s.workout_exercises.filter fun we => we.id ≠ id
      logged_sets :=
        if ∃ we ∈ s.workout_exercises, we.id = id then
          s.logged_sets.filter fun ls => ls.workout_exercise_id ≠ id
        else s.logged_sets })

/-! ## Package workouts: workouts -/

/-- Go `GetByID`. -/
def GetByID (db : DB) (id : Int) : Except DbErr (Option Workout) × DB :=
  match db.QueryRow fun s => s.workouts.filter fun w => w.id = id with
  | (.error .no_rows, db1) => (.ok none, db1)
  | (.error e, db1) => (.error e, db1)
  | (.ok row, db1) =>
    match GetWorkoutExercises db1 id with
    | (.error e, db2) => (.error e, db2)
    | (.ok exercises, db2) =>
      (.ok (some ⟨row.id, row.name, row.date, row.notes.getD "", row.status, row.template_id,
        row.created_at, row.finished_at, exercises⟩), db2)

/-- Statement `INSERT INTO workouts (name, date, template_id, status)`; without
a template the column `template_id` is left `NULL`. -/
def insertWorkout (now : Nat) (name : String) (date : Nat) (templateID : Option Int)
    (s : Store) : Except DbErr (Int × Store) :=
  if ∃ t, templateID = some t ∧ t ∉ s.workout_templates.map (fun r => r.id) then
    .error .foreign_key
  else
    let id := nextId s.seq_workouts (s.workouts.map fun w => w.id)
    .ok (id, { s with
      workouts := s.workouts ++
        [⟨id, name, date, none, WorkoutStatus.in_progress, templateID, now, none⟩]
      seq_workouts := id })

/-- Go `Create`. -/
def Create (now : Nat) (db : DB) (name : String) (date : Nat) (templateID : Option Int) :
    Except DbErr Int × DB :=
  db.Exec (insertWorkout now name date templateID)

/-- Go `Update`. -/
def Update (db : DB) (id : Int) (name : String) (date : Nat) (notes : String) :
    Except DbErr Unit × DB :=
  db.Exec fun s =>
    .ok ((), { s with
      workouts := s.workouts.map fun w =>
        if w.id = id ∧ w.status = WorkoutStatus.in_progress then
          { w with name := name, date := date, notes := some notes }
        else w })

/-- Go `Finish`. -/
def Finish (now : Nat) (db : DB) (id : Int) : Except DbErr Unit × DB :=
  db.Exec fun s =>
    .ok ((), { s with
      workouts := s.workouts.map fun w =>
        if w.id = id ∧ w.status = WorkoutStatus.in_progress then
          { w with status := WorkoutStatus.finished, finished_at := some now }
        else w })

/-! ## Package workouts: template instantiation -/

/-- The order `ORDER BY position ASC` on template exercise rows. -/
def byTemplatePosition (a b : TemplateExerciseRow) : Prop := a.position ≤ b.position

instance : DecidableRel byTemplatePosition := fun a b => by
  unfold byTemplatePosition; exact inferInstance

/-- The insert loop of `CreateFromTemplate` over the collected
`(exerciseID, position)` pairs; the first failing insert ends the call. -/
def copyExercises (db : DB) (workoutID : Int) : List (Int × Int) → Except DbErr Int × DB
  | [] => (.ok workoutID, db)
  | ex :: rest =>
    match db.Exec (insertWorkoutExercise workoutID ex.1 ex.2) with
    | (.error e, db1) => (.error e, db1)
    | (.ok _, db1) => copyExercises db1 workoutID rest

/-- Go `CreateFromTemplate`. -/
def CreateFromTemplate (now : Nat) (db : DB) (workoutName : String) (date : Nat)
    (templateID : Int) : Except DbErr Int × DB :=
  match Create now db workoutName date (some templateID) with
  | (.error e, db1) => (.error e, db1)
  | (.ok workoutID, db1) =>
    match db1.Query fun s =>
      orderBy byTemplatePosition
        (s.template_exercises.filter fun te => te.template_id = templateID) with
    | (.error e, db2) => (.error e, db2)
    | (.ok rows, db2) =>
      copyExercises db2 workoutID (rows.map fun te => (te.exercise_id, te.position))

/-- Go `GetTemplateTargets`: the pair `(targetSets, targetReps)`. -/
def GetTemplateTargets (db : DB) (templateID exerciseID : Int) :
    Except DbErr (Option Int × Option Int) × DB :=
  match db.QueryRow fun s =>
    (s.template_exercises.filter fun te =>
      te.template_id = templateID ∧ te.exercise_id = exerciseID).map
      fun te => (te.target_sets, te.target_reps) with
  | (.error .no_rows, db1) => (.ok (none, none), db1)
  | (.error e, db1) => (.error e, db1)
  | (.ok row, db1) => (.ok (some row.1, some row.2), db1)

/-! ## Package workouts: handlers

A handler takes the connection and the request fields after `strconv`
(`none`: the field does not parse) and answers with a status and the view it
renders; the views themselves are outside this development. -/

/-- What a handler sends: a text or a view with its arguments. -/
inductive Body where
  | text (s : String)
  | WorkoutDetailPage (workout : Workout) (allExercises : List Exercise)
  | WorkoutExerciseCard (we : WorkoutExercise) (finished : Bool) (templateID : Option Int)
  | SetRow (set : LoggedSet) (finished : Bool)
  deriving DecidableEq, Repr

/-- Status code and body of a response. -/
structure Response where
  status : Nat
  body : Body
  deriving DecidableEq, Repr

/-- The loop of `HandleShow` that resolves the targets of every exercise; the
error of `GetTemplateTargets` is dropped and leaves both targets `nil`. -/
def loadTargets (db : DB) (templateID : Int) : List WorkoutExercise → List WorkoutExercise × DB
  | [] => ([], db)
  | we :: rest =>
    match GetTemplateTargets db templateID we.ExerciseID with
    | (r, db1) =>
      let targets : Option Int × Option Int :=
        match r with
        | .ok p => p
        | .error _ => (none, none)
      match loadTargets db1 templateID rest with
      | (rest1, db2) =>
        ({ we with TargetSets := targets.1, TargetReps := targets.2 } :: rest1, db2)

/-- Go `HandleShow`. -/
def HandleShow (db : DB) (id : Option Int) : Response × DB :=
  match id with
  | none => (⟨400, .text "Invalid ID"⟩, db)
  | some id =>
    match GetByID db id with
    | (.error _, db1) => (⟨500, .text "Failed to load workout"⟩, db1)
    | (.ok none, db1) => (⟨404, .text "Workout not found"⟩, db1)
    | (.ok (some workout), db1) =>
      match (match workout.TemplateID with
        | some t => loadTargets db1 t workout.Exercises
        | none => (workout.Exercises, db1)) with
      | (exs, db2) =>
        match exercises.ListAll db2 with
        | (.error _, db3) => (⟨500, .text "Failed to load exercises"⟩, db3)
        | (.ok allExercises, db3) =>
          (⟨200, .WorkoutDetailPage { workout with Exercises := exs } allExercises⟩, db3)

/-- Go `HandleUpdate`. -/
def HandleUpdate (db : DB) (id : Option Int) (name : String) (date : Option Nat)
    (notes : String) : Response × DB :=
  match id with
  | none => (⟨400, .text "Invalid ID"⟩, db)
  | some id =>
    if name = "" then (⟨400, .text "Name is required"⟩, db)
    else
      match date with
      | none => (⟨400, .text "Invalid date"⟩, db)
      | some date =>
        match Update db id name date notes with
        | (.error _, db1) => (⟨500, .text "Failed to update workout"⟩, db1)
        | (.ok _, db1) => (⟨200, .text ""⟩, db1)

/-- Go `HandleAddExercise`. -/
def HandleAddExercise (db : DB) (id : Option Int) (exercise_id : Option Int) : Response × DB :=
  match id with
  | none => (⟨400, .text "Invalid workout ID"⟩, db)
  | some workoutID =>
    match GetByID db workoutID with
    | (.error _, db1) => (⟨404, .text "Workout not found"⟩, db1)
    | (.ok none, db1) => (⟨404, .text "Workout not found"⟩, db1)
    | (.ok (some workout), db1) =>
      if workout.IsFinished then (⟨400, .text "Cannot modify finished workout"⟩, db1)
      else
        match exercise_id with
        | none => (⟨400, .text "Invalid exercise ID"⟩, db1)
        | some exerciseID =>
          match AddExercise db1 workoutID exerciseID with
          | (.error _, db2) => (⟨500, .text "Failed to add exercise"⟩, db2)
          | (.ok newID, db2) =>
            match GetWorkoutExerciseByID db2 newID with
            | (.ok (some we), db3) =>
              (⟨200, .WorkoutExerciseCard we false workout.TemplateID⟩, db3)
            | (_, db3) => (⟨500, .text "Failed to load exercise"⟩, db3)

/-- Go `HandleRemoveExercise`. -/
def HandleRemoveExercise (db : DB) (id : Option Int) : Response × DB :=
  match id with
  | none => (⟨400, .text "Invalid ID"⟩, db)
  | some id =>
    match GetWorkoutExerciseByID db id with
    | (.ok (some we), db1) =>
      match GetByID db1 we.WorkoutID with
      | (.ok (some workout), db2) =>
        if workout.IsFinished then (⟨400, .text "Cannot modify finished workout"⟩, db2)
        else
          match RemoveExercise db2 id with
          | (.error _, db3) => (⟨500, .text "Failed to remove exercise"⟩, db3)
          | (.ok _, db3) => (⟨200, .text ""⟩, db3)
      | (_, db2) => (⟨400, .text "Cannot modify finished workout"⟩, db2)
    | (_, db1) => (⟨404, .text "Exercise not found"⟩, db1)

/-- Go `HandleAddSet`. -/
def HandleAddSet (now : Nat) (db : DB) (id : Option Int) (reps : Option Int)
    (weight : Option Weight) : Response × DB :=
  match id with
  | none => (⟨400, .text "Invalid exercise ID"⟩, db)
  | some workoutExerciseID =>
    match GetWorkoutExerciseByID db workoutExerciseID with
    | (.ok (some we), db1) =>
      match GetByID db1 we.WorkoutID with
      | (.ok (some workout), db2) =>
        if workout.IsFinished then (⟨400, .text "Cannot modify finished workout"⟩, db2)
        else
          match reps with
          | none => (⟨400, .text "Invalid reps"⟩, db2)
          | some reps =>
            match weight with
            | none => (⟨400, .text "Invalid weight"⟩, db2)
            | some weight =>
              match AddSet now db2 workoutExerciseID reps weight with
              | (.error _, db3) => (⟨500, .text "Failed to add set"⟩, db3)
              | (.ok newID, db3) =>
                match GetSetByID db3 newID with
                | (.ok (some set), db4) => (⟨200, .SetRow set false⟩, db4)
                | (_, db4) => (⟨500, .text "Failed to load set"⟩, db4)
      | (_, db2) => (⟨400, .text "Cannot modify finished workout"⟩, db2)
    | (_, db1) => (⟨404, .text "Exercise not found"⟩, db1)

/-- Go `HandleUpdateSet`. -/
def HandleUpdateSet (db : DB) (id : Option Int) (reps : Option Int) (weight : Option Weight) :
    Response × DB :=
  match id with
  | none => (⟨400, .text "Invalid ID"⟩, db)
  | some id =>
    match reps with
    | none => (⟨400, .text "Invalid reps"⟩, db)
    | some reps =>
      match weight with
      | none => (⟨400, .text "Invalid weight"⟩, db)
      | some weight =>
        match UpdateSet db id reps weight with
        | (.error _, db1) => (⟨500, .text "Failed to update set"⟩, db1)
        | (.ok _, db1) => (⟨200, .text ""⟩, db1)

/-- Go `HandleDeleteSet`. -/
def HandleDeleteSet (db : DB) (id : Option Int) : Response × DB :=
  match id with
  | none => (⟨400, .text "Invalid ID"⟩, db)
  | some id =>
    match DeleteSet db id with
    | (.error _, db1) => (⟨500, .text "Failed to delete set"⟩, db1)
    | (.ok _, db1) => (⟨200, .text ""⟩, db1)

end workouts

/-! ## Transactions -/

/-- A `*sql.Tx`: the store as it was at `db.Begin` and the connection that
carries the writes of the transaction. -/
structure Tx where
  snapshot : Store
  conn : DB
  deriving DecidableEq, Repr

/-- Outcome of `db.Begin`. -/
def DB.Begin (db : DB) : Except DbErr Tx × DB :=
  (if db.fails then .error .driver else .ok ⟨db.store, db.step⟩, db.step)

/-- Outcome of `tx.Exec`: a failed statement leaves the writes of the
transaction so far as they were. -/
def Tx.Exec {α : Type} (tx : Tx) (stmt : Store → Except DbErr (α × Store)) :
    Except DbErr α × Tx :=
  match tx.conn.Exec stmt with
  | (r, conn) => (r, ⟨tx.snapshot, conn⟩)

/-- Outcome of `tx.Commit`: a commit that fails leaves the store as it was at
`db.Begin`. -/
def Tx.Commit (tx : Tx) : Except DbErr Unit × DB :=
  if tx.conn.fails then (.error .driver, ⟨tx.snapshot, tx.conn.faults.tail⟩)
  else (.ok (), tx.conn.step)

/-- The deferred `tx.Rollback` of a transaction that was not committed: the
store is again as it was at `db.Begin`; its own outcome is dropped by the
callers. -/
def Tx.Rollback (tx : Tx) : DB := ⟨tx.snapshot, tx.conn.faults⟩

/-! ## Package exercises: writes -/

namespace exercises

/-- Statement `INSERT INTO exercises (name) VALUES (?)`; `name` is `UNIQUE`. -/
def insertExercise (now : Nat) (name : String) (s : Store) : Except DbErr (Int × Store) :=
  if ∃ e ∈ s.exercises, e.name = name then .error .unique
  else
    let id := nextId s.seq_exercises (s.exercises.map fun e => e.id)
    .ok (id, { s with exercises := s.exercises ++ [⟨id, name, now⟩], seq_exercises := id })

/-- Go `exercises.Create`. -/
def Create (now : Nat) (db : DB) (name : String) : Except DbErr Int × DB :=
  db.Exec (insertExercise now name)

/-- Statement `DELETE FROM exercises WHERE id = ?`; rows of `template_exercises`
and `workout_exercises` that reference the exercise restrict it. -/
def deleteExercise (id : Int) (s : Store) : Except DbErr (Unit × Store) :=
  if (∃ e ∈ s.exercises, e.id = id) ∧
      ((∃ te ∈ s.template_exercises, te.exercise_id = id) ∨
        ∃ we ∈ s.workout_exercises, we.exercise_id = id) then
    .error .foreign_key
  else .ok ((), { s with exercises := s.exercises.filter fun e => e.id ≠ id })

/-- Go `exercises.Delete`. -/
def Delete (db : DB) (id : Int) : Except DbErr Unit × DB :=
  db.Exec (deleteExercise id)

end exercises

/-! ## Package templates: templates and their exercises -/

namespace templates

/-- Go struct `TemplateExercise`. -/
structure TemplateExercise where
  ID : Int
  TemplateID : Int
  ExerciseID : Int
  Exercise : Phobos.Exercise
  TargetSets : Int
  TargetReps : Int
  Position : Int
  deriving DecidableEq, Repr

/-- Go struct `WorkoutTemplate`. -/
structure WorkoutTemplate where
  ID : Int
  Name : String
  CreatedAt : Nat
  UpdatedAt : Nat
  Exercises : List TemplateExercise
  deriving DecidableEq, Repr

/-- Statement `INSERT INTO workout_templates (name) VALUES (?)`. -/
def insertTemplate (now : Nat) (name : String) (s : Store) : Except DbErr (Int × Store) :=
  let id := nextId s.seq_workout_templates (s.workout_templates.map fun t => t.id)
  .ok (id, { s with
    workout_templates := s.workout_templates ++ [⟨id, name, now, now⟩]
    seq_workout_templates := id })

/-- Go `templates.Create`. -/
def Create (now : Nat) (db : DB) (name : String) : Except DbErr Int × DB :=
  db.Exec (insertTemplate now name)

/-- Statement `UPDATE workout_templates SET name = ?, updated_at =
CURRENT_TIMESTAMP WHERE id = ?`. -/
def updateTemplate (now : Nat) (id : Int) (name : String) (s : Store) :
    Except DbErr (Unit × Store) :=
  .ok ((), { s with
    workout_templates := s.workout_templates.map fun t =>
      if t.id = id then { t with name := name, updated_at := now } else t })

/-- Go `templates.Update`. -/
def Update (now : Nat) (db : DB) (id : Int) (name : String) : Except DbErr Unit × DB :=
  db.Exec (updateTemplate now id name)

/-- Statement `DELETE FROM workout_templates WHERE id = ?`: the rows of
`template_exercises` and of `routine_templates` of a deleted template go with
it (`ON DELETE CASCADE`) and the workouts made from it lose their
`template_id` (`ON DELETE SET NULL`). -/
def deleteTemplate (id : Int) (s : Store) : Except DbErr (Unit × Store) :=
  if ∃ t ∈ s.workout_templates, t.id = id then
    .ok ((), { s with
      workout_templates := s.workout_templates.filter fun t => t.id ≠ id
      template_exercises := s.template_exercises.filter fun te => te.template_id ≠ id
      routine_templates := s.routine_templates.filter fun rt => rt.template_id ≠ id
      workouts := s.workouts.map fun w =>
        if w.template_id = some id then { w with template_id := none } else w })
  else .ok ((), s)

/-- Go `templates.Delete`. -/
def Delete (db : DB) (id : Int) : Except DbErr Unit × DB :=
  db.Exec (deleteTemplate id)

/-- The join `template_exercises te JOIN exercises e ON te.exercise_id = e.id`. -/
def templateJoin (s : Store) : List (TemplateExerciseRow × Exercise) :=
  s.template_exercises.flatMap fun te =>
    (s.exercises.filter fun e => te.exercise_id = e.id).map fun e => (te, e)

/-- The order `ORDER BY te.position ASC` on joined rows. -/
def byJoinedPosition (a b : TemplateExerciseRow × Exercise) : Prop :=
  a.1.position ≤ b.1.position

instance : DecidableRel byJoinedPosition := fun a b => by
  unfold byJoinedPosition; exact inferInstance

/-- The `rows.Scan` of a joined row into a `TemplateExercise`. -/
def scanTemplateExercise (r : TemplateExerciseRow × Exercise) : TemplateExercise :=
  ⟨r.1.id, r.1.template_id, r.1.exercise_id, r.2, r.1.target_sets, r.1.target_reps,
    r.1.position⟩

/-- Go `GetTemplateExercises`. -/
def GetTemplateExercises (db : DB) (templateID : Int) :
    Except DbErr (List TemplateExercise) × DB :=
  match db.Query fun s =>
    orderBy byJoinedPosition ((templateJoin s).filter fun r => r.1.template_id = templateID) with
  | (.error e, db1) => (.error e, db1)
  | (.ok rows, db1) => (.ok (rows.map scanTemplateExercise), db1)

/-- Go `templates.GetByID`. -/
def GetByID (db : DB) (id : Int) : Except DbErr (Option WorkoutTemplate) × DB :=
  match db.QueryRow fun s => s.workout_templates.filter fun t => t.id = id with
  | (.error .no_rows, db1) => (.ok none, db1)
  | (.error e, db1) => (.error e, db1)
  | (.ok row, db1) =>
    match GetTemplateExercises db1 id with
    | (.error e, db2) => (.error e, db2)
    | (.ok exercises, db2) =>
      (.ok (some ⟨row.id, row.name, row.created_at, row.updated_at, exercises⟩), db2)

/-- Statement `INSERT INTO template_exercises (template_id, exercise_id,
target_sets, target_reps, position)`. -/
def insertTemplateExercise (templateID exerciseID targetSets targetReps position : Int)
    (s : Store) : Except DbErr (Int × Store) :=
  if targetSets ≤ 0 ∨ targetReps ≤ 0 then .error .check
  else if ∃ te ∈ s.template_exercises,
      te.template_id = templateID ∧ te.position = position then
    .error .unique
  else if templateID ∉ s.workout_templates.map (fun t => t.id) ∨
      exerciseID ∉ s.exercises.map (fun e => e.id) then
    .error .foreign_key
  else
    let id := nextId s.seq_template_exercises (s.template_exercises.map fun te => te.id)
    .ok (id, { s with
      template_exercises := s.template_exercises ++
        [⟨id, templateID, exerciseID, targetSets, targetReps, position⟩]
      seq_template_exercises := id })

/-- Statement `UPDATE workout_templates SET updated_at = CURRENT_TIMESTAMP
WHERE id = ?`. -/
def touchTemplate (now : Nat) (id : Int) (s : Store) : Except DbErr (Unit × Store) :=
  .ok ((), { s with
    workout_templates := s.workout_templates.map fun t =>
      if t.id = id then { t with updated_at := now } else t })

/-- Go `templates.AddExercise`; the outcome of the timestamp update is
dropped. -/
def AddExercise (now : Nat) (db : DB) (templateID exerciseID targetSets targetReps : Int) :
    Except DbErr Int × DB :=
  match db.QueryRow fun s =>
    [sqlMax ((s.template_exercises.filter fun te =>
      te.template_id = templateID).map fun te => te.position)] with
  | (.error e, db1) => (.error e, db1)
  | (.ok maxPos, db1) =>
    let nextPos : Int :=
      match maxPos with
      | some m => m + 1
      | none => 1
    match db1.Exec (insertTemplateExercise templateID exerciseID targetSets targetReps nextPos) with
    | (.error e, db2) => (.error e, db2)
    | (.ok id, db2) =>
      match db2.Exec (touchTemplate now templateID) with
      | (_, db3) => (.ok id, db3)

/-- Statement `DELETE FROM template_exercises WHERE id = ?`. -/
def deleteTemplateExercise (id : Int) (s : Store) : Except DbErr (Unit × Store) :=
  .ok ((), { s with template_exercises := s.template_exercises.filter fun te => te.id ≠ id })

/-- Go `templates.RemoveExercise`. -/
def RemoveExercise (db : DB) (id : Int) : Except DbErr Unit × DB :=
  db.Exec (deleteTemplateExercise id)

/-- Statement `UPDATE template_exercises SET position = ? WHERE id = ? AND
template_id = ?`.  The index `UNIQUE(template_id, position)` is checked row by
row as the rows are written: the statement fails when a row it writes meets
another row of the template at the new position. -/
def updateExercisePosition (position id templateID : Int) (s : Store) :
    Except DbErr (Unit × Store) :=
  if 1 < (s.template_exercises.filter fun te =>
        te.id = id ∧ te.template_id = templateID).length ∨
      ((∃ te ∈ s.template_exercises, te.id = id ∧ te.template_id = templateID) ∧
        ∃ te ∈ s.template_exercises, ¬ (te.id = id ∧ te.template_id = templateID) ∧
          te.template_id = templateID ∧ te.position = position) then
    .error .unique
  else
    .ok ((), { s with
      template_exercises := s.template_exercises.map fun te =>
        if te.id = id ∧ te.template_id = templateID then { te with position := position }
        else te })

/-- The update loop of `ReorderExercises` from index `i` on; the first failing
update ends it. -/
def reorderLoop (tx : Tx) (templateID : Int) : Int → List Int → Except DbErr Unit × Tx
  | _, [] => (.ok (), tx)
  | i, id :: rest =>
    match tx.Exec (updateExercisePosition (i + 1) id templateID) with
    | (.error e, tx1) => (.error e, tx1)
    | (.ok _, tx1) => reorderLoop tx1 templateID (i + 1) rest

/-- Go `templates.ReorderExercises`. -/
def ReorderExercises (db : DB) (templateID : Int) (exerciseIDs : List Int) :
    Except DbErr Unit × DB :=
  match db.Begin with
  | (.error e, db1) => (.error e, db1)
  | (.ok tx, _) =>
    match reorderLoop tx templateID 0 exerciseIDs with
    | (.error e, tx1) => (.error e, tx1.Rollback)
    | (.ok _, tx1) => tx1.Commit

end templates

/-! ## Package routines -/

namespace routines

/-- Go struct `RoutineTemplate`. -/
structure RoutineTemplate where
  ID : Int
  RoutineID : Int
  TemplateID : Int
  Template : templates.WorkoutTemplate
  Position : Int
  deriving DecidableEq, Repr

/-- Go struct `Routine`. -/
structure Routine where
  ID : Int
  Name : String
  CreatedAt : Nat
  UpdatedAt : Nat
  Templates : List RoutineTemplate
  deriving DecidableEq, Repr

/-- Statement `INSERT INTO routines (name) VALUES (?)`. -/
def insertRoutine (now : Nat) (name : String) (s : Store) : Except DbErr (Int × Store) :=
  let id := nextId s.seq_routines (s.routines.map fun r => r.id)
  .ok (id, { s with routines := s.routines ++ [⟨id, name, now, now⟩], seq_routines := id })

/-- Go `routines.Create`. -/
def Create (now : Nat) (db : DB) (name : String) : Except DbErr Int × DB :=
  db.Exec (insertRoutine now name)

/-- Statement `UPDATE routines SET name = ?, updated_at = CURRENT_TIMESTAMP
WHERE id = ?`. -/
def updateRoutine (now : Nat) (id : Int) (name : String) (s : Store) :
    Except DbErr (Unit × Store) :=
  .ok ((), { s with
    routines := s.routines.map fun r =>
      if r.id = id then { r with name := name, updated_at := now } else r })

/-- Go `routines.Update`. -/
def Update (now : Nat) (db : DB) (id : Int) (name : String) : Except DbErr Unit × DB :=
  db.Exec (updateRoutine now id name)

/-- Statement `DELETE FROM routines WHERE id = ?`; the rows of
`routine_templates` of a deleted routine go with it (`ON DELETE CASCADE`). -/
def deleteRoutine (id : Int) (s : Store) : Except DbErr (Unit × Store) :=
  if ∃ r ∈ s.routines, r.id = id then
    .ok ((), { s with
      routines := s.routines.filter fun r => r.id ≠ id
      routine_templates := s.routine_templates.filter fun rt => rt.routine_id ≠ id })
  else .ok ((), s)

/-- Go `routines.Delete`. -/
def Delete (db : DB) (id : Int) : Except DbErr Unit × DB :=
  db.Exec (deleteRoutine id)

/-- The join `routine_templates rt JOIN workout_templates wt ON rt.template_id
= wt.id`. -/
def routineJoin (s : Store) : List (RoutineTemplateRow × TemplateRow) :=
  s.routine_templates.flatMap fun rt =>
    (s.workout_templates.filter fun wt => rt.template_id = wt.id).map fun wt => (rt, wt)

/-- The order `ORDER BY rt.position ASC` on joined rows. -/
def byJoinedPosition (a b : RoutineTemplateRow × TemplateRow) : Prop :=
  a.1.position ≤ b.1.position

instance : DecidableRel byJoinedPosition := fun a b => by
  unfold byJoinedPosition; exact inferInstance

/-- The `rows.Scan` of a joined row into a `RoutineTemplate`; the exercises of
the template are not loaded. -/
def scanRoutineTemplate (r : RoutineTemplateRow × TemplateRow) : RoutineTemplate :=
  ⟨r.1.id, r.1.routine_id, r.1.template_id,
    ⟨r.2.id, r.2.name, r.2.created_at, r.2.updated_at, []⟩, r.1.position⟩

/-- Go `GetRoutineTemplates`. -/
def GetRoutineTemplates (db : DB) (routineID : Int) :
    Except DbErr (List RoutineTemplate) × DB :=
  match db.Query fun s =>
    orderBy byJoinedPosition ((routineJoin s).filter fun r => r.1.routine_id = routineID) with
  | (.error e, db1) => (.error e, db1)
  | (.ok rows, db1) => (.ok (rows.map scanRoutineTemplate), db1)

/-- Go `routines.GetByID`. -/
def GetByID (db : DB) (id : Int) : Except DbErr (Option Routine) × DB :=
  match db.QueryRow fun s => s.routines.filter fun r => r.id = id with
  | (.error .no_rows, db1) => (.ok none, db1)
  | (.error e, db1) => (.error e, db1)
  | (.ok row, db1) =>
    match GetRoutineTemplates db1 id with
    | (.error e, db2) => (.error e, db2)
    | (.ok tmpls, db2) =>
      (.ok (some ⟨row.id, row.name, row.created_at, row.updated_at, tmpls⟩), db2)

/-- Statement `INSERT INTO routine_templates (routine_id, template_id,
position)`. -/
def insertRoutineTemplate (routineID templateID position : Int) (s : Store) :
    Except DbErr (Int × Store) :=
  if ∃ rt ∈ s.routine_templates, rt.routine_id = routineID ∧ rt.position = position then
    .error .unique
  else if routineID ∉ s.routines.map (fun r => r.id) ∨
      templateID ∉ s.workout_templates.map (fun t => t.id) then
    .error .foreign_key
  else
    let id := nextId s.seq_routine_templates (s.routine_templates.map fun rt => rt.id)
    .ok (id, { s with
      routine_templates := s.routine_templates ++ [⟨id, routineID, templateID, position⟩]
      seq_routine_templates := id })

/-- Statement `UPDATE routines SET updated_at = CURRENT_TIMESTAMP WHERE id =
?`. -/
def touchRoutine (now : Nat) (id : Int) (s : Store) : Except DbErr (Unit × Store) :=
  .ok ((), { s with
    routines := s.routines.map fun r => if r.id = id then { r with updated_at := now } else r })

/-- Go `routines.AddTemplate`; the outcome of the timestamp update is
dropped. -/
def AddTemplate (now : Nat) (db : DB) (routineID templateID : Int) : Except DbErr Int × DB :=
  match db.QueryRow fun s =>
    [sqlMax ((s.routine_templates.filter fun rt =>
      rt.routine_id = routineID).map fun rt => rt.position)] with
  | (.error e, db1) => (.error e, db1)
  | (.ok maxPos, db1) =>
    let nextPos : Int :=
      match maxPos with
      | some m => m + 1
      | none => 1
    match db1.Exec (insertRoutineTemplate routineID templateID nextPos) with
    | (.error e, db2) => (.error e, db2)
    | (.ok id, db2) =>
      match db2.Exec (touchRoutine now routineID) with
      | (_, db3) => (.ok id, db3)

/-- Statement `DELETE FROM routine_templates WHERE id = ?`. -/
def deleteRoutineTemplate (id : Int) (s : Store) : Except DbErr (Unit × Store) :=
  .ok ((), { s with routine_templates := s.routine_templates.filter fun rt => rt.id ≠ id })

/-- Go `routines.RemoveTemplate`. -/
def RemoveTemplate (db : DB) (id : Int) : Except DbErr Unit × DB :=
  db.Exec (deleteRoutineTemplate id)

/-- Statement `UPDATE routine_templates SET position = ? WHERE id = ? AND
routine_id = ?`, with the index `UNIQUE(routine_id, position)` checked row by
row as the rows are written. -/
def updateTemplatePosition (position id routineID : Int) (s : Store) :
    Except DbErr (Unit × Store) :=
  if 1 < (s.routine_templates.filter fun rt =>
        rt.id = id ∧ rt.routine_id = routineID).length ∨
      ((∃ rt ∈ s.routine_templates, rt.id = id ∧ rt.routine_id = routineID) ∧
        ∃ rt ∈ s.routine_templates, ¬ (rt.id = id ∧ rt.routine_id = routineID) ∧
          rt.routine_id = routineID ∧ rt.position = position) then
    .error .unique
  else
    .ok ((), { s with
      routine_templates := s.routine_templates.map fun rt =>
        if rt.id = id ∧ rt.routine_id = routineID then { rt with position := position }
        else rt })

/-- The update loop of `ReorderTemplates` from index `i` on; the first failing
update ends it. -/
def reorderLoop (tx : Tx) (routineID : Int) : Int → List Int → Except DbErr Unit × Tx
  | _, [] => (.ok (), tx)
  | i, id :: rest =>
    match tx.Exec (updateTemplatePosition (i + 1) id routineID) with
    | (.error e, tx1) => (.error e, tx1)
    | (.ok _, tx1) => reorderLoop tx1 routineID (i + 1) rest

/-- Go `routines.ReorderTemplates`. -/
def ReorderTemplates (db : DB) (routineID : Int) (templateIDs : List Int) :
    Except DbErr Unit × DB :=
  match db.Begin with
  | (.error e, db1) => (.error e, db1)
  | (.ok tx, _) =>
    match reorderLoop tx routineID 0 templateIDs with
    | (.error e, tx1) => (.error e, tx1.Rollback)
    | (.ok _, tx1) => tx1.Commit

end routines

/-! ## Package workouts: delete and summaries -/

namespace workouts

/-- Statement `DELETE FROM workouts WHERE id = ?`; the exercise rows of a
deleted workout and their sets go with it (`ON DELETE CASCADE`). -/
def deleteWorkout (id : Int) (s : Store) : Except DbErr (Unit × Store) :=
  if ∃ w ∈ s.workouts, w.id = id then
    .ok ((), { s with
      workouts := s.workouts.filter fun w => w.id ≠ id
      workout_exercises := s.workout_exercises.filter fun we => we.workout_id ≠ id
      logged_sets := s.logged_sets.filter fun ls =>
        ¬ ∃ we ∈ s.workout_exercises, we.workout_id = id ∧ ls.workout_exercise_id = we.id })
  else .ok ((), s)

/-- Go `workouts.Delete`. -/
def Delete (db : DB) (id : Int) : Except DbErr Unit × DB :=
  db.Exec (deleteWorkout id)

/-- Go struct `WorkoutSummary`; the two counts are never negative. -/
structure WorkoutSummary where
  ID : Int
  Name : String
  Date : Nat
  Status : WorkoutStatus
  ExerciseCount : Nat
  SetCount : Nat
  deriving DecidableEq, Repr

/-- SQL `a LEFT JOIN b ON ...`: every row of `a` with each of its matches, and
with `NULL` when it has none. -/
def leftJoin {α β : Type} (l : List α) (onMatch : α → List β) : List (α × Option β) :=
  l.flatMap fun a =>
    match onMatch a with
    | [] => [(a, none)]
    | b :: bs => (b :: bs).map fun x => (a, some x)

/-- The join `workouts w LEFT JOIN workout_exercises we ON we.workout_id = w.id
LEFT JOIN logged_sets ls ON ls.workout_exercise_id = we.id`. -/
def summaryJoin (s : Store) : List ((WorkoutRow × Option WorkoutExerciseRow) × Option LoggedSet) :=
  leftJoin (leftJoin s.workouts fun w => s.workout_exercises.filter fun we => we.workout_id = w.id)
    fun r =>
      match r.2 with
      | none => []
      | some we => s.logged_sets.filter fun ls => ls.workout_exercise_id = we.id

/-- The columns of `GROUP BY w.id, w.name, w.date, w.status, w.created_at`. -/
abbrev GroupKey := Int × String × Nat × WorkoutStatus × Nat

/-- The group of a workout row. -/
def groupKey (w : WorkoutRow) : GroupKey := (w.id, w.name, w.date, w.status, w.created_at)

/-- The order `ORDER BY w.date DESC, w.created_at DESC` on groups. -/
def newestFirst (a b : GroupKey) : Prop :=
  b.2.2.1 < a.2.2.1 ∨ (a.2.2.1 = b.2.2.1 ∧ b.2.2.2.2 ≤ a.2.2.2.2)

instance : DecidableRel newestFirst := fun a b => by
  unfold newestFirst; exact inferInstance

/-- The select list of `listByStatus` over the joined rows of one group:
`COUNT(DISTINCT we.id)` and `COUNT(ls.id)` skip `NULL`. -/
def summarize (k : GroupKey)
    (group : List ((WorkoutRow × Option WorkoutExerciseRow) × Option LoggedSet)) :
    WorkoutSummary :=
  ⟨k.1, k.2.1, k.2.2.1, k.2.2.2.1,
    ((group.filterMap fun r => r.1.2.map fun we => we.id).dedup).length,
    (group.filterMap fun r => r.2.map fun ls => ls.id).length⟩

/-- Go `listByStatus`. -/
def listByStatus (db : DB) (status : WorkoutStatus) : Except DbErr (List WorkoutSummary) × DB :=
  db.Query fun s =>
    (orderBy newestFirst
      ((((summaryJoin s).filter fun r => r.1.1.status = status).map
        fun r => groupKey r.1.1).dedup)).map
      fun k => summarize k
        (((summaryJoin s).filter fun r => r.1.1.status = status).filter
          fun r => groupKey r.1.1 = k)

/-- Go `ListInProgress`. -/
def ListInProgress (db : DB) : Except DbErr (List WorkoutSummary) × DB :=
  listByStatus db WorkoutStatus.in_progress

/-- Go `ListFinished`. -/
def ListFinished (db : DB) : Except DbErr (List WorkoutSummary) × DB :=
  listByStatus db WorkoutStatus.finished

end workouts

/-! ## Package exercises: search -/

namespace exercises

/-- SQLite `text LIKE pattern` on the characters of pattern and text: `%`
stands for any run of characters, `_` for any one character, and every other
character for itself, upper and lower case ASCII letters alike; there is no
escape character. -/
def like : List Char → List Char → Bool
  | [], t => t.isEmpty
  | c :: p, t =>
    if c = '%' then t.tails.any (like p)
    else
      match t with
      | [] => false
      | d :: t1 => (c = '_' || c.toLower = d.toLower) && like p t1

/-- Go `exercises.Search`: `WHERE name LIKE ?` with the argument
`"%"+query+"%"`. -/
def Search (db : DB) (query : String) : Except DbErr (List Exercise) × DB :=
  db.Query fun s =>
    orderBy byName
      (s.exercises.filter fun e => like ("%" ++ query ++ "%").toList e.name.toList)

end exercises

/-! ## Package templates: adding an exercise by request -/

namespace templates

/-- Go `templates.GetExerciseByID`. -/
def GetExerciseByID (db : DB) (id : Int) : Except DbErr (Option TemplateExercise) × DB :=
  match db.QueryRow fun s => (templateJoin s).filter fun r => r.1.id = id with
  | (.error .no_rows, db1) => (.ok none, db1)
  | (.error e, db1) => (.error e, db1)
  | (.ok row, db1) => (.ok (some (scanTemplateExercise row)), db1)

/-- What a handler of the package sends: a text or a view with its argument. -/
inductive Body where
  | text (s : String)
  | TemplateExerciseRow (te : TemplateExercise)
  deriving DecidableEq, Repr

/-- Status code and body of a response. -/
structure Response where
  status : Nat
  body : Body
  deriving DecidableEq, Repr

/-- Go `templates.HandleAddExercise`; the path parameter and the form values
are given as parsed by `strconv`, `none` when they do not parse. -/
def HandleAddExercise (now : Nat) (db : DB) (id exercise_id target_sets target_reps : Option Int) :
    Response × DB :=
  match id with
  | none => (⟨400, .text "Invalid template ID"⟩, db)
  | some templateID =>
    match exercise_id with
    | none => (⟨400, .text "Invalid exercise ID"⟩, db)
    | some exerciseID =>
      match target_sets with
      | none => (⟨400, .text "Invalid target sets"⟩, db)
      | some targetSets =>
        if targetSets < 1 then (⟨400, .text "Invalid target sets"⟩, db)
        else
          match target_reps with
          | none => (⟨400, .text "Invalid target reps"⟩, db)
          | some targetReps =>
            if targetReps < 1 then (⟨400, .text "Invalid target reps"⟩, db)
            else
              match AddExercise now db templateID exerciseID targetSets targetReps with
              | (.error _, db1) => (⟨500, .text "Failed to add exercise"⟩, db1)
              | (.ok newID, db1) =>
                match GetExerciseByID db1 newID with
                | (.error _, db2) => (⟨500, .text "Failed to load exercise"⟩, db2)
                | (.ok none, db2) => (⟨500, .text "Failed to load exercise"⟩, db2)
                | (.ok (some te), db2) => (⟨200, .TemplateExerciseRow te⟩, db2)

end templates

/-! ## Runs of appends -/

/-- The calls `templates.AddExercise(templateID, exerciseID, targetSets,
targetReps)` for the listed arguments, made in order on one connection: the
connection after the last call when every call returned no error. -/
def templates.addExercises (now : Nat) (db : DB) (templateID : Int) :
    List (Int × Int × Int) → Option DB
  | [] => some db
  | c :: rest =>
    match templates.AddExercise now db templateID c.1 c.2.1 c.2.2 with
    | (.ok _, db1) => templates.addExercises now db1 templateID rest
    | (.error _, _) => none

/-- The calls `workouts.AddSet(workoutExerciseID, reps, weight)` for the listed
arguments, made in order on one connection: the connection after the last call
when every call returned no error. -/
def workouts.addSets (now : Nat) (db : DB) (workoutExerciseID : Int) :
    List (Int × Weight) → Option DB
  | [] => some db
  | c :: rest =>
    match workouts.AddSet now db workoutExerciseID c.1 c.2 with
    | (.ok _, db1) => workouts.addSets now db1 workoutExerciseID rest
    | (.error _, _) => none

/-- The calls `routines.AddTemplate(routineID, templateID)` for the listed
templates, made in order on one connection: the connection after the last call
when every call returned no error. -/
def routines.addTemplates (now : Nat) (db : DB) (routineID : Int) : List Int → Option DB
  | [] => some db
  | t :: rest =>
    match routines.AddTemplate now db routineID t with
    | (.ok _, db1) => routines.addTemplates now db1 routineID rest
    | (.error _, _) => none

/-! ## Operations and reachable stores -/

/-- One call of a writing function of the packages, with its arguments. -/
inductive Op where
  | exercisesCreate (now : Nat) (name : String)
  | exercisesDelete (id : Int)
  | templatesCreate (now : Nat) (name : String)
  | templatesUpdate (now : Nat) (id : Int) (name : String)
  | templatesDelete (id : Int)
  | templatesAddExercise (now : Nat) (templateID exerciseID targetSets targetReps : Int)
  | templatesUpdateExercise (id targetSets targetReps : Int)
  | templatesRemoveExercise (id : Int)
  | templatesReorderExercises (templateID : Int) (exerciseIDs : List Int)
  | routinesCreate (now : Nat) (name : String)
  | routinesUpdate (now : Nat) (id : Int) (name : String)
  | routinesDelete (id : Int)
  | routinesAddTemplate (now : Nat) (routineID templateID : Int)
  | routinesRemoveTemplate (id : Int)
  | routinesReorderTemplates (routineID : Int) (templateIDs : List Int)
  | workoutsCreate (now : Nat) (name : String) (date : Nat) (templateID : Option Int)
  | workoutsCreateFromTemplate (now : Nat) (name : String) (date : Nat) (templateID : Int)
  | workoutsUpdate (id : Int) (name : String) (date : Nat) (notes : String)
  | workoutsFinish (now : Nat) (id : Int)
  | workoutsDelete (id : Int)
  | workoutsAddExercise (workoutID exerciseID : Int)
  | workoutsRemoveExercise (id : Int)
  | workoutsAddSet (now : Nat) (workoutExerciseID reps : Int) (weight : Weight)
  | workoutsUpdateSet (id reps : Int) (weight : Weight)
  | workoutsDeleteSet (id : Int)

/-- The connection after the call, whether it returned an error or not. -/
def Op.run (op : Op) (db : DB) : DB :=
  match op with
  | .exercisesCreate now name => (exercises.Create now db name).2
  | .exercisesDelete id => (exercises.Delete db id).2
  | .templatesCreate now name => (templates.Create now db name).2
  | .templatesUpdate now id name => (templates.Update now db id name).2
  | .templatesDelete id => (templates.Delete db id).2
  | .templatesAddExercise now t e ts tr => (templates.AddExercise now db t e ts tr).2
  | .templatesUpdateExercise id ts tr => (templates.UpdateExercise db id ts tr).2
  | .templatesRemoveExercise id => (templates.RemoveExercise db id).2
  | .templatesReorderExercises t ids => (templates.ReorderExercises db t ids).2
  | .routinesCreate now name => (routines.Create now db name).2
  | .routinesUpdate now id name => (routines.Update now db id name).2
  | .routinesDelete id => (routines.Delete db id).2
  | .routinesAddTemplate now r t => (routines.AddTemplate now db r t).2
  | .routinesRemoveTemplate id => (routines.RemoveTemplate db id).2
  | .routinesReorderTemplates r ids => (routines.ReorderTemplates db r ids).2
  | .workoutsCreate now name date t => (workouts.Create now db name date t).2
  | .workoutsCreateFromTemplate now name date t =>
    (workouts.CreateFromTemplate now db name date t).2
  | .workoutsUpdate id name date notes => (workouts.Update db id name date notes).2
  | .workoutsFinish now id => (workouts.Finish now db id).2
  | .workoutsDelete id => (workouts.Delete db id).2
  | .workoutsAddExercise w e => (workouts.AddExercise db w e).2
  | .workoutsRemoveExercise id => (workouts.RemoveExercise db id).2
  | .workoutsAddSet now we reps weight => (workouts.AddSet now db we reps weight).2
  | .workoutsUpdateSet id reps weight => (workouts.UpdateSet db id reps weight).2
  | .workoutsDeleteSet id => (workouts.DeleteSet db id).2

/-- The store `t` is reached from the store `s` by calls of the writing
functions, each on a connection with any schedule of driver failures. -/
inductive ReachableFrom (s : Store) : Store → Prop where
  | refl : ReachableFrom s s
  | step (t : Store) (faults : List Bool) (op : Op) :
    ReachableFrom s t → ReachableFrom s (op.run ⟨t, faults⟩).store

/-- The stores reached from the store that `runMigrations` leaves. -/
def Reachable (s : Store) : Prop := ReachableFrom Store.empty s

/-- The store after the calls `ops`, made in order on healthy connections. -/
def Store.after (s : Store) (ops : List Op) : Store :=
  ops.foldl (fun t op => (op.run (DB.healthy t)).store) s

/-! ## Invariants of the reachable stores -/

/-- The state of the workouts of `s` with respect to an earlier store `s0`:
the ids are a key and were handed out by the counter, which never went back,
`finished_at` is set exactly on the finished workouts, and a workout that was
finished in `s0` is, as long as it exists, finished with the same
`finished_at`. -/
def finishedKept (s0 s : Store) : Prop :=
  pkWorkouts s ∧ (∀ w ∈ s.workouts, w.id ≤ s.seq_workouts) ∧
  s0.seq_workouts ≤ s.seq_workouts ∧
  (∀ w ∈ s.workouts, w.finished_at.isSome ↔ w.status = WorkoutStatus.finished) ∧
  ∀ w0 ∈ s0.workouts, w0.status = WorkoutStatus.finished → ∀ w ∈ s.workouts, w.id = w0.id →
    w.status = WorkoutStatus.finished ∧ w.finished_at = w0.finished_at

/-- Pairs `(parent, position)` of the children in one table: every position is
at least 1 and no parent has two children at one position. -/
def positionsDistinct (l : List (Int × Int)) : Prop :=
  l.Nodup ∧ ∀ p ∈ l, 1 ≤ p.2

/-- Pairs `(parent, position)` of the children in one table: the positions of
the `k` children of every parent are `1, ..., k` in some order. -/
def positionsDense (l : List (Int × Int)) : Prop :=
  ∀ parent ∈ l.map Prod.fst,
    ((l.filter fun p => p.1 = parent).map Prod.snd).Perm
      ((List.range (l.filter fun p => p.1 = parent).length).map fun i : Nat => (i : Int) + 1)

instance (l : List (Int × Int)) : Decidable (positionsDistinct l) := by
  unfold positionsDistinct; exact inferInstance

instance (l : List (Int × Int)) : Decidable (positionsDense l) := by
  unfold positionsDense; exact inferInstance

/-- The pairs `(parent, position)` of the four tables of positioned children:
template exercises, routine templates, workout exercises and logged sets. -/
def Store.positions (s : Store) : List (List (Int × Int)) :=
  [s.template_exercises.map fun te => (te.template_id, te.position),
    s.routine_templates.map fun rt => (rt.routine_id, rt.position),
    s.workout_exercises.map fun we => (we.workout_id, we.position),
    s.logged_sets.map fun ls => (ls.workout_exercise_id, ls.position)]

/-! ## Sample stores -/

namespace Sample

/-- One template with two exercises, a Finished workout with two sets of Squat
and an in-progress workout with the same exercise. -/
def gym : Store :=
  { Store.empty with
    exercises := [⟨1, "Squat", 0⟩, ⟨2, "Bench", 0⟩]
    workout_templates := [⟨1, "Leg Day", 0, 0⟩]
    template_exercises := [⟨1, 1, 2, 3, 10, 2⟩, ⟨2, 1, 1, 5, 5, 1⟩]
    workouts :=
      [⟨1, "Workout 1", 10, none, WorkoutStatus.finished, none, 5, some 9⟩,
       ⟨2, "Workout 2", 17, none, WorkoutStatus.in_progress, some 1, 20, none⟩]
    workout_exercises := [⟨1, 1, 1, 1⟩, ⟨2, 2, 1, 1⟩]
    logged_sets := [⟨1, 1, 5, 225, 1, 6⟩, ⟨2, 1, 5, 235, 2, 7⟩]
    seq_exercises := 2
    seq_workout_templates := 1
    seq_template_exercises := 2
    seq_workouts := 2
    seq_workout_exercises := 2
    seq_logged_sets := 2 }

/-- Three exercises and the template 1, which has no exercise yet. -/
def catalog : Store :=
  Store.empty.after
    [Op.exercisesCreate 0 "Squat", Op.exercisesCreate 0 "Bench Press",
      Op.exercisesCreate 0 "Barbell Row", Op.templatesCreate 0 "Full Body"]

/-- The store of `TestTemplateWithMultipleExercises`: the three exercises and
the template 1 that holds them at the positions 1, 2 and 3. -/
def fullBody : Store :=
  catalog.after
    [Op.templatesAddExercise 1 1 1 5 5, Op.templatesAddExercise 1 1 2 3 8,
      Op.templatesAddExercise 1 1 3 3 8]

/-- Three templates and the routine 1, which has no template yet. -/
def programs : Store :=
  Store.empty.after
    [Op.routinesCreate 0 "PPL", Op.templatesCreate 0 "Push Day", Op.templatesCreate 0 "Pull Day",
      Op.templatesCreate 0 "Legs Day"]

/-- The store of `TestRoutineWithMultipleTemplates`: the three templates and
the routine 1 that holds them at the positions 1, 2 and 3. -/
def ppl : Store :=
  programs.after
    [Op.routinesAddTemplate 1 1 1, Op.routinesAddTemplate 1 1 2, Op.routinesAddTemplate 1 1 3]

/-- An exercise and the workout 1 with that exercise as its row 1, without
sets. -/
def session : Store :=
  Store.empty.after
    [Op.exercisesCreate 0 "Squat", Op.workoutsCreate 0 "My Workout" 10 none,
      Op.workoutsAddExercise 1 1]

/-- The store of `TestMultipleSetsWithPositions`: the session with three sets
on its workout exercise. -/
def squats : Store :=
  session.after
    [Op.workoutsAddSet 1 1 5 135, Op.workoutsAddSet 1 1 5 185, Op.workoutsAddSet 1 1 5 225]

/-- The squats after the second set was deleted. -/
def squatsGap : Store := squats.after [Op.workoutsDeleteSet 2]

/-- A template and the workout 1 made from it, finished at time 5. -/
def done : Store :=
  Store.empty.after
    [Op.templatesCreate 0 "Leg Day", Op.workoutsCreate 1 "Monday" 10 (some 1),
      Op.workoutsFinish 5 1]

/-- The store `done` after calls that name the finished workout 1, and a new
workout. -/
def doneLater : Store :=
  done.after
    [Op.workoutsUpdate 1 "Tuesday" 11 "late", Op.workoutsFinish 9 1, Op.templatesDelete 1,
      Op.workoutsCreate 12 "Friday" 14 none]

/-- The template 1 of `fullBody` after its middle exercise row was removed: its
rows 1 and 3 are at the positions 1 and 3. -/
def gapped : Store := fullBody.after [Op.templatesRemoveExercise 2]

end Sample

/-! # Theorems -/

open workouts

/-! ## Joins and orders -/

theorem mem_setJoin (s : Store) (r : LoggedSet × WorkoutExerciseRow × WorkoutRow) :
    r ∈ setJoin s ↔ r.1 ∈ s.logged_sets ∧ r.2.1 ∈ s.workout_exercises ∧ r.2.2 ∈ s.workouts ∧
      r.1.workout_exercise_id = r.2.1.id ∧ r.2.1.workout_id = r.2.2.id := by
  obtain ⟨ls, we, w⟩ := r
  simp only [setJoin, List.mem_flatMap, List.mem_filter, List.mem_map, decide_eq_true_eq,
    Prod.mk.injEq]
  constructor
  · rintro ⟨ls1, h1, we1, ⟨h2, h3⟩, w1, ⟨h4, h5⟩, rfl, rfl, rfl⟩
    exact ⟨h1, h2, h4, h3, h5⟩
  · rintro ⟨h1, h2, h4, h3, h5⟩
    exact ⟨ls, h1, we, ⟨h2, h3⟩, w, ⟨h4, h5⟩, rfl, rfl, rfl⟩

instance : IsTotal _ recentFirst := ⟨fun a b => by unfold recentFirst; omega⟩

instance : IsTrans _ recentFirst := ⟨fun a b c => by unfold recentFirst; omega⟩

/-- The first row of an ordered result is one of the rows and no row comes
before it. -/
theorem orderBy_head {α : Type} (r : α → α → Prop) [DecidableRel r] [IsTotal α r] [IsTrans α r]
    (l : List α) (a : α) (t : List α) (h : orderBy r l = a :: t) :
    a ∈ l ∧ ∀ b ∈ l, r a b := by
  have hp : (a :: t).Perm l := h ▸ List.perm_insertionSort r l
  have hs : (a :: t).Sorted r := h ▸ List.sorted_insertionSort r l
  refine ⟨hp.subset (List.mem_cons_self _ _), fun b hb => ?_⟩
  rcases List.mem_cons.1 (hp.symm.subset hb) with rfl | hb
  · exact (total_of r b b).elim id id
  · exact List.rel_of_sorted_cons hs b hb

theorem mem_orderBy {α : Type} (r : α → α → Prop) [DecidableRel r] (l : List α) (a : α) :
    a ∈ orderBy r l ↔ a ∈ l :=
  (List.perm_insertionSort r l).mem_iff

/-! ## C1: last weight -/

/-- Every row of the last-weight query is a source. -/
theorem mem_lastWeightRows (s : Store) (E X : Int)
    (r : LoggedSet × WorkoutExerciseRow × WorkoutRow) (h : r ∈ lastWeightRows s E X) :
    lastWeightSource s E X r.1 r.2.2 := by
  have h1 := (mem_orderBy recentFirst _ r).1 h
  simp only [List.mem_filter, mem_setJoin, decide_eq_true_eq, Bool.and_eq_true,
    Bool.decide_and, ne_eq, decide_not, Bool.not_eq_eq_eq_not, Bool.not_true,
    decide_eq_false_iff_not] at h1
  obtain ⟨⟨a, b, c, d, e⟩, f, g, i⟩ := h1
  exact ⟨a, c, g, i, r.2.1, b, d, e, f⟩

/-- Every source is a row of the last-weight query. -/
theorem lastWeightSource_mem (s : Store) (E X : Int) (ls : LoggedSet) (w : WorkoutRow)
    (h : lastWeightSource s E X ls w) : ∃ we, (ls, we, w) ∈ lastWeightRows s E X := by
  obtain ⟨a, c, g, i, we, b, d, e, f⟩ := h
  refine ⟨we, (mem_orderBy recentFirst _ _).2 ?_⟩
  simp only [List.mem_filter, mem_setJoin, decide_eq_true_eq, Bool.and_eq_true,
    Bool.decide_and, ne_eq, decide_not, Bool.not_eq_eq_eq_not, Bool.not_true,
    decide_eq_false_iff_not]
  exact ⟨⟨a, b, c, d, e⟩, f, g, i⟩

/-- C1: when its query succeeds, `GetLastWeight E X` returns no value exactly
when no logged set of `E` lies in a Finished workout other than `X`; otherwise
it returns the weight of such a set, and no other such set has a later workout
date, or the same workout date and a later creation time. -/
theorem GetLastWeight_most_recent (db : DB) (E X : Int) (hq : db.fails = false) :
    ∃ r, (GetLastWeight db E X).1 = .ok r ∧
      (r = none ↔ ∀ ls w, ¬ lastWeightSource db.store E X ls w) ∧
      (∀ x, r = some x → ∃ ls w, lastWeightSource db.store E X ls w ∧ ls.weight = x ∧
          ∀ ls1 w1, lastWeightSource db.store E X ls1 w1 →
            ¬ (w.date < w1.date ∨ (w1.date = w.date ∧ ls.created_at < ls1.created_at))) := by
  cases hrows : lastWeightRows db.store E X with
  | nil =>
    refine ⟨none, ?_, ?_, ?_⟩
    · simp [GetLastWeight, DB.QueryRow, hq, hrows, isNoRows]
    · simp only [true_iff]
      intro ls w h
      obtain ⟨we, hm⟩ := lastWeightSource_mem _ _ _ _ _ h
      rw [hrows] at hm
      exact absurd hm (List.not_mem_nil _)
    · intro x hx; cases hx
  | cons a t =>
    refine ⟨some a.1.weight, ?_, ?_, ?_⟩
    · simp [GetLastWeight, DB.QueryRow, hq, hrows, isNoRows]
    · simp only [false_iff, not_forall, not_not, reduceCtorEq]
      exact ⟨a.1, a.2.2, mem_lastWeightRows _ _ _ _ (hrows ▸ List.mem_cons_self _ _)⟩
    · intro x hx
      cases hx
      refine ⟨a.1, a.2.2, mem_lastWeightRows _ _ _ _ (hrows ▸ List.mem_cons_self _ _), rfl, ?_⟩
      intro ls1 w1 h1
      obtain ⟨we1, hm⟩ := lastWeightSource_mem _ _ _ _ _ h1
      have hh := (orderBy_head recentFirst _ a t hrows).2 (ls1, we1, w1)
        ((mem_orderBy recentFirst _ _).1 hm)
      unfold recentFirst at hh
      simp only at hh
      omega

/-- Witness of C1 on the sample store: exercise 1 seen from workout 2. -/
theorem GetLastWeight_most_recent_witness :
    (DB.healthy Sample.gym).fails = false ∧
    ∃ r, (GetLastWeight (DB.healthy Sample.gym) 1 2).1 = .ok r ∧
      (r = none ↔ ∀ ls w, ¬ lastWeightSource (DB.healthy Sample.gym).store 1 2 ls w) ∧
      (∀ x, r = some x → ∃ ls w,
          lastWeightSource (DB.healthy Sample.gym).store 1 2 ls w ∧ ls.weight = x ∧
          ∀ ls1 w1, lastWeightSource (DB.healthy Sample.gym).store 1 2 ls1 w1 →
            ¬ (w.date < w1.date ∨ (w1.date = w.date ∧ ls.created_at < ls1.created_at))) :=
  ⟨by decide, GetLastWeight_most_recent (DB.healthy Sample.gym) 1 2 (by decide)⟩

/-! ## Go maps -/

theorem find?_filter_of_imp {α : Type} (p q : α → Bool) (h : ∀ x, q x = true → p x = true)
    (l : List α) : (l.filter p).find? q = l.find? q := by
  induction l with
  | nil => rfl
  | cons a l ih =>
    cases hq : q a with
    | true =>
      rw [List.filter_cons_of_pos (h a hq), List.find?_cons_of_pos _ hq,
        List.find?_cons_of_pos _ hq]
    | false =>
      have hq1 : ¬ q a = true := by simp [hq]
      rw [List.find?_cons_of_neg _ hq1]
      cases hp : p a with
      | true => rw [List.filter_cons_of_pos hp, List.find?_cons_of_neg _ hq1, ih]
      | false =>
        have hp1 : ¬ p a = true := by simp [hp]
        rw [List.filter_cons_of_neg hp1, ih]

theorem GoMap.get_nil {V : Type} (k : Int) : GoMap.get ([] : GoMap V) k = none := rfl

theorem GoMap.get_set_same {V : Type} (m : GoMap V) (k : Int) (v : V) :
    (m.set k v).get k = some v := by
  simp [GoMap.get, GoMap.set]

theorem GoMap.get_set_other {V : Type} (m : GoMap V) (k j : Int) (v : V) (h : j ≠ k) :
    (m.set k v).get j = m.get j := by
  have hkj : ¬ (fun e : Int × V => decide (e.1 = j)) (k, v) = true := by
    simpa using fun e => h e.symm
  unfold GoMap.get GoMap.set
  rw [@List.find?_cons_of_neg _ (fun e : Int × V => decide (e.1 = j)) (k, v) _ hkj,
    find?_filter_of_imp]
  intro x hx
  simp only [decide_eq_true_eq] at hx
  simp only [ne_eq, decide_not, Bool.not_eq_eq_eq_not, Bool.not_true, decide_eq_false_iff_not]
  exact fun e => h (hx.symm.trans e)

/-! ## Stable ordering -/

theorem orderedInsert_of_forall {α : Type} (r : α → α → Prop) [DecidableRel r] (a : α)
    (l : List α) (h : ∀ b ∈ l, r a b) : l.orderedInsert r a = a :: l := by
  cases l with
  | nil => rfl
  | cons b l => exact List.orderedInsert_of_le r l (h b (List.mem_cons_self _ _))

/-- Filtering commutes with inserting into an ordered list. -/
theorem filter_orderedInsert {α : Type} (r : α → α → Prop) [DecidableRel r] [IsTrans α r]
    (p : α → Bool) (a : α) (l : List α) (hl : l.Sorted r) :
    (l.orderedInsert r a).filter p =
      if p a = true then (l.filter p).orderedInsert r a else l.filter p := by
  induction l with
  | nil => by_cases hp : p a = true <;> simp [hp]
  | cons b l ih =>
    have hbl : ∀ c ∈ l, r b c := List.rel_of_sorted_cons hl
    by_cases hab : r a b
    · rw [List.orderedInsert_of_le r l hab]
      by_cases hp : p a = true
      · rw [if_pos hp, List.filter_cons_of_pos hp, orderedInsert_of_forall]
        intro c hc
        rcases List.mem_cons.1 (List.mem_of_mem_filter hc) with rfl | hc1
        · exact hab
        · exact IsTrans.trans a b c hab (hbl c hc1)
      · rw [if_neg hp, List.filter_cons_of_neg hp]
    · have hins : (b :: l).orderedInsert r a = b :: l.orderedInsert r a := by
        simp [List.orderedInsert, hab]
      rw [hins]
      by_cases hpb : p b = true
      · rw [List.filter_cons_of_pos hpb, ih hl.of_cons, List.filter_cons_of_pos hpb]
        by_cases hp : p a = true
        · simp [hp, List.orderedInsert, hab]
        · simp [hp]
      · rw [List.filter_cons_of_neg hpb, ih hl.of_cons, List.filter_cons_of_neg hpb]

/-- A stable sort commutes with a filter. -/
theorem filter_orderBy {α : Type} (r : α → α → Prop) [DecidableRel r] [IsTotal α r]
    [IsTrans α r] (p : α → Bool) (l : List α) :
    (orderBy r l).filter p = orderBy r (l.filter p) := by
  unfold orderBy
  induction l with
  | nil => rfl
  | cons a l ih =>
    rw [List.insertionSort, filter_orderedInsert r p a _ (List.sorted_insertionSort r l), ih]
    by_cases hp : p a = true
    · rw [if_pos hp, List.filter_cons_of_pos hp, List.insertionSort]
    · rw [if_neg hp, List.filter_cons_of_neg hp]

theorem orderedInsert_congr {α : Type} (r1 r2 : α → α → Prop) [DecidableRel r1]
    [DecidableRel r2] (a : α) (l : List α) (h : ∀ b ∈ l, r1 a b ↔ r2 a b) :
    l.orderedInsert r1 a = l.orderedInsert r2 a := by
  induction l with
  | nil => rfl
  | cons b l ih =>
    have hb := h b (List.mem_cons_self _ _)
    have := ih fun c hc => h c (List.mem_cons_of_mem _ hc)
    by_cases h1 : r1 a b
    · simp [List.orderedInsert, h1, hb.1 h1]
    · have h2 : ¬ r2 a b := fun h2 => h1 (hb.2 h2)
      simp [List.orderedInsert, h1, h2, this]

/-- Two orders that agree on the rows give the same ordered result. -/
theorem orderBy_congr {α : Type} (r1 r2 : α → α → Prop) [DecidableRel r1] [DecidableRel r2]
    (l : List α) (h : ∀ a ∈ l, ∀ b ∈ l, r1 a b ↔ r2 a b) : orderBy r1 l = orderBy r2 l := by
  unfold orderBy
  induction l with
  | nil => rfl
  | cons a l ih =>
    rw [List.insertionSort, List.insertionSort,
      ih fun x hx y hy => h x (List.mem_cons_of_mem _ hx) y (List.mem_cons_of_mem _ hy)]
    apply orderedInsert_congr
    intro b hb
    exact h a (List.mem_cons_self _ _) b
      (List.mem_cons_of_mem _ ((List.mem_insertionSort r2).1 hb))

/-! ## C3: batched set loading -/

instance : IsTotal _ byPosition := ⟨fun a b => by unfold byPosition; omega⟩

instance : IsTrans _ byPosition := ⟨fun a b c => by unfold byPosition; omega⟩

instance : IsTotal _ byParentThenPosition := ⟨fun a b => by unfold byParentThenPosition; omega⟩

instance : IsTrans _ byParentThenPosition :=
  ⟨fun a b c => by unfold byParentThenPosition; omega⟩

/-- The grouping loop of `getLoggedSetsBatch` appends, under every key, the
rows of that key in the order read. -/
theorem group_get (rows : List LoggedSet) (acc : GoMap (List LoggedSet)) (k : Int) :
    (rows.foldl (fun result s =>
        result.set s.workout_exercise_id
          ((result.get s.workout_exercise_id).getD [] ++ [s])) acc).get k =
      if rows.filter (fun s => s.workout_exercise_id = k) = [] then acc.get k
      else some ((acc.get k).getD [] ++ rows.filter fun s => s.workout_exercise_id = k) := by
  induction rows generalizing acc with
  | nil => simp
  | cons s rows ih =>
    rw [List.foldl_cons, ih]
    by_cases hs : s.workout_exercise_id = k
    · subst hs
      have hf : List.filter (fun x : LoggedSet => decide (x.workout_exercise_id = s.workout_exercise_id))
          (s :: rows) = s :: rows.filter fun x => x.workout_exercise_id = s.workout_exercise_id := by
        simp
      rw [hf, GoMap.get_set_same]
      by_cases hr : rows.filter (fun x => x.workout_exercise_id = s.workout_exercise_id) = []
      · simp [hr]
      · simp [hr]
    · have hf : List.filter (fun x : LoggedSet => decide (x.workout_exercise_id = k))
          (s :: rows) = rows.filter fun x => x.workout_exercise_id = k := by
        simp [hs]
      rw [hf, GoMap.get_set_other _ _ _ _ (fun e => hs e.symm)]

/-- The rows of one parent in the batched query are the rows of the single
query. -/
theorem batch_rows_of_parent (s : Store) (L : List Int) (id : Int) (h : id ∈ L) :
    (orderBy byParentThenPosition
        (s.logged_sets.filter fun ls => ls.workout_exercise_id ∈ L)).filter
        (fun ls => ls.workout_exercise_id = id) =
      orderBy byPosition (s.logged_sets.filter fun ls => ls.workout_exercise_id = id) := by
  rw [filter_orderBy, List.filter_filter]
  have hf : (s.logged_sets.filter fun a =>
      (decide (a.workout_exercise_id = id) && decide (a.workout_exercise_id ∈ L))) =
      s.logged_sets.filter fun ls => ls.workout_exercise_id = id := by
    apply List.filter_congr
    intro x _
    by_cases hx : x.workout_exercise_id = id
    · simp [hx, h]
    · simp [hx]
  rw [hf]
  apply orderBy_congr
  intro a ha b hb
  have h1 : a.workout_exercise_id = id := by simpa using (List.mem_filter.1 ha).2
  have h2 : b.workout_exercise_id = id := by simpa using (List.mem_filter.1 hb).2
  unfold byParentThenPosition byPosition
  omega

/-- C3: for every id of the list, the batched load holds under that id the
list that `GetLoggedSets` returns (no entry when that list is empty), both fail
alike when the driver fails, the map has no other key, the single list is in
ascending position order, and the empty list gives the empty map without a
statement being issued. -/
theorem getLoggedSetsBatch_matches_GetLoggedSets (db : DB) (L : List Int) :
    getLoggedSetsBatch db [] = (.ok [], db) ∧
    (∀ id ∈ L, Except.map (fun m => GoMap.get m id) (getLoggedSetsBatch db L).1 =
        Except.map (fun sets => if sets = [] then none else some sets)
          (GetLoggedSets db id).1) ∧
    (∀ id, id ∉ L → ∀ m, (getLoggedSetsBatch db L).1 = .ok m → m.get id = none) ∧
    (∀ id sets, (GetLoggedSets db id).1 = .ok sets →
        sets.Sorted fun a b => a.position ≤ b.position) := by
  refine ⟨rfl, ?_, ?_, ?_⟩
  · intro id hid
    have hL : ¬ L.length = 0 := by
      intro h0
      rw [List.length_eq_zero] at h0
      rw [h0] at hid
      exact List.not_mem_nil _ hid
    cases hf : db.fails with
    | true => simp [getLoggedSetsBatch, GetLoggedSets, DB.Query, hL, hf, Except.map]
    | false =>
      simp only [getLoggedSetsBatch, GetLoggedSets, DB.Query, hL, hf, if_false, Except.map,
        Bool.false_eq_true]
      rw [group_get, batch_rows_of_parent _ _ _ hid]
      simp [GoMap.get_nil]
  · intro id hid m hm
    by_cases hL : L.length = 0
    · simp only [getLoggedSetsBatch, hL, if_true] at hm
      cases hm
      rfl
    · cases hf : db.fails with
      | true => simp [getLoggedSetsBatch, DB.Query, hL, hf] at hm
      | false =>
        simp only [getLoggedSetsBatch, DB.Query, hL, hf, if_false, Bool.false_eq_true] at hm
        cases hm
        rw [group_get]
        have hnone : (orderBy byParentThenPosition
            (db.store.logged_sets.filter fun ls => ls.workout_exercise_id ∈ L)).filter
            (fun ls => ls.workout_exercise_id = id) = [] := by
          rw [List.filter_eq_nil_iff]
          intro a ha
          have := (List.mem_filter.1 ((mem_orderBy _ _ _).1 ha)).2
          simp only [decide_eq_true_eq] at this ⊢
          exact fun e => hid (e ▸ this)
        rw [if_pos hnone]
        rfl
  · intro id sets hs
    cases hf : db.fails with
    | true => simp [GetLoggedSets, DB.Query, hf] at hs
    | false =>
      simp only [GetLoggedSets, DB.Query, hf, if_false, Bool.false_eq_true] at hs
      cases hs
      exact List.sorted_insertionSort byPosition _

/-- Witness of C3 on the sample store, for the workout exercises 1 and 2. -/
theorem getLoggedSetsBatch_matches_GetLoggedSets_witness :
    getLoggedSetsBatch (DB.healthy Sample.gym) [] = (.ok [], DB.healthy Sample.gym) ∧
    (∀ id ∈ [1, 2],
      Except.map (fun m => GoMap.get m id) (getLoggedSetsBatch (DB.healthy Sample.gym) [1, 2]).1 =
        Except.map (fun sets => if sets = [] then none else some sets)
          (GetLoggedSets (DB.healthy Sample.gym) id).1) ∧
    (∀ id, id ∉ [1, 2] → ∀ m,
      (getLoggedSetsBatch (DB.healthy Sample.gym) [1, 2]).1 = .ok m → m.get id = none) ∧
    (∀ id sets, (GetLoggedSets (DB.healthy Sample.gym) id).1 = .ok sets →
        sets.Sorted fun a b => a.position ≤ b.position) :=
  getLoggedSetsBatch_matches_GetLoggedSets (DB.healthy Sample.gym) [1, 2]

/-! ## C2: batched last weight -/

/-- A key that no scanned row carries keeps its entry. -/
theorem scan_get_of_not_mem (rows : List (Int × Weight)) (acc : GoMap Weight) (k : Int)
    (h : ∀ r ∈ rows, r.1 ≠ k) :
    (rows.foldl (fun result r => result.set r.1 r.2) acc).get k = acc.get k := by
  induction rows generalizing acc with
  | nil => rfl
  | cons r rows ih =>
    rw [List.foldl_cons, ih _ fun x hx => h x (List.mem_cons_of_mem _ hx),
      GoMap.get_set_other _ _ _ _ (fun e => h r (List.mem_cons_self _ _) e.symm)]

/-- A key whose scanned rows all carry the value `v` ends with `v`. -/
theorem scan_get_of_mem (rows : List (Int × Weight)) (acc : GoMap Weight) (k : Int) (v : Weight)
    (hex : ∃ r ∈ rows, r.1 = k) (hall : ∀ r ∈ rows, r.1 = k → r.2 = v) :
    (rows.foldl (fun result r => result.set r.1 r.2) acc).get k = some v := by
  induction rows generalizing acc with
  | nil => obtain ⟨r, hr, _⟩ := hex; exact absurd hr (List.not_mem_nil _)
  | cons r rows ih =>
    rw [List.foldl_cons]
    by_cases hrest : ∃ x ∈ rows, x.1 = k
    · exact ih _ hrest fun x hx => hall x (List.mem_cons_of_mem _ hx)
    · have hr : r.1 = k := by
        obtain ⟨x, hx, hxk⟩ := hex
        rcases List.mem_cons.1 hx with rfl | hx1
        · exact hxk
        · exact absurd ⟨x, hx1, hxk⟩ hrest
      rw [scan_get_of_not_mem _ _ _ fun x hx e => hrest ⟨x, hx, e⟩, ← hr,
        GoMap.get_set_same, hall r (List.mem_cons_self _ _) hr]

/-- C2: when the query succeeds and `logged_sets.id` is a key, the batched
lookup holds for every listed exercise exactly what `GetLastWeight` returns
for it (no entry when that is no value), and holds no other key. -/
theorem getLastWeightsBatch_matches_GetLastWeight (db : DB) (L : List Int) (X : Int)
    (hpk : pkLoggedSets db.store) (hq : db.fails = false) :
    ∃ m, (getLastWeightsBatch db L X).1 = .ok m ∧
      (∀ e ∈ L, (GetLastWeight db e X).1 = .ok (m.get e)) ∧
      (∀ e, e ∉ L → m.get e = none) := by
  by_cases hL : L.length = 0
  · refine ⟨[], by simp [getLastWeightsBatch, hL], ?_, fun _ _ => rfl⟩
    intro e he
    rw [List.length_eq_zero] at hL
    rw [hL] at he
    exact absurd he (List.not_mem_nil _)
  · refine ⟨_, by simp only [getLastWeightsBatch, DB.Query, hL, hq, if_false,
      Bool.false_eq_true]; rfl, ?_, ?_⟩
    · intro e he
      cases hrows : lastWeightRows db.store e X with
      | nil =>
        rw [scan_get_of_not_mem]
        · simp [GetLastWeight, DB.QueryRow, hq, hrows, isNoRows, GoMap.get_nil]
        · intro r hr hre
          simp only [List.mem_map, List.mem_filter, decide_eq_true_eq] at hr
          obtain ⟨x, ⟨_, _, _, _, hx⟩, rfl⟩ := hr
          simp only at hre
          rw [hre] at hx
          simp [lastSetId, hrows] at hx
      | cons a t =>
        have ha : a ∈ lastWeightRows db.store e X := hrows ▸ List.mem_cons_self _ _
        have hsrc := mem_lastWeightRows _ _ _ _ ha
        have ha1 := (mem_orderBy recentFirst _ a).1 ha
        simp only [List.mem_filter, decide_eq_true_eq] at ha1
        rw [scan_get_of_mem _ _ e a.1.weight]
        · simp [GetLastWeight, DB.QueryRow, hq, hrows, isNoRows]
        · refine ⟨(a.2.1.exercise_id, a.1.weight), ?_, ha1.2.1⟩
          simp only [List.mem_map, List.mem_filter, decide_eq_true_eq]
          refine ⟨a, ⟨ha1.1, ?_, ha1.2.2.1, ha1.2.2.2, ?_⟩, rfl⟩
          · rw [ha1.2.1]; exact he
          · rw [ha1.2.1]; simp [lastSetId, hrows]
        · intro r hr hre
          simp only [List.mem_map, List.mem_filter, decide_eq_true_eq] at hr
          obtain ⟨x, ⟨hxj, _, _, _, hx⟩, rfl⟩ := hr
          simp only at hre
          rw [hre] at hx
          simp only [lastSetId, hrows, List.take_succ_cons, List.take_zero, List.head?_cons,
            Option.map_some', Option.some.injEq] at hx
          have hxm := ((mem_setJoin _ _).1 hxj).1
          have hxa : x.1 = a.1 :=
            List.inj_on_of_nodup_map hpk hxm hsrc.1 hx
          simp only [hxa]
    · intro e he
      rw [scan_get_of_not_mem]
      · rfl
      · intro r hr hre
        simp only [List.mem_map, List.mem_filter, decide_eq_true_eq] at hr
        obtain ⟨x, ⟨_, hx, _⟩, rfl⟩ := hr
        exact he (hre ▸ hx)

/-- Witness of C2 on the sample store: exercises 1 and 2 seen from workout 2. -/
theorem getLastWeightsBatch_matches_GetLastWeight_witness :
    pkLoggedSets (DB.healthy Sample.gym).store ∧ (DB.healthy Sample.gym).fails = false ∧
    ∃ m, (getLastWeightsBatch (DB.healthy Sample.gym) [1, 2] 2).1 = .ok m ∧
      (∀ e ∈ [1, 2], (GetLastWeight (DB.healthy Sample.gym) e 2).1 = .ok (m.get e)) ∧
      (∀ e, e ∉ [1, 2] → m.get e = none) :=
  ⟨by decide, by decide,
    getLastWeightsBatch_matches_GetLastWeight (DB.healthy Sample.gym) [1, 2] 2
      (by decide) (by decide)⟩

/-! ## Inserts -/

theorem le_foldl_max (ids : List Int) (init : Int) :
    init ≤ ids.foldl max init ∧ ∀ x ∈ ids, x ≤ ids.foldl max init := by
  induction ids generalizing init with
  | nil => exact ⟨le_refl _, fun x hx => absurd hx (List.not_mem_nil _)⟩
  | cons a ids ih =>
    rw [List.foldl_cons]
    obtain ⟨h1, h2⟩ := ih (max init a)
    refine ⟨le_trans (le_max_left _ _) h1, fun x hx => ?_⟩
    rcases List.mem_cons.1 hx with rfl | hx1
    · exact le_trans (le_max_right _ _) h1
    · exact h2 x hx1

/-- The rowid of an `AUTOINCREMENT` insert is larger than every rowid in the
table. -/
theorem lt_nextId (seq : Int) (ids : List Int) (x : Int) (hx : x ∈ ids) : x < nextId seq ids := by
  have := (le_foldl_max ids (max seq 0)).2 x hx
  unfold nextId
  omega

theorem nextId_not_mem (seq : Int) (ids : List Int) : nextId seq ids ∉ ids :=
  fun h => lt_irrefl _ (lt_nextId seq ids _ h)

/-- A successful insert into `workout_exercises`. -/
theorem exec_insertWorkoutExercise_ok (db db1 : DB) (wid eid pos newid : Int)
    (h : db.Exec (insertWorkoutExercise wid eid pos) = (.ok newid, db1)) :
    newid = nextId db.store.seq_workout_exercises (db.store.workout_exercises.map fun we => we.id) ∧
    db1 = ⟨{ db.store with
        workout_exercises := db.store.workout_exercises ++ [⟨newid, wid, eid, pos⟩]
        seq_workout_exercises := newid }, db.faults.tail⟩ ∧
    eid ∈ db.store.exercises.map (fun e => e.id) ∧
    wid ∈ db.store.workouts.map (fun w => w.id) := by
  unfold DB.Exec insertWorkoutExercise at h
  split_ifs at h with h1 h2 h3
  · simp at h
  · simp at h
  · simp at h
  · simp only [Prod.mk.injEq, Except.ok.injEq] at h
    obtain ⟨rfl, rfl⟩ := h
    push_neg at h3
    exact ⟨rfl, rfl, h3.2, h3.1⟩

/-- A successful copy loop appended one row per pair, in order, under fresh
ids, and touched no other table. -/
theorem copyExercises_ok (db db1 : DB) (wid r : Int) (pairs : List (Int × Int))
    (h : copyExercises db wid pairs = (.ok r, db1)) :
    r = wid ∧ ∃ news : List WorkoutExerciseRow,
      db1.store.workout_exercises = db.store.workout_exercises ++ news ∧
      news.map (fun x => (x.exercise_id, x.position)) = pairs ∧
      (∀ x ∈ news, x.workout_id = wid ∧
        x.id ∉ db.store.workout_exercises.map (fun we => we.id) ∧
        x.exercise_id ∈ db.store.exercises.map (fun e => e.id)) ∧
      db1.store.exercises = db.store.exercises ∧ db1.store.workouts = db.store.workouts ∧
      db1.store.logged_sets = db.store.logged_sets := by
  induction pairs generalizing db with
  | nil =>
    simp only [copyExercises, Prod.mk.injEq, Except.ok.injEq] at h
    obtain ⟨rfl, rfl⟩ := h
    exact ⟨rfl, [], by simp, rfl, by simp, rfl, rfl, rfl⟩
  | cons p pairs ih =>
    unfold copyExercises at h
    cases hexec : db.Exec (insertWorkoutExercise wid p.1 p.2) with
    | mk res db2 =>
      rw [hexec] at h
      cases res with
      | error e => simp at h
      | ok newid =>
        simp only at h
        obtain ⟨hid, hdb2, heid, _⟩ := exec_insertWorkoutExercise_ok _ _ _ _ _ _ hexec
        obtain ⟨hr, news, hwe, hmap, hall, hex, hwo, hls⟩ := ih db2 h
        subst hdb2
        simp only at hwe hall hex hwo hls
        refine ⟨hr, ⟨newid, wid, p.1, p.2⟩ :: news, ?_, ?_, ?_, hex, hwo, hls⟩
        · rw [hwe]; simp
        · simp [hmap]
        · intro x hx
          rcases List.mem_cons.1 hx with rfl | hx1
          · exact ⟨rfl, hid ▸ nextId_not_mem _ _, heid⟩
          · obtain ⟨a, b, c⟩ := hall x hx1
            refine ⟨a, fun hmem => b ?_, c⟩
            simp only [List.map_append, List.mem_append]
            exact Or.inl hmem

/-! ## Reads on a healthy connection -/

theorem DB.healthy_fails (s : Store) : (DB.healthy s).fails = false := rfl

theorem DB.healthy_step (s : Store) : (DB.healthy s).step = DB.healthy s := rfl

theorem DB.healthy_store (s : Store) : (DB.healthy s).store = s := rfl

/-- In a keyed list the rows with the key of a member are that member alone. -/
theorem filter_key_eq_singleton {α : Type} (f : α → Int) (l : List α) (hn : (l.map f).Nodup)
    (a : α) (ha : a ∈ l) : l.filter (fun x => decide (f x = f a)) = [a] := by
  induction l with
  | nil => exact absurd ha (List.not_mem_nil _)
  | cons b l ih =>
    rw [List.map_cons, List.nodup_cons] at hn
    rcases List.mem_cons.1 ha with rfl | ha1
    · rw [List.filter_cons_of_pos (by simp)]
      congr 1
      rw [List.filter_eq_nil_iff]
      intro x hx hfx
      simp only [decide_eq_true_eq] at hfx
      exact hn.1 (hfx ▸ List.mem_map_of_mem f hx)
    · have hb : ¬ f b = f a := fun e => hn.1 (e ▸ List.mem_map_of_mem f ha1)
      rw [List.filter_cons_of_neg (by simpa using hb)]
      exact ih hn.2 ha1

/-- What the batched set load holds under a listed id. -/
theorem getLoggedSetsBatch_healthy (s : Store) (L : List Int) (hL : L ≠ []) :
    ∃ m, getLoggedSetsBatch (DB.healthy s) L = (.ok m, DB.healthy s) ∧
      ∀ id ∈ L, (m.get id).getD [] =
        orderBy byPosition (s.logged_sets.filter fun ls => ls.workout_exercise_id = id) := by
  have h0 : ¬ L.length = 0 := fun h => hL (List.length_eq_zero.1 h)
  refine ⟨_, by simp only [getLoggedSetsBatch, DB.Query, h0, DB.healthy_fails, if_false,
    Bool.false_eq_true, DB.healthy_step, DB.healthy_store]; rfl, ?_⟩
  intro id hid
  rw [group_get, batch_rows_of_parent _ _ _ hid]
  by_cases hx : orderBy byPosition
      (s.logged_sets.filter fun ls => ls.workout_exercise_id = id) = []
  · rw [if_pos hx, hx]; rfl
  · rw [if_neg hx]; simp [GoMap.get_nil]

theorem getLastWeightsBatch_healthy (s : Store) (L : List Int) (X : Int) :
    ∃ m, getLastWeightsBatch (DB.healthy s) L X = (.ok m, DB.healthy s) := by
  by_cases h0 : L.length = 0
  · exact ⟨_, by simp only [getLastWeightsBatch, h0, if_true]; rfl⟩
  · exact ⟨_, by simp only [getLastWeightsBatch, DB.Query, h0, DB.healthy_fails, if_false,
      Bool.false_eq_true, DB.healthy_step, DB.healthy_store]; rfl⟩

/-- On a healthy connection `GetWorkoutExercises` returns one entry per joined
row of the workout, in position order, each with the sets that `GetLoggedSets`
reads for it. -/
theorem GetWorkoutExercises_healthy (s : Store) (wid : Int) :
    ∃ exs, GetWorkoutExercises (DB.healthy s) wid = (.ok exs, DB.healthy s) ∧
      exs.map (fun we => (we.ID, we.WorkoutID, we.ExerciseID, we.Position)) =
        (orderBy byExercisePosition
          ((exerciseJoin s).filter fun r => r.1.workout_id = wid)).map
          (fun r => (r.1.id, r.1.workout_id, r.1.exercise_id, r.1.position)) ∧
      ∀ we ∈ exs, we.Sets =
        orderBy byPosition (s.logged_sets.filter fun ls => ls.workout_exercise_id = we.ID) := by
  unfold GetWorkoutExercises
  simp only [DB.Query, DB.healthy_fails, if_false, Bool.false_eq_true, DB.healthy_step,
    DB.healthy_store]
  generalize orderBy byExercisePosition
    ((exerciseJoin s).filter fun r => r.1.workout_id = wid) = rows
  by_cases h0 : (rows.map scanWorkoutExercise).length = 0
  · rw [if_pos h0]
    have : rows = [] := by simpa using h0
    subst this
    exact ⟨_, rfl, rfl, fun we hwe => absurd hwe (List.not_mem_nil _)⟩
  · rw [if_neg h0]
    have hL : (rows.map scanWorkoutExercise).map (fun we => we.ID) ≠ [] := by
      intro h; apply h0; simpa using h
    obtain ⟨m, hm, hget⟩ := getLoggedSetsBatch_healthy s _ hL
    obtain ⟨m2, hm2⟩ := getLastWeightsBatch_healthy s
      ((rows.map scanWorkoutExercise).map fun we => we.ExerciseID) wid
    rw [hm]
    simp only
    rw [hm2]
    refine ⟨_, rfl, ?_, ?_⟩
    · simp [List.map_map, Function.comp_def, scanWorkoutExercise]
    · intro we hwe
      simp only [List.mem_map] at hwe
      obtain ⟨we0, ⟨r, hr, rfl⟩, rfl⟩ := hwe
      simp only
      apply hget
      simp only [List.mem_map]
      exact ⟨scanWorkoutExercise r, ⟨r, hr, rfl⟩, rfl⟩

/-- On a healthy connection `GetByID` returns the first row with the id,
together with what `GetWorkoutExercises` returns. -/
theorem GetByID_healthy (s : Store) (id : Int) (row : WorkoutRow) (rest : List WorkoutRow)
    (h : s.workouts.filter (fun w => w.id = id) = row :: rest) :
    ∃ exs, GetWorkoutExercises (DB.healthy s) id = (.ok exs, DB.healthy s) ∧
      GetByID (DB.healthy s) id =
        (.ok (some ⟨row.id, row.name, row.date, row.notes.getD "", row.status, row.template_id,
          row.created_at, row.finished_at, exs⟩), DB.healthy s) := by
  obtain ⟨exs, hexs, _⟩ := GetWorkoutExercises_healthy s id
  refine ⟨exs, hexs, ?_⟩
  unfold GetByID
  simp only [DB.QueryRow, DB.healthy_fails, if_false, Bool.false_eq_true, DB.healthy_step,
    DB.healthy_store, h, hexs]

theorem GetByID_healthy_none (s : Store) (id : Int)
    (h : s.workouts.filter (fun w => w.id = id) = []) :
    GetByID (DB.healthy s) id = (.ok none, DB.healthy s) := by
  unfold GetByID
  simp only [DB.QueryRow, DB.healthy_fails, if_false, Bool.false_eq_true, DB.healthy_step,
    DB.healthy_store, h]

/-! ## C4: template instantiation -/

/-- A successful insert into `workouts`. -/
theorem exec_insertWorkout_ok (now : Nat) (db db1 : DB) (name : String) (date : Nat)
    (tid : Option Int) (id : Int)
    (h : db.Exec (insertWorkout now name date tid) = (.ok id, db1)) :
    id = nextId db.store.seq_workouts (db.store.workouts.map fun w => w.id) ∧
    db1 = ⟨{ db.store with
        workouts := db.store.workouts ++
          [⟨id, name, date, none, WorkoutStatus.in_progress, tid, now, none⟩]
        seq_workouts := id }, db.faults.tail⟩ := by
  unfold DB.Exec insertWorkout at h
  split_ifs at h with h1 h2
  · simp at h
  · simp at h
  · simp only [Prod.mk.injEq, Except.ok.injEq] at h
    obtain ⟨rfl, rfl⟩ := h
    exact ⟨rfl, rfl⟩

/-- The joined rows of a workout whose exercise rows are the last ones of the
table. -/
theorem exerciseJoin_of_append (s : Store) (wid : Int) (old news : List WorkoutExerciseRow)
    (hwe : s.workout_exercises = old ++ news) (hold : ∀ x ∈ old, x.workout_id ≠ wid)
    (hnew : ∀ x ∈ news, x.workout_id = wid ∧ x.exercise_id ∈ s.exercises.map fun e => e.id)
    (hpk : pkExercises s) :
    ((exerciseJoin s).filter fun r => r.1.workout_id = wid).map (fun r => r.1) = news := by
  unfold exerciseJoin
  rw [hwe, List.flatMap_append, List.filter_append, List.map_append]
  have h1 : (old.flatMap fun we =>
      (s.exercises.filter fun e => we.exercise_id = e.id).map fun e => (we, e)).filter
      (fun r => r.1.workout_id = wid) = [] := by
    rw [List.filter_eq_nil_iff]
    intro r hr
    simp only [List.mem_flatMap, List.mem_map, List.mem_filter] at hr
    obtain ⟨we, hwe1, e, _, rfl⟩ := hr
    simpa using hold we hwe1
  rw [h1, List.map_nil, List.nil_append]
  clear h1 hwe hold
  induction news with
  | nil => rfl
  | cons r news ih =>
    obtain ⟨hw, he⟩ := hnew r (List.mem_cons_self _ _)
    rw [List.flatMap_cons, List.filter_append, List.map_append,
      ih fun x hx => hnew x (List.mem_cons_of_mem _ hx)]
    obtain ⟨e, hemem, heid⟩ := List.mem_map.1 he
    have hf : (s.exercises.filter fun x => r.exercise_id = x.id) = [e] := by
      rw [← filter_key_eq_singleton (fun x : Exercise => x.id) s.exercises hpk e hemem]
      apply List.filter_congr
      intro x _
      simp only [← heid]
      exact decide_eq_decide.2 eq_comm
    rw [hf]
    simp [hw]

/-- A successful `CreateFromTemplate` appended the workout row and one exercise
row per template exercise in position order, under fresh ids. -/
theorem CreateFromTemplate_ok (now : Nat) (db db1 : DB) (name : String) (date : Nat)
    (T id : Int) (h : CreateFromTemplate now db name date T = (.ok id, db1)) :
    id = nextId db.store.seq_workouts (db.store.workouts.map fun w => w.id) ∧
    db1.store.workouts = db.store.workouts ++
      [⟨id, name, date, none, WorkoutStatus.in_progress, some T, now, none⟩] ∧
    db1.store.exercises = db.store.exercises ∧
    db1.store.logged_sets = db.store.logged_sets ∧
    ∃ news : List WorkoutExerciseRow,
      db1.store.workout_exercises = db.store.workout_exercises ++ news ∧
      news.map (fun x => (x.exercise_id, x.position)) =
        (orderBy byTemplatePosition
          (db.store.template_exercises.filter fun te => te.template_id = T)).map
          (fun te => (te.exercise_id, te.position)) ∧
      ∀ x ∈ news, x.workout_id = id ∧
        x.id ∉ db.store.workout_exercises.map (fun we => we.id) ∧
        x.exercise_id ∈ db.store.exercises.map (fun e => e.id) := by
  unfold CreateFromTemplate Create at h
  cases hexec : db.Exec (insertWorkout now name date (some T)) with
  | mk res db2 =>
    rw [hexec] at h
    cases res with
    | error e => simp at h
    | ok wid =>
      obtain ⟨hid, hdb2⟩ := exec_insertWorkout_ok _ _ _ _ _ _ _ hexec
      simp only [DB.Query] at h
      cases hf : db2.fails with
      | true => simp [hf] at h
      | false =>
        simp only [hf, if_false, Bool.false_eq_true] at h
        obtain ⟨hr, news, hwe, hmap, hall, hex, hwo, hls⟩ := copyExercises_ok _ _ _ _ _ h
        subst hdb2
        subst hr
        simp only [DB.step] at hwe hmap hall hex hwo hls
        exact ⟨hid, hwo, hex, hls, news, hwe, hmap, hall⟩

/-! ## C4: the instantiated workout read back -/

instance : IsTotal _ byTemplatePosition := ⟨fun a b => by unfold byTemplatePosition; omega⟩

instance : IsTrans _ byTemplatePosition := ⟨fun a b c => by unfold byTemplatePosition; omega⟩

/-- C4: after a successful `CreateFromTemplate` on a store that keeps its
keys and references, the store holds one more workout, in progress and with
the template id, and `GetByID` returns it with one exercise per template row,
referencing the same exercises in ascending template position, each without
logged sets. -/
theorem CreateFromTemplate_GetByID (now : Nat) (db db1 : DB) (name : String) (date : Nat)
    (T id : Int) (hpk : pkExercises db.store) (hfk1 : fkWorkoutOfWorkoutExercise db.store)
    (hfk2 : fkParentOfLoggedSet db.store)
    (h : CreateFromTemplate now db name date T = (.ok id, db1)) :
    db1.store.workouts = db.store.workouts ++
      [⟨id, name, date, none, WorkoutStatus.in_progress, some T, now, none⟩] ∧
    ∃ w, (GetByID (DB.healthy db1.store) id).1 = .ok (some w) ∧
      w.ID = id ∧ w.Status = WorkoutStatus.in_progress ∧ w.TemplateID = some T ∧
      w.Exercises.map (fun we => we.ExerciseID) =
        (orderBy byTemplatePosition
          (db.store.template_exercises.filter fun te => te.template_id = T)).map
          (fun te => te.exercise_id) ∧
      ∀ we ∈ w.Exercises, we.WorkoutID = id ∧ we.Sets = [] := by
  obtain ⟨hid, hwo, hex, hls, news, hwe, hmap, hall⟩ := CreateFromTemplate_ok _ _ _ _ _ _ _ h
  refine ⟨hwo, ?_⟩
  -- the workout row read back
  have hrow : db1.store.workouts.filter (fun w => w.id = id) =
      [⟨id, name, date, none, WorkoutStatus.in_progress, some T, now, none⟩] := by
    rw [hwo, List.filter_append]
    have : db.store.workouts.filter (fun w => decide (w.id = id)) = [] := by
      rw [List.filter_eq_nil_iff]
      intro w hw
      have := lt_nextId db.store.seq_workouts _ _ (List.mem_map_of_mem (fun w => w.id) hw)
      simp only [decide_eq_true_eq] at this ⊢
      omega
    rw [this]
    simp
  obtain ⟨exs, hexs, hget⟩ := GetByID_healthy _ _ _ _ hrow
  obtain ⟨exs1, hexs1, hrows, hsets⟩ := GetWorkoutExercises_healthy db1.store id
  rw [hexs] at hexs1
  simp only [Prod.mk.injEq, Except.ok.injEq, and_true] at hexs1
  subst hexs1
  -- the joined rows are the copied rows
  have hold : ∀ x ∈ db.store.workout_exercises, x.workout_id ≠ id := by
    intro x hx e
    have := lt_nextId db.store.seq_workouts _ _ (hfk1 x hx)
    omega
  have hjoin := exerciseJoin_of_append db1.store id _ news hwe hold
    (fun x hx => ⟨(hall x hx).1, hex ▸ (hall x hx).2.2⟩) (by unfold pkExercises; rw [hex]; exact hpk)
  have hsorted : ((exerciseJoin db1.store).filter fun r => r.1.workout_id = id).Sorted
      byExercisePosition := by
    have h1 : (orderBy byTemplatePosition
        (db.store.template_exercises.filter fun te => te.template_id = T)).Sorted
        byTemplatePosition := List.sorted_insertionSort _ _
    have h2 : ((orderBy byTemplatePosition
        (db.store.template_exercises.filter fun te => te.template_id = T)).map
        fun te => te.position).Sorted (· ≤ ·) := by
      unfold List.Sorted at h1 ⊢
      rw [List.pairwise_map]
      exact h1
    have h3 : (((exerciseJoin db1.store).filter fun r => r.1.workout_id = id).map
        fun r => r.1.position) = (orderBy byTemplatePosition
        (db.store.template_exercises.filter fun te => te.template_id = T)).map
        fun te => te.position := by
      have := congrArg (List.map fun x : WorkoutExerciseRow => x.position) hjoin
      have h4 := congrArg (List.map fun p : Int × Int => p.2) hmap
      simp only [List.map_map, Function.comp_def] at this h4
      rw [this, h4]
    rw [← h3] at h2
    unfold List.Sorted at h2 ⊢
    rw [List.pairwise_map] at h2
    exact h2
  have hord : orderBy byExercisePosition
      ((exerciseJoin db1.store).filter fun r => r.1.workout_id = id) =
      (exerciseJoin db1.store).filter fun r => r.1.workout_id = id :=
    List.Sorted.insertionSort_eq hsorted
  rw [hord] at hrows
  refine ⟨_, by rw [hget], rfl, rfl, rfl, ?_, ?_⟩
  · simp only
    have h5 := congrArg (List.map fun p : Int × Int × Int × Int => p.2.2.1) hrows
    have h6 := congrArg (List.map fun x : WorkoutExerciseRow => x.exercise_id) hjoin
    have h7 := congrArg (List.map fun p : Int × Int => p.1) hmap
    simp only [List.map_map, Function.comp_def] at h5 h6 h7
    rw [h5, h6, h7]
  · intro we hwe1
    simp only at hwe1
    have h8 : (we.ID, we.WorkoutID) ∈ news.map fun x => (x.id, x.workout_id) := by
      have h5 := congrArg (List.map fun p : Int × Int × Int × Int => (p.1, p.2.1)) hrows
      have h6 := congrArg (List.map fun x : WorkoutExerciseRow => (x.id, x.workout_id)) hjoin
      simp only [List.map_map, Function.comp_def] at h5 h6
      rw [← h6, ← h5]
      exact List.mem_map_of_mem (fun we : WorkoutExercise => (we.ID, we.WorkoutID)) hwe1
    obtain ⟨x, hx, hxe⟩ := List.mem_map.1 h8
    simp only [Prod.mk.injEq] at hxe
    refine ⟨hxe.2 ▸ (hall x hx).1, ?_⟩
    rw [hsets we hwe1]
    have : db1.store.logged_sets.filter (fun ls => decide (ls.workout_exercise_id = we.ID)) = [] := by
      rw [List.filter_eq_nil_iff, hls]
      intro ls hl
      simp only [decide_eq_true_eq]
      intro e
      apply (hall x hx).2.1
      rw [hxe.1, ← e]
      exact hfk2 ls hl
    rw [this]
    rfl

/-- Witness of C4: the sample template instantiated on the sample store. -/
theorem CreateFromTemplate_GetByID_witness :
    pkExercises (DB.healthy Sample.gym).store ∧
    fkWorkoutOfWorkoutExercise (DB.healthy Sample.gym).store ∧
    fkParentOfLoggedSet (DB.healthy Sample.gym).store ∧
    CreateFromTemplate 30 (DB.healthy Sample.gym) "Monday" 20 1 =
      (.ok 3, (CreateFromTemplate 30 (DB.healthy Sample.gym) "Monday" 20 1).2) ∧
    ((CreateFromTemplate 30 (DB.healthy Sample.gym) "Monday" 20 1).2.store.workouts =
      (DB.healthy Sample.gym).store.workouts ++
        [⟨3, "Monday", 20, none, WorkoutStatus.in_progress, some 1, 30, none⟩] ∧
    ∃ w, (GetByID (DB.healthy
          (CreateFromTemplate 30 (DB.healthy Sample.gym) "Monday" 20 1).2.store) 3).1 =
        .ok (some w) ∧
      w.ID = 3 ∧ w.Status = WorkoutStatus.in_progress ∧ w.TemplateID = some 1 ∧
      w.Exercises.map (fun we => we.ExerciseID) =
        (orderBy byTemplatePosition
          ((DB.healthy Sample.gym).store.template_exercises.filter
            fun te => te.template_id = 1)).map
          (fun te => te.exercise_id) ∧
      ∀ we ∈ w.Exercises, we.WorkoutID = 3 ∧ we.Sets = []) :=
  ⟨by decide, by decide, by decide, by decide,
    CreateFromTemplate_GetByID 30 (DB.healthy Sample.gym) _ "Monday" 20 1 3
      (by decide) (by decide) (by decide) (by decide)⟩

/-! ## C5: a failing instantiation keeps its writes -/

/-- C5, evaluated: on the sample store, when the driver fails the insert of the
second copied exercise, `CreateFromTemplate` returns the error and the store
keeps the workout row and the first exercise row that the call inserted. -/
theorem CreateFromTemplate_error_keeps_rows :
    (CreateFromTemplate 30 ⟨Sample.gym, [false, false, false, true]⟩ "Monday" 20 1).1 =
      .error DbErr.driver ∧
    (CreateFromTemplate 30 ⟨Sample.gym, [false, false, false, true]⟩ "Monday" 20 1).2.store.workouts =
      Sample.gym.workouts ++
        [⟨3, "Monday", 20, none, WorkoutStatus.in_progress, some 1, 30, none⟩] ∧
    (CreateFromTemplate 30 ⟨Sample.gym, [false, false, false, true]⟩ "Monday" 20
        1).2.store.workout_exercises =
      Sample.gym.workout_exercises ++ [⟨3, 3, 1, 1⟩] := by
  decide

/-! ## C6: targets are read from the template at display time -/

theorem GetTemplateTargets_healthy (s : Store) (T e : Int) :
    ∃ t, GetTemplateTargets (DB.healthy s) T e = (.ok t, DB.healthy s) := by
  unfold GetTemplateTargets
  simp only [DB.QueryRow, DB.healthy_fails, if_false, Bool.false_eq_true, DB.healthy_step,
    DB.healthy_store]
  cases (s.template_exercises.filter fun te =>
      te.template_id = T ∧ te.exercise_id = e).map fun te => (te.target_sets, te.target_reps) with
  | nil => exact ⟨_, rfl⟩
  | cons a l => exact ⟨_, rfl⟩

/-- The function `GetWorkoutExercises` leaves both targets of every exercise `nil`. -/
theorem GetWorkoutExercises_no_targets (s : Store) (wid : Int) (exs : List WorkoutExercise)
    (h : GetWorkoutExercises (DB.healthy s) wid = (.ok exs, DB.healthy s)) :
    ∀ we ∈ exs, we.TargetSets = none ∧ we.TargetReps = none := by
  unfold GetWorkoutExercises at h
  simp only [DB.Query, DB.healthy_fails, if_false, Bool.false_eq_true, DB.healthy_step,
    DB.healthy_store] at h
  generalize orderBy byExercisePosition
    ((exerciseJoin s).filter fun r => r.1.workout_id = wid) = rows at h
  by_cases h0 : (rows.map scanWorkoutExercise).length = 0
  · rw [if_pos h0] at h
    simp only [Prod.mk.injEq, Except.ok.injEq, and_true] at h
    subst h
    intro we hwe
    obtain ⟨r, _, rfl⟩ := List.mem_map.1 hwe
    exact ⟨rfl, rfl⟩
  · rw [if_neg h0] at h
    have hL : (rows.map scanWorkoutExercise).map (fun we => we.ID) ≠ [] := by
      intro h1; apply h0; simpa using h1
    obtain ⟨m, hm, _⟩ := getLoggedSetsBatch_healthy s _ hL
    obtain ⟨m2, hm2⟩ := getLastWeightsBatch_healthy s
      ((rows.map scanWorkoutExercise).map fun we => we.ExerciseID) wid
    rw [hm] at h
    simp only at h
    rw [hm2] at h
    simp only [Prod.mk.injEq, Except.ok.injEq, and_true] at h
    subst h
    intro we hwe
    simp only [List.mem_map] at hwe
    obtain ⟨we0, ⟨r, _, rfl⟩, rfl⟩ := hwe
    exact ⟨rfl, rfl⟩

/-- The target loop of `HandleShow` on a healthy connection gives every
exercise what `GetTemplateTargets` returns for it and changes nothing else. -/
theorem loadTargets_healthy (s : Store) (T : Int) (exs : List WorkoutExercise) :
    ∃ out, loadTargets (DB.healthy s) T exs = (out, DB.healthy s) ∧
      out.map (fun we => { we with TargetSets := none, TargetReps := none }) =
        exs.map (fun we => { we with TargetSets := none, TargetReps := none }) ∧
      ∀ we ∈ out, (GetTemplateTargets (DB.healthy s) T we.ExerciseID).1 =
        .ok (we.TargetSets, we.TargetReps) := by
  induction exs with
  | nil => exact ⟨[], rfl, rfl, fun we h => absurd h (List.not_mem_nil _)⟩
  | cons a exs ih =>
    obtain ⟨out, hout, hmap, hall⟩ := ih
    obtain ⟨t, ht⟩ := GetTemplateTargets_healthy s T a.ExerciseID
    refine ⟨{ a with TargetSets := t.1, TargetReps := t.2 } :: out, ?_, ?_, ?_⟩
    · simp only [loadTargets, ht, hout]
    · simp only [List.map_cons, hmap]
    · intro we hwe
      rcases List.mem_cons.1 hwe with rfl | h1
      · simp only [ht]
      · exact hall we h1

theorem ListAll_healthy (s : Store) :
    exercises.ListAll (DB.healthy s) = (.ok (orderBy exercises.byName s.exercises), DB.healthy s) :=
  rfl

/-- C6: `HandleShow` gives every exercise of a workout with a template the
targets that `GetTemplateTargets` reads from the template rows at that moment,
and no targets when the workout has no template; `GetTemplateTargets T e`
returns the targets of the row of `T` for `e` when there is exactly one, also
right after `templates.UpdateExercise` changed that row, and no targets when
`T` has no row for `e`. -/
theorem targets_resolved_at_display (s : Store) (T e : Int) :
    (∀ id wrow rest, s.workouts.filter (fun w => w.id = id) = wrow :: rest →
      ∃ w allExercises,
        (HandleShow (DB.healthy s) (some id)).1 = ⟨200, Body.WorkoutDetailPage w allExercises⟩ ∧
        (∃ exs, (GetByID (DB.healthy s) id).1 = .ok (some { w with Exercises := exs }) ∧
          w.Exercises.map (fun we => { we with TargetSets := none, TargetReps := none }) =
            exs.map (fun we => { we with TargetSets := none, TargetReps := none })) ∧
        (wrow.template_id = none → ∀ we ∈ w.Exercises, we.TargetSets = none ∧ we.TargetReps = none) ∧
        (wrow.template_id = some T → ∀ we ∈ w.Exercises,
          (GetTemplateTargets (DB.healthy s) T we.ExerciseID).1 =
            .ok (we.TargetSets, we.TargetReps))) ∧
    (∀ row, s.template_exercises.filter
        (fun te => te.template_id = T ∧ te.exercise_id = e) = [row] →
      (GetTemplateTargets (DB.healthy s) T e).1 = .ok (some row.target_sets, some row.target_reps) ∧
      ∀ targetSets targetReps db1,
        templates.UpdateExercise (DB.healthy s) row.id targetSets targetReps = (.ok (), db1) →
        (GetTemplateTargets (DB.healthy db1.store) T e).1 = .ok (some targetSets, some targetReps)) ∧
    (s.template_exercises.filter (fun te => te.template_id = T ∧ te.exercise_id = e) = [] →
      (GetTemplateTargets (DB.healthy s) T e).1 = .ok (none, none)) := by
  refine ⟨?_, ?_, ?_⟩
  · intro id wrow rest hrow
    obtain ⟨exs, hexs, hget⟩ := GetByID_healthy s id wrow rest hrow
    have hnt := GetWorkoutExercises_no_targets s id exs hexs
    cases htid : wrow.template_id with
    | none =>
      refine ⟨⟨wrow.id, wrow.name, wrow.date, wrow.notes.getD "", wrow.status,
        wrow.template_id, wrow.created_at, wrow.finished_at, exs⟩,
        orderBy exercises.byName s.exercises, ?_, ⟨exs, by rw [hget], rfl⟩, fun _ => hnt,
        fun h => by cases h⟩
      simp only [HandleShow, hget, htid, ListAll_healthy]
    | some t =>
      obtain ⟨out, hout, hmap, hall⟩ := loadTargets_healthy s t exs
      refine ⟨⟨wrow.id, wrow.name, wrow.date, wrow.notes.getD "", wrow.status,
        wrow.template_id, wrow.created_at, wrow.finished_at, out⟩,
        orderBy exercises.byName s.exercises, ?_, ⟨exs, by rw [hget], hmap⟩,
        (fun h => by cases h), fun h => ?_⟩
      · simp only [HandleShow, hget, htid, hout, ListAll_healthy]
      · cases h
        exact hall
  · intro row hrow
    refine ⟨?_, ?_⟩
    · simp only [GetTemplateTargets, DB.QueryRow, DB.healthy_fails, DB.healthy_store, hrow,
        List.map_cons, List.map_nil, if_false, Bool.false_eq_true]
    · intro targetSets targetReps db1 hupd
      unfold templates.UpdateExercise DB.Exec at hupd
      simp only [DB.healthy_fails, if_false, Bool.false_eq_true, DB.healthy_store] at hupd
      split_ifs at hupd with hc
      · simp at hupd
      simp only [Prod.mk.injEq, Except.ok.injEq, true_and] at hupd
      subst hupd
      have hf : (s.template_exercises.map fun te =>
          if te.id = row.id then
            { te with target_sets := targetSets, target_reps := targetReps } else te).filter
          (fun te => te.template_id = T ∧ te.exercise_id = e) =
          [{ row with target_sets := targetSets, target_reps := targetReps }] := by
        rw [List.filter_map]
        have hcomp : ((fun te : TemplateExerciseRow =>
            decide (te.template_id = T ∧ te.exercise_id = e)) ∘ fun te =>
            if te.id = row.id then
              { te with target_sets := targetSets, target_reps := targetReps } else te) =
            fun te => decide (te.template_id = T ∧ te.exercise_id = e) := by
          funext te
          simp only [Function.comp]
          split_ifs <;> rfl
        rw [hcomp, hrow]
        simp
      simp only [GetTemplateTargets, DB.QueryRow, DB.healthy_fails, DB.healthy_store, hf,
        List.map_cons, List.map_nil, if_false, Bool.false_eq_true]
  · intro h
    simp only [GetTemplateTargets, DB.QueryRow, DB.healthy_fails, DB.healthy_store, h,
      List.map_nil, if_false, Bool.false_eq_true]

/-- Witness of C6 on the sample store: the row of template 1 for exercise 1,
before and after its targets are set to 4 and 8. -/
theorem targets_resolved_at_display_witness :
    (GetTemplateTargets (DB.healthy Sample.gym) 1 1).1 = .ok (some 5, some 5) ∧
    (GetTemplateTargets
      (DB.healthy (templates.UpdateExercise (DB.healthy Sample.gym) 2 4 8).2.store) 1 1).1 =
      .ok (some 4, some 8) :=
  ⟨((targets_resolved_at_display Sample.gym 1 1).2.1 ⟨2, 1, 1, 5, 5, 1⟩ (by decide)).1,
    ((targets_resolved_at_display Sample.gym 1 1).2.1 ⟨2, 1, 1, 5, 5, 1⟩ (by decide)).2 4 8 _
      (by decide)⟩

/-! ## C7: set updates and deletes on a Finished workout -/

/-- C7, evaluated: on the sample store, whose workout 1 is Finished, the
update-set request on its set 1 is answered 200 and rewrites the set, and the
delete-set request on that set is answered 200 and removes it. -/
theorem finished_workout_sets_modified :
    (GetByID (DB.healthy Sample.gym) 1).1.map (Option.map fun w => w.IsFinished) =
      .ok (some true) ∧
    (HandleUpdateSet (DB.healthy Sample.gym) (some 1) (some 12) (some 145)).1.status = 200 ∧
    (HandleUpdateSet (DB.healthy Sample.gym) (some 1) (some 12) (some 145)).2.store.logged_sets =
      [⟨1, 1, 12, 145, 1, 6⟩, ⟨2, 1, 5, 235, 2, 7⟩] ∧
    (HandleDeleteSet (DB.healthy Sample.gym) (some 1)).1.status = 200 ∧
    (HandleDeleteSet (DB.healthy Sample.gym) (some 1)).2.store.logged_sets =
      [⟨2, 1, 5, 235, 2, 7⟩] := by
  decide

/-! ## C8: update of a Finished workout -/

/-- C8: when the statement runs, `Update` on the id of a Finished workout
returns no error and leaves the whole store, so the workout, its exercises and
their sets, as it was. -/
theorem Update_finished_unchanged (db : DB) (w : WorkoutRow) (name : String) (date : Nat)
    (notes : String) (hpk : pkWorkouts db.store) (hw : w ∈ db.store.workouts)
    (hf : w.status = WorkoutStatus.finished) (hq : db.fails = false) :
    (Update db w.id name date notes).1 = .ok () ∧
    (Update db w.id name date notes).2.store = db.store := by
  have hmap : (db.store.workouts.map fun x =>
      if x.id = w.id ∧ x.status = WorkoutStatus.in_progress then
        { x with name := name, date := date, notes := some notes } else x) =
      db.store.workouts := by
    conv_rhs => rw [← List.map_id db.store.workouts]
    apply List.map_congr_left
    intro x hx
    have hne : ¬ (x.id = w.id ∧ x.status = WorkoutStatus.in_progress) := by
      rintro ⟨h1, h2⟩
      have := List.inj_on_of_nodup_map hpk hx hw h1
      subst this
      rw [hf] at h2
      cases h2
    rw [if_neg hne]
    rfl
  unfold Update DB.Exec
  simp only [hq, if_false, Bool.false_eq_true, hmap]
  exact ⟨trivial, trivial⟩

/-- Witness of C8: the Finished workout 1 of the sample store. -/
theorem Update_finished_unchanged_witness :
    pkWorkouts (DB.healthy Sample.gym).store ∧
    (⟨1, "Workout 1", 10, none, WorkoutStatus.finished, none, 5, some 9⟩ : WorkoutRow) ∈
      (DB.healthy Sample.gym).store.workouts ∧
    (DB.healthy Sample.gym).fails = false ∧
    (Update (DB.healthy Sample.gym) 1 "New Name" 20 "Some notes").1 = .ok () ∧
    (Update (DB.healthy Sample.gym) 1 "New Name" 20 "Some notes").2.store =
      (DB.healthy Sample.gym).store :=
  ⟨by decide, by decide, by decide,
    Update_finished_unchanged (DB.healthy Sample.gym)
      ⟨1, "Workout 1", 10, none, WorkoutStatus.finished, none, 5, some 9⟩ "New Name" 20
      "Some notes" (by decide) (by decide) rfl (by decide)⟩

/-! ## C10: finishing twice -/

/-- C10: on a healthy connection both calls of `Finish` return no error, the
second leaves the store as the first left it, every workout with the id is
then finished, and a workout that the first call finished keeps the
`finished_at` of the first call. -/
theorem Finish_twice (s : Store) (id : Int) (now1 now2 : Nat) :
    (Finish now1 (DB.healthy s) id).1 = .ok () ∧
    (Finish now2 (Finish now1 (DB.healthy s) id).2 id).1 = .ok () ∧
    (Finish now2 (Finish now1 (DB.healthy s) id).2 id).2.store =
      (Finish now1 (DB.healthy s) id).2.store ∧
    (∀ w ∈ (Finish now2 (Finish now1 (DB.healthy s) id).2 id).2.store.workouts,
      w.id = id → w.status = WorkoutStatus.finished) ∧
    (∀ w ∈ s.workouts, w.id = id → w.status = WorkoutStatus.in_progress →
      { w with status := WorkoutStatus.finished, finished_at := some now1 } ∈
        (Finish now2 (Finish now1 (DB.healthy s) id).2 id).2.store.workouts) ∧
    (∀ w ∈ s.workouts, w.id = id → w.status = WorkoutStatus.finished →
      w ∈ (Finish now2 (Finish now1 (DB.healthy s) id).2 id).2.store.workouts) := by
  have hstep : ∀ now (s0 : Store), Finish now (DB.healthy s0) id =
      (.ok (), DB.healthy { s0 with
        workouts := s0.workouts.map fun w =>
          if w.id = id ∧ w.status = WorkoutStatus.in_progress then
            { w with status := WorkoutStatus.finished, finished_at := some now }
          else w }) := fun _ _ => rfl
  have hidem : ∀ x : WorkoutRow,
      (fun w : WorkoutRow =>
        if w.id = id ∧ w.status = WorkoutStatus.in_progress then
          { w with status := WorkoutStatus.finished, finished_at := some now2 }
        else w)
        ((fun w : WorkoutRow =>
          if w.id = id ∧ w.status = WorkoutStatus.in_progress then
            { w with status := WorkoutStatus.finished, finished_at := some now1 }
          else w) x) =
        (fun w : WorkoutRow =>
          if w.id = id ∧ w.status = WorkoutStatus.in_progress then
            { w with status := WorkoutStatus.finished, finished_at := some now1 }
          else w) x := by
    intro x
    by_cases hc : x.id = id ∧ x.status = WorkoutStatus.in_progress
    · simp only [hc, and_self, if_true, reduceCtorEq, and_false, if_false]
    · simp only [hc, if_false]
  have hsame : (Finish now2 (Finish now1 (DB.healthy s) id).2 id).2.store =
      (Finish now1 (DB.healthy s) id).2.store := by
    rw [hstep now1 s]
    simp only [hstep now2, DB.healthy_store]
    simp only [List.map_map]
    have : ((fun w : WorkoutRow =>
        if w.id = id ∧ w.status = WorkoutStatus.in_progress then
          { w with status := WorkoutStatus.finished, finished_at := some now2 }
        else w) ∘ fun w : WorkoutRow =>
          if w.id = id ∧ w.status = WorkoutStatus.in_progress then
            { w with status := WorkoutStatus.finished, finished_at := some now1 }
          else w) = fun w : WorkoutRow =>
          if w.id = id ∧ w.status = WorkoutStatus.in_progress then
            { w with status := WorkoutStatus.finished, finished_at := some now1 }
          else w := funext hidem
    rw [this]
  refine ⟨rfl, ?_, hsame, ?_, ?_, ?_⟩
  · rw [hstep now1 s, hstep now2]
  · rw [hsame, hstep now1 s]
    intro w hw hid
    simp only [DB.healthy_store, List.mem_map] at hw
    obtain ⟨x, _, rfl⟩ := hw
    by_cases hc : x.id = id ∧ x.status = WorkoutStatus.in_progress
    · simp only [hc, and_self, if_true]
    · simp only [hc, if_false] at hid ⊢
      cases hst : x.status with
      | finished => rfl
      | in_progress => exact absurd ⟨hid, hst⟩ hc
  · rw [hsame, hstep now1 s]
    intro w hw hid hst
    simp only [DB.healthy_store, List.mem_map]
    exact ⟨w, hw, by simp only [hid, hst, and_self, if_true]⟩
  · rw [hsame, hstep now1 s]
    intro w hw hid hst
    simp only [DB.healthy_store, List.mem_map]
    exact ⟨w, hw, by simp only [hid, hst, reduceCtorEq, and_false, if_false]⟩

/-! ## C9: adding to a Finished workout -/

theorem mem_exerciseJoin (s : Store) (r : WorkoutExerciseRow × Exercise) :
    r ∈ exerciseJoin s ↔
      r.1 ∈ s.workout_exercises ∧ r.2 ∈ s.exercises ∧ r.1.exercise_id = r.2.id := by
  obtain ⟨we, e⟩ := r
  simp only [exerciseJoin, List.mem_flatMap, List.mem_filter, List.mem_map, decide_eq_true_eq,
    Prod.mk.injEq]
  constructor
  · rintro ⟨we1, h1, e1, ⟨h2, h3⟩, rfl, rfl⟩
    exact ⟨h1, h2, h3⟩
  · rintro ⟨h1, h2, h3⟩
    exact ⟨we, h1, e, ⟨h2, h3⟩, rfl, rfl⟩

theorem GetLastWeight_healthy (s : Store) (E X : Int) :
    ∃ r, GetLastWeight (DB.healthy s) E X = (.ok r, DB.healthy s) := by
  unfold GetLastWeight
  simp only [DB.QueryRow, DB.healthy_fails, if_false, Bool.false_eq_true, DB.healthy_step,
    DB.healthy_store]
  cases ((lastWeightRows s E X).take 1).map fun r => r.1.weight with
  | nil => exact ⟨none, rfl⟩
  | cons a l => exact ⟨some a, rfl⟩

/-- On a healthy connection `GetWorkoutExerciseByID` returns the first joined
row with the id. -/
theorem GetWorkoutExerciseByID_healthy (s : Store) (id : Int) (row : WorkoutExerciseRow × Exercise)
    (rest : List (WorkoutExerciseRow × Exercise))
    (h : (exerciseJoin s).filter (fun r => r.1.id = id) = row :: rest) :
    ∃ sets lw, GetWorkoutExerciseByID (DB.healthy s) id =
      (.ok (some { scanWorkoutExercise row with Sets := sets, LastWeight := lw }),
        DB.healthy s) := by
  obtain ⟨lw, hlw⟩ := GetLastWeight_healthy s (scanWorkoutExercise row).ExerciseID
    (scanWorkoutExercise row).WorkoutID
  refine ⟨orderBy byPosition (s.logged_sets.filter fun ls =>
    ls.workout_exercise_id = (scanWorkoutExercise row).ID), lw, ?_⟩
  unfold GetWorkoutExerciseByID
  simp only [DB.QueryRow, DB.healthy_fails, if_false, Bool.false_eq_true, DB.healthy_step,
    DB.healthy_store, h, GetLoggedSets, DB.Query, hlw]

/-- Under the keys and the exercise reference, the first joined row with the
id of a workout exercise is that workout exercise. -/
theorem exerciseJoin_first (s : Store) (we : WorkoutExerciseRow) (hwe : we ∈ s.workout_exercises)
    (hpk : pkWorkoutExercises s) (hfk : fkExerciseOfWorkoutExercise s) :
    ∃ e rest, (exerciseJoin s).filter (fun r => r.1.id = we.id) = (we, e) :: rest := by
  obtain ⟨e, he, heid⟩ := List.mem_map.1 (hfk we hwe)
  have hmem : (we, e) ∈ (exerciseJoin s).filter (fun r => r.1.id = we.id) := by
    rw [List.mem_filter, mem_exerciseJoin]
    exact ⟨⟨hwe, he, heid.symm⟩, by simp⟩
  cases hl : (exerciseJoin s).filter (fun r => r.1.id = we.id) with
  | nil => rw [hl] at hmem; exact absurd hmem (List.not_mem_nil _)
  | cons r rest =>
    have hr : r ∈ (exerciseJoin s).filter (fun r => r.1.id = we.id) :=
      hl ▸ List.mem_cons_self _ _
    rw [List.mem_filter, mem_exerciseJoin] at hr
    have hrid : r.1.id = we.id := by simpa using hr.2
    have : r.1 = we := List.inj_on_of_nodup_map hpk hr.1.1 hwe hrid
    refine ⟨r.2, rest, ?_⟩
    rw [← this]

/-- C9: on a store that keeps its keys and the exercise reference, the
add-exercise request for a Finished workout, and the add-set request for every
exercise of it, are answered 400 whatever the form fields are, and leave the
store as it was. -/
theorem finished_rejects_adds (s : Store) (w : WorkoutRow) (hpk : pkWorkouts s)
    (hpkwe : pkWorkoutExercises s) (hfk : fkExerciseOfWorkoutExercise s)
    (hw : w ∈ s.workouts) (hf : w.status = WorkoutStatus.finished) :
    (∀ exercise_id, HandleAddExercise (DB.healthy s) (some w.id) exercise_id =
      (⟨400, Body.text "Cannot modify finished workout"⟩, DB.healthy s)) ∧
    (∀ we ∈ s.workout_exercises, we.workout_id = w.id → ∀ now reps weight,
      HandleAddSet now (DB.healthy s) (some we.id) reps weight =
        (⟨400, Body.text "Cannot modify finished workout"⟩, DB.healthy s)) := by
  have hrow : s.workouts.filter (fun x => x.id = w.id) = [w] :=
    filter_key_eq_singleton (fun x : WorkoutRow => x.id) s.workouts hpk w hw
  obtain ⟨exs, _, hget⟩ := GetByID_healthy s w.id w [] hrow
  refine ⟨?_, ?_⟩
  · intro exercise_id
    simp only [HandleAddExercise, hget, Workout.IsFinished, hf, decide_True, if_true]
  · intro we hwe hwid now reps weight
    obtain ⟨e, rest, hjoin⟩ := exerciseJoin_first s we hwe hpkwe hfk
    obtain ⟨sets, lw, hwe1⟩ := GetWorkoutExerciseByID_healthy s we.id _ _ hjoin
    simp only [HandleAddSet, hwe1, scanWorkoutExercise, hwid, hget, Workout.IsFinished, hf,
      decide_True, if_true]

/-- Witness of C9: the Finished workout 1 of the sample store and its exercise. -/
theorem finished_rejects_adds_witness :
    pkWorkouts Sample.gym ∧ pkWorkoutExercises Sample.gym ∧
    fkExerciseOfWorkoutExercise Sample.gym ∧
    (⟨1, "Workout 1", 10, none, WorkoutStatus.finished, none, 5, some 9⟩ : WorkoutRow) ∈
      Sample.gym.workouts ∧
    (∀ exercise_id, HandleAddExercise (DB.healthy Sample.gym) (some 1) exercise_id =
      (⟨400, Body.text "Cannot modify finished workout"⟩, DB.healthy Sample.gym)) ∧
    (∀ we ∈ Sample.gym.workout_exercises, we.workout_id = 1 → ∀ now reps weight,
      HandleAddSet now (DB.healthy Sample.gym) (some we.id) reps weight =
        (⟨400, Body.text "Cannot modify finished workout"⟩, DB.healthy Sample.gym)) :=
  ⟨by decide, by decide, by decide, by decide,
    finished_rejects_adds Sample.gym
      ⟨1, "Workout 1", 10, none, WorkoutStatus.finished, none, 5, some 9⟩
      (by decide) (by decide) (by decide) (by decide) rfl⟩

/-! ## C16: removing a template exercise -/

/-- C16: `templates.RemoveExercise` returns no error when the statement runs
and then deletes the rows with the id and nothing else: every other row of
`template_exercises` stays as it was and so does every other table; on the
template 1 of the sample store, with positions 1, 2, 3, removing the middle
row leaves the positions 1 and 3 and the next `AddExercise` gets position 4. -/
theorem RemoveExercise_only_that_row (db : DB) (id : Int) :
    (templates.RemoveExercise db id).1 = (if db.fails then .error DbErr.driver else .ok ()) ∧
    (templates.RemoveExercise db id).2.store =
      (if db.fails then db.store
        else { db.store with
          template_exercises := db.store.template_exercises.filter fun te => te.id ≠ id }) ∧
    (∀ te, te ∈ db.store.template_exercises → te.id ≠ id →
      te ∈ (templates.RemoveExercise db id).2.store.template_exercises) ∧
    ((templates.RemoveExercise (DB.healthy Sample.fullBody) 2).2.store.template_exercises.map
        (fun te => (te.id, te.position)) = [(1, 1), (3, 3)] ∧
      (templates.AddExercise 4 (templates.RemoveExercise (DB.healthy Sample.fullBody) 2).2
          1 2 4 6).2.store.template_exercises.map (fun te => (te.id, te.position)) =
        [(1, 1), (3, 3), (4, 4)]) := by
  refine ⟨?_, ?_, ?_, by decide⟩
  · cases hf : db.fails <;>
      simp [templates.RemoveExercise, DB.Exec, templates.deleteTemplateExercise, hf]
  · cases hf : db.fails <;>
      simp [templates.RemoveExercise, DB.Exec, templates.deleteTemplateExercise, hf, DB.step]
  · intro te hte hid
    cases hf : db.fails <;>
      simp [templates.RemoveExercise, DB.Exec, templates.deleteTemplateExercise, hf, DB.step,
        hte, hid]

/-! ## C13: reordering under the unique index -/

/-- C13, evaluated: on the sample template with rows 1, 2, 3 at the positions
1, 2, 3, `ReorderExercises` with the permutations `[2, 1, 3]` and `[3, 1, 2]`
of the ids returns the `UNIQUE` failure of its first update and leaves every
position as it was; only the order the rows already have is accepted. -/
theorem ReorderExercises_permutation_fails :
    Sample.fullBody.template_exercises.map (fun te => (te.id, te.template_id, te.position)) =
      [(1, 1, 1), (2, 1, 2), (3, 1, 3)] ∧
    (templates.ReorderExercises (DB.healthy Sample.fullBody) 1 [2, 1, 3]).1 =
      .error DbErr.unique ∧
    (templates.ReorderExercises (DB.healthy Sample.fullBody) 1 [3, 1, 2]).1 =
      .error DbErr.unique ∧
    (templates.ReorderExercises (DB.healthy Sample.fullBody) 1 [2, 1, 3]).2.store =
      Sample.fullBody ∧
    (templates.ReorderExercises (DB.healthy Sample.fullBody) 1 [1, 2, 3]).1 = .ok () := by
  decide

/-! ## C14: a failed reorder leaves no trace -/

theorem Tx.Exec_snapshot {α : Type} (tx : Tx) (stmt : Store → Except DbErr (α × Store)) :
    (tx.Exec stmt).2.snapshot = tx.snapshot := rfl

theorem templates_reorderLoop_snapshot (tx : Tx) (T : Int) (i : Int) (ids : List Int) :
    (templates.reorderLoop tx T i ids).2.snapshot = tx.snapshot := by
  induction ids generalizing tx i with
  | nil => rfl
  | cons id rest ih =>
    unfold templates.reorderLoop
    cases h : tx.Exec (templates.updateExercisePosition (i + 1) id T) with
    | mk r tx1 =>
      have hs : tx1.snapshot = tx.snapshot := by
        rw [← Tx.Exec_snapshot tx (templates.updateExercisePosition (i + 1) id T), h]
      cases r with
      | error e => exact hs
      | ok a => simp only; rw [ih, hs]

theorem routines_reorderLoop_snapshot (tx : Tx) (R : Int) (i : Int) (ids : List Int) :
    (routines.reorderLoop tx R i ids).2.snapshot = tx.snapshot := by
  induction ids generalizing tx i with
  | nil => rfl
  | cons id rest ih =>
    unfold routines.reorderLoop
    cases h : tx.Exec (routines.updateTemplatePosition (i + 1) id R) with
    | mk r tx1 =>
      have hs : tx1.snapshot = tx.snapshot := by
        rw [← Tx.Exec_snapshot tx (routines.updateTemplatePosition (i + 1) id R), h]
      cases r with
      | error e => exact hs
      | ok a => simp only; rw [ih, hs]

/-- C14: whenever `templates.ReorderExercises` or `routines.ReorderTemplates`
returns an error, whichever statement failed (begin, an update at any index, or
the commit), the store after the call is the store before it. -/
theorem reorder_error_rolls_back (db : DB) (parent : Int) (ids : List Int) (e : DbErr) :
    ((templates.ReorderExercises db parent ids).1 = .error e →
      (templates.ReorderExercises db parent ids).2.store = db.store) ∧
    ((routines.ReorderTemplates db parent ids).1 = .error e →
      (routines.ReorderTemplates db parent ids).2.store = db.store) := by
  constructor
  · unfold templates.ReorderExercises DB.Begin
    cases hf : db.fails with
    | true => intro _; rfl
    | false =>
      simp only [if_false, Bool.false_eq_true]
      have hs := templates_reorderLoop_snapshot ⟨db.store, db.step⟩ parent 0 ids
      cases hl : templates.reorderLoop ⟨db.store, db.step⟩ parent 0 ids with
      | mk r tx1 =>
        rw [hl] at hs
        cases r with
        | error e1 => intro _; exact hs
        | ok a =>
          simp only [Tx.Commit]
          cases hc : tx1.conn.fails with
          | true => intro _; exact hs
          | false => simp
  · unfold routines.ReorderTemplates DB.Begin
    cases hf : db.fails with
    | true => intro _; rfl
    | false =>
      simp only [if_false, Bool.false_eq_true]
      have hs := routines_reorderLoop_snapshot ⟨db.store, db.step⟩ parent 0 ids
      cases hl : routines.reorderLoop ⟨db.store, db.step⟩ parent 0 ids with
      | mk r tx1 =>
        rw [hl] at hs
        cases r with
        | error e1 => intro _; exact hs
        | ok a =>
          simp only [Tx.Commit]
          cases hc : tx1.conn.fails with
          | true => intro _; exact hs
          | false => simp

/-- Witness of C14: the update at index 0 of a swap fails on the sample
template, and the commit fails on the sample routine. -/
theorem reorder_error_rolls_back_witness :
    (templates.ReorderExercises (DB.healthy Sample.fullBody) 1 [2, 1, 3]).1 =
      .error DbErr.unique ∧
    (templates.ReorderExercises (DB.healthy Sample.fullBody) 1 [2, 1, 3]).2.store =
      (DB.healthy Sample.fullBody).store ∧
    (routines.ReorderTemplates ⟨Sample.ppl, [false, false, false, false, true]⟩ 1 [1, 2, 3]).1 =
      .error DbErr.driver ∧
    (routines.ReorderTemplates ⟨Sample.ppl, [false, false, false, false, true]⟩ 1
        [1, 2, 3]).2.store = Sample.ppl :=
  ⟨by decide,
    (reorder_error_rolls_back (DB.healthy Sample.fullBody) 1 [2, 1, 3] DbErr.unique).1
      (by decide),
    by decide,
    (reorder_error_rolls_back ⟨Sample.ppl, [false, false, false, false, true]⟩ 1 [1, 2, 3]
      DbErr.driver).2 (by decide)⟩

/-! ## Appending at the next position -/

/-- The positions `1, 2, ..., k`. -/
theorem positions_succ (k : Nat) :
    (List.range (k + 1)).map (fun i : Nat => (i : Int) + 1) =
      (List.range k).map (fun i : Nat => (i : Int) + 1) ++ [(k : Int) + 1] := by
  rw [List.range_succ, List.map_append]
  rfl

theorem sqlMax_append (l : List Int) (x : Int) :
    sqlMax (l ++ [x]) = some (match sqlMax l with
      | some m => max m x
      | none => x) := by
  cases l with
  | nil => rfl
  | cons a l => simp [sqlMax, List.foldl_append]

/-- The aggregate `MAX(position)` over the positions `1, ..., k`. -/
theorem sqlMax_positions (k : Nat) :
    sqlMax ((List.range k).map fun i : Nat => (i : Int) + 1) =
      if k = 0 then none else some (k : Int) := by
  induction k with
  | zero => rfl
  | succ k ih =>
    rw [positions_succ, sqlMax_append, ih]
    by_cases hk : k = 0
    · subst hk; simp
    · simp only [hk, if_false, Nat.succ_ne_zero, Nat.cast_add, Nat.cast_one]
      congr 1
      exact max_eq_right (by omega)

/-- After the positions `1, ..., k` the next position is `k + 1`. -/
theorem nextPos_positions (k : Nat) :
    (match sqlMax ((List.range k).map fun i : Nat => (i : Int) + 1) with
      | some m => m + 1
      | none => (1 : Int)) = (k : Int) + 1 := by
  rw [sqlMax_positions]
  by_cases hk : k = 0
  · subst hk; rfl
  · simp only [hk, if_false]

theorem positions_sorted (k : Nat) :
    ((List.range k).map fun i : Nat => (i : Int) + 1).Sorted (· ≤ ·) := by
  unfold List.Sorted
  rw [List.pairwise_map]
  exact (List.sorted_le_range k).imp fun h => by omega

/-- The inner join of rows with a keyed table: under the foreign key every row
that passes the filter appears once, in the order of the rows, next to the row
it references. -/
theorem join_filter_fst {α β : Type} (l : List α) (E : List β) (key : α → Int) (idf : β → Int)
    (p : α → Bool) (hpk : (E.map idf).Nodup)
    (hfk : ∀ x ∈ l, p x = true → key x ∈ E.map idf) :
    ((l.flatMap fun x => (E.filter fun e => key x = idf e).map fun e => (x, e)).filter
      fun r => p r.1).map Prod.fst = l.filter p := by
  induction l with
  | nil => rfl
  | cons x l ih =>
    rw [List.flatMap_cons, List.filter_append, List.map_append,
      ih fun y hy => hfk y (List.mem_cons_of_mem _ hy)]
    by_cases hp : p x = true
    · obtain ⟨e, hemem, heid⟩ := List.mem_map.1 (hfk x (List.mem_cons_self _ _) hp)
      have hf : (E.filter fun y => key x = idf y) = [e] := by
        rw [← filter_key_eq_singleton idf E hpk e hemem]
        apply List.filter_congr
        intro y _
        simp only [← heid]
        exact decide_eq_decide.2 eq_comm
      rw [hf, List.filter_cons_of_pos hp]
      simp [hp]
    · rw [List.filter_cons_of_neg hp]
      have : ((E.filter fun e => key x = idf e).map fun e => (x, e)).filter
          (fun r => p r.1) = [] := by
        rw [List.filter_eq_nil_iff]
        intro r hr
        obtain ⟨e, _, rfl⟩ := List.mem_map.1 hr
        exact hp
      rw [this]
      rfl

/-- Every joined row pairs a row with a row of its key. -/
theorem join_key {α β : Type} (l : List α) (E : List β) (key : α → Int) (idf : β → Int)
    (r : α × β) (h : r ∈ l.flatMap fun x => (E.filter fun e => key x = idf e).map fun e => (x, e)) :
    r.1 ∈ l ∧ r.2 ∈ E ∧ key r.1 = idf r.2 := by
  simp only [List.mem_flatMap, List.mem_map, List.mem_filter, decide_eq_true_eq] at h
  obtain ⟨x, hx, e, ⟨he, hk⟩, rfl⟩ := h
  exact ⟨hx, he, hk⟩

/-- An ordered result whose rows already come in order is the rows as read. -/
theorem orderBy_of_sorted_map {α : Type} (r : α → α → Prop) [DecidableRel r] (f : α → Int)
    (hr : ∀ a b, f a ≤ f b → r a b) (l : List α) (h : (l.map f).Sorted (· ≤ ·)) :
    orderBy r l = l := by
  apply List.Sorted.insertionSort_eq
  unfold List.Sorted at h ⊢
  rw [List.pairwise_map] at h
  exact h.imp fun hab => hr _ _ hab

/-! ## C12: appending exercises to a template -/

instance : IsTotal _ templates.byJoinedPosition :=
  ⟨fun a b => by unfold templates.byJoinedPosition; omega⟩

instance : IsTrans _ templates.byJoinedPosition :=
  ⟨fun a b c => by unfold templates.byJoinedPosition; omega⟩

/-- After the positions `1, ..., k` a position computed from `MAX(position)`
as the append functions do is `k + 1`. -/
theorem pos_of_sqlMax_positions (k : Nat) (pos : Int)
    (hsome : ∀ m, sqlMax ((List.range k).map fun i : Nat => (i : Int) + 1) = some m →
      pos = m + 1)
    (hnone : sqlMax ((List.range k).map fun i : Nat => (i : Int) + 1) = none → pos = 1) :
    pos = (k : Int) + 1 := by
  rw [sqlMax_positions] at hsome hnone
  by_cases hk : k = 0
  · subst hk
    simpa using hnone
  · simp only [hk, if_false] at hsome
    exact hsome _ rfl

/-- A successful insert into `template_exercises`. -/
theorem exec_insertTemplateExercise_ok (db db1 : DB) (T e ts tr pos newid : Int)
    (h : db.Exec (templates.insertTemplateExercise T e ts tr pos) = (.ok newid, db1)) :
    db1 = ⟨{ db.store with
        template_exercises := db.store.template_exercises ++ [⟨newid, T, e, ts, tr, pos⟩]
        seq_template_exercises := newid }, db.faults.tail⟩ ∧
    newid = nextId db.store.seq_template_exercises
      (db.store.template_exercises.map fun te => te.id) ∧
    e ∈ db.store.exercises.map (fun x => x.id) ∧
    T ∈ db.store.workout_templates.map (fun t => t.id) ∧ 0 < ts ∧ 0 < tr ∧
    ¬ ∃ te ∈ db.store.template_exercises, te.template_id = T ∧ te.position = pos := by
  unfold DB.Exec templates.insertTemplateExercise at h
  split_ifs at h with h1 h2 h3 h4
  · simp at h
  · simp at h
  · simp at h
  · simp at h
  · simp only [Prod.mk.injEq, Except.ok.injEq] at h
    obtain ⟨rfl, rfl⟩ := h
    push_neg at h2 h4
    exact ⟨rfl, rfl, h4.2, h4.1, h2.1, h2.2, h3⟩

/-- The timestamp update of `AddExercise` touches `workout_templates` only and
keeps its ids. -/
theorem exec_touchTemplate (now : Nat) (db : DB) (T : Int) :
    (db.Exec (templates.touchTemplate now T)).2.store.template_exercises =
      db.store.template_exercises ∧
    (db.Exec (templates.touchTemplate now T)).2.store.exercises = db.store.exercises ∧
    (db.Exec (templates.touchTemplate now T)).2.store.workout_templates.map (fun t => t.id) =
      db.store.workout_templates.map (fun t => t.id) := by
  unfold DB.Exec templates.touchTemplate
  cases hf : db.fails with
  | true => exact ⟨rfl, rfl, rfl⟩
  | false =>
    refine ⟨rfl, rfl, ?_⟩
    simp only [if_false, Bool.false_eq_true, List.map_map]
    apply List.map_congr_left
    intro t _
    simp only [Function.comp]
    split_ifs <;> rfl

/-- A successful `templates.AddExercise` appended one row at the next position
of the template; the exercise and the template exist, the targets are
positive, and only the timestamps of `workout_templates` may differ besides. -/
theorem templates_AddExercise_ok (now : Nat) (db db1 : DB) (T e ts tr id : Int)
    (h : templates.AddExercise now db T e ts tr = (.ok id, db1)) :
    (∃ pos, db1.store.template_exercises = db.store.template_exercises ++
        [⟨id, T, e, ts, tr, pos⟩] ∧
      (∀ m, sqlMax ((db.store.template_exercises.filter fun te =>
        te.template_id = T).map fun te => te.position) = some m → pos = m + 1) ∧
      (sqlMax ((db.store.template_exercises.filter fun te =>
        te.template_id = T).map fun te => te.position) = none → pos = 1)) ∧
    e ∈ db.store.exercises.map (fun x => x.id) ∧
    0 < ts ∧ 0 < tr ∧
    db1.store.exercises = db.store.exercises ∧
    db1.store.workout_templates.map (fun t => t.id) =
      db.store.workout_templates.map (fun t => t.id) := by
  unfold templates.AddExercise DB.QueryRow at h
  cases hf : db.fails with
  | true => simp [hf] at h
  | false =>
    simp only [hf, if_false, Bool.false_eq_true] at h
    split at h
    · simp at h
    · rename_i newid db2 hexec
      simp only [Prod.mk.injEq, Except.ok.injEq] at h
      obtain ⟨rfl, rfl⟩ := h
      obtain ⟨hdb2, _, he, hT, hts, htr, _⟩ :=
        exec_insertTemplateExercise_ok _ _ _ _ _ _ _ _ hexec
      obtain ⟨ht1, ht2, ht3⟩ := exec_touchTemplate now db2 T
      subst hdb2
      refine ⟨⟨_, ht1, ?_, ?_⟩, he, hts, htr, ht2, ht3⟩
      · intro m hm
        rw [hm]
      · intro hm
        rw [hm]

/-- The rows of a template after a run of successful appends: the rows it had,
then one row per call in the order of the calls, at the next positions. -/
theorem addExercises_rows (now : Nat) (T : Int) (calls : List (Int × Int × Int)) :
    ∀ (db db1 : DB) (done : List (Int × Int × Int)),
    (db.store.template_exercises.filter fun te => te.template_id = T).map
      (fun te => (te.exercise_id, te.target_sets, te.target_reps)) = done →
    (db.store.template_exercises.filter fun te => te.template_id = T).map
      (fun te => te.position) = (List.range done.length).map (fun i : Nat => (i : Int) + 1) →
    (∀ te ∈ db.store.template_exercises.filter (fun te => te.template_id = T),
      te.exercise_id ∈ db.store.exercises.map fun x => x.id) →
    templates.addExercises now db T calls = some db1 →
    (db1.store.template_exercises.filter fun te => te.template_id = T).map
      (fun te => (te.exercise_id, te.target_sets, te.target_reps)) = done ++ calls ∧
    (db1.store.template_exercises.filter fun te => te.template_id = T).map
      (fun te => te.position) =
      (List.range (done.length + calls.length)).map (fun i : Nat => (i : Int) + 1) ∧
    (∀ te ∈ db1.store.template_exercises.filter (fun te => te.template_id = T),
      te.exercise_id ∈ db1.store.exercises.map fun x => x.id) ∧
    db1.store.exercises = db.store.exercises ∧
    db1.store.workout_templates.map (fun t => t.id) =
      db.store.workout_templates.map (fun t => t.id) ∧
    ∀ c ∈ calls, 0 < c.2.1 ∧ 0 < c.2.2 := by
  induction calls with
  | nil =>
    intro db db1 done h1 h2 h3 h
    simp only [templates.addExercises, Option.some.injEq] at h
    subst h
    simp only [List.append_nil, List.length_nil, Nat.add_zero]
    exact ⟨h1, h2, h3, trivial, trivial, fun c hc => absurd hc (List.not_mem_nil _)⟩
  | cons c calls ih =>
    intro db db1 done h1 h2 h3 h
    unfold templates.addExercises at h
    split at h
    · rename_i newid db2 hadd
      obtain ⟨⟨pos, hte, hp1, hp2⟩, he, hts, htr, hex, hwt⟩ :=
        templates_AddExercise_ok _ _ _ _ _ _ _ _ hadd
      rw [h2] at hp1 hp2
      have hpos := pos_of_sqlMax_positions done.length pos hp1 hp2
      subst hpos
      have hfil : (db2.store.template_exercises.filter fun te => te.template_id = T) =
          (db.store.template_exercises.filter fun te => te.template_id = T) ++
            [⟨newid, T, c.1, c.2.1, c.2.2, (done.length : Int) + 1⟩] := by
        rw [hte, List.filter_append]
        simp
      obtain ⟨r1, r2, r3, r4, r5, r6⟩ := ih db2 db1 (done ++ [c])
        (by rw [hfil, List.map_append, h1]; rfl)
        (by rw [hfil, List.map_append, h2, List.length_append, List.length_singleton,
          positions_succ]; rfl)
        (by
          intro te hte1
          rw [hfil] at hte1
          rw [hex]
          rcases List.mem_append.1 hte1 with hm | hm
          · exact h3 te hm
          · rw [List.mem_singleton.1 hm]; exact he)
        h
      refine ⟨by rw [r1]; simp, ?_, r3, r4.trans hex, r5.trans hwt, ?_⟩
      · rw [r2]
        simp only [List.length_append, List.length_cons, List.length_nil]
        congr 2
        omega
      · intro x hx
        rcases List.mem_cons.1 hx with rfl | hx1
        · exact ⟨hts, htr⟩
        · exact r6 x hx1
    · cases h

/-! ## C12: the appended exercises read back -/

theorem GetTemplateExercises_healthy (s : Store) (T : Int) :
    templates.GetTemplateExercises (DB.healthy s) T =
      (.ok ((orderBy templates.byJoinedPosition
        ((templates.templateJoin s).filter fun r => r.1.template_id = T)).map
        templates.scanTemplateExercise), DB.healthy s) := rfl

/-- On a healthy connection `templates.GetByID` returns the first row with the
id, together with what `GetTemplateExercises` returns. -/
theorem templates_GetByID_healthy (s : Store) (T : Int) (row : TemplateRow)
    (rest : List TemplateRow) (h : s.workout_templates.filter (fun t => t.id = T) = row :: rest) :
    templates.GetByID (DB.healthy s) T =
      (.ok (some ⟨row.id, row.name, row.created_at, row.updated_at,
        (orderBy templates.byJoinedPosition
          ((templates.templateJoin s).filter fun r => r.1.template_id = T)).map
          templates.scanTemplateExercise⟩), DB.healthy s) := by
  unfold templates.GetByID
  simp only [DB.QueryRow, DB.healthy_fails, if_false, Bool.false_eq_true, DB.healthy_step,
    DB.healthy_store, h, GetTemplateExercises_healthy]

/-- A list that holds a row with the key has a first row with the key. -/
theorem filter_key_cons {α : Type} (f : α → Int) (l : List α) (k : Int) (h : k ∈ l.map f) :
    ∃ row rest, l.filter (fun x => f x = k) = row :: rest ∧ f row = k := by
  obtain ⟨x, hx, hxk⟩ := List.mem_map.1 h
  cases hl : l.filter (fun x => f x = k) with
  | nil =>
    have : x ∈ l.filter (fun x => f x = k) := List.mem_filter.2 ⟨hx, by simpa using hxk⟩
    rw [hl] at this
    exact absurd this (List.not_mem_nil _)
  | cons row rest =>
    have : row ∈ l.filter (fun x => f x = k) := hl ▸ List.mem_cons_self _ _
    exact ⟨row, rest, rfl, by simpa using (List.mem_filter.1 this).2⟩

/-- C12: on a store whose exercises are keyed, for a template that exists and
has no exercise row, after a run of `templates.AddExercise` calls that all
returned no error `templates.GetByID` returns one exercise per call, in the
order of the calls, with the exercise and the targets of the call, joined with
its exercise, the i-th at position i. -/
theorem AddExercise_n_times_GetByID (now : Nat) (db db1 : DB) (T : Int)
    (calls : List (Int × Int × Int)) (hpk : pkExercises db.store)
    (hT : T ∈ db.store.workout_templates.map fun t => t.id)
    (hempty : ∀ te ∈ db.store.template_exercises, te.template_id ≠ T)
    (h : templates.addExercises now db T calls = some db1) :
    ∃ t, (templates.GetByID (DB.healthy db1.store) T).1 = .ok (some t) ∧ t.ID = T ∧
      t.Exercises.length = calls.length ∧
      t.Exercises.map (fun x => (x.ExerciseID, x.TargetSets, x.TargetReps)) = calls ∧
      t.Exercises.map (fun x => x.Position) =
        (List.range calls.length).map (fun i : Nat => (i : Int) + 1) ∧
      (∀ x ∈ t.Exercises, x.TemplateID = T ∧ x.Exercise.id = x.ExerciseID) ∧
      ∀ c ∈ calls, 1 ≤ c.2.1 ∧ 1 ≤ c.2.2 := by
  have hnil : (db.store.template_exercises.filter fun te => te.template_id = T) = [] := by
    rw [List.filter_eq_nil_iff]
    intro te hte
    simpa using hempty te hte
  obtain ⟨r1, r2, r3, r4, r5, r6⟩ := addExercises_rows now T calls db db1 []
    (by rw [hnil]; rfl) (by rw [hnil]; rfl)
    (by rw [hnil]; intro te hte; exact absurd hte (List.not_mem_nil _)) h
  simp only [List.nil_append, List.length_nil, Nat.zero_add] at r1 r2
  obtain ⟨row, rest, hrow, hrid⟩ := filter_key_cons (fun t : TemplateRow => t.id)
    db1.store.workout_templates T (by rw [r5]; exact hT)
  have hjoin : (((templates.templateJoin db1.store).filter
      fun r => r.1.template_id = T).map Prod.fst) =
      db1.store.template_exercises.filter fun te => te.template_id = T :=
    join_filter_fst db1.store.template_exercises db1.store.exercises
      (fun te => te.exercise_id) (fun e => e.id) (fun te => te.template_id = T)
      (by rw [r4]; exact hpk)
      (fun x hx hp => r3 x (List.mem_filter.2 ⟨hx, hp⟩))
  have hord : orderBy templates.byJoinedPosition
      ((templates.templateJoin db1.store).filter fun r => r.1.template_id = T) =
      (templates.templateJoin db1.store).filter fun r => r.1.template_id = T := by
    apply orderBy_of_sorted_map templates.byJoinedPosition (fun r => r.1.position)
      (fun a b hab => hab)
    have := congrArg (List.map fun te : TemplateExerciseRow => te.position) hjoin
    simp only [List.map_map, Function.comp_def] at this
    rw [this, r2]
    exact positions_sorted _
  refine ⟨_, by rw [templates_GetByID_healthy _ _ _ _ hrow], hrid, ?_, ?_, ?_, ?_, ?_⟩
  · simp only [hord, List.length_map]
    rw [← r1, List.length_map, ← hjoin, List.length_map]
  · simp only [hord, List.map_map, Function.comp_def, templates.scanTemplateExercise]
    have := congrArg (List.map fun te : TemplateExerciseRow =>
      (te.exercise_id, te.target_sets, te.target_reps)) hjoin
    simp only [List.map_map, Function.comp_def] at this
    rw [this, r1]
  · simp only [hord, List.map_map, Function.comp_def, templates.scanTemplateExercise]
    have := congrArg (List.map fun te : TemplateExerciseRow => te.position) hjoin
    simp only [List.map_map, Function.comp_def] at this
    rw [this, r2]
  · intro x hx
    simp only [hord, List.mem_map] at hx
    obtain ⟨r, hr, rfl⟩ := hx
    have hr1 := List.mem_filter.1 hr
    have hk := join_key _ _ (fun te : TemplateExerciseRow => te.exercise_id)
      (fun e : Exercise => e.id) r hr1.1
    exact ⟨by simpa using hr1.2, hk.2.2.symm⟩
  · intro c hc
    have := r6 c hc
    omega

/-- Witness of C12: the three appends of `TestTemplateWithMultipleExercises`. -/
theorem AddExercise_n_times_GetByID_witness :
    pkExercises (DB.healthy Sample.catalog).store ∧
    (1 : Int) ∈ (DB.healthy Sample.catalog).store.workout_templates.map (fun t => t.id) ∧
    (∀ te ∈ (DB.healthy Sample.catalog).store.template_exercises, te.template_id ≠ 1) ∧
    templates.addExercises 1 (DB.healthy Sample.catalog) 1 [(1, 5, 5), (2, 3, 8), (3, 3, 8)] =
      some (DB.healthy Sample.fullBody) ∧
    ∃ t, (templates.GetByID (DB.healthy (DB.healthy Sample.fullBody).store) 1).1 =
        .ok (some t) ∧ t.ID = 1 ∧
      t.Exercises.length = [((1 : Int), (5 : Int), (5 : Int)), (2, 3, 8), (3, 3, 8)].length ∧
      t.Exercises.map (fun x => (x.ExerciseID, x.TargetSets, x.TargetReps)) =
        [(1, 5, 5), (2, 3, 8), (3, 3, 8)] ∧
      t.Exercises.map (fun x => x.Position) =
        (List.range [((1 : Int), (5 : Int), (5 : Int)), (2, 3, 8), (3, 3, 8)].length).map
          (fun i : Nat => (i : Int) + 1) ∧
      (∀ x ∈ t.Exercises, x.TemplateID = 1 ∧ x.Exercise.id = x.ExerciseID) ∧
      ∀ c ∈ [((1 : Int), (5 : Int), (5 : Int)), (2, 3, 8), (3, 3, 8)], 1 ≤ c.2.1 ∧ 1 ≤ c.2.2 :=
  ⟨by decide, by decide, by decide, by decide,
    AddExercise_n_times_GetByID 1 (DB.healthy Sample.catalog) (DB.healthy Sample.fullBody) 1
      [(1, 5, 5), (2, 3, 8), (3, 3, 8)] (by decide) (by decide) (by decide) (by decide)⟩

/-! ## C18: appending templates to a routine -/

instance : IsTotal _ routines.byJoinedPosition :=
  ⟨fun a b => by unfold routines.byJoinedPosition; omega⟩

instance : IsTrans _ routines.byJoinedPosition :=
  ⟨fun a b c => by unfold routines.byJoinedPosition; omega⟩

/-- A successful insert into `routine_templates`. -/
theorem exec_insertRoutineTemplate_ok (db db1 : DB) (R t pos newid : Int)
    (h : db.Exec (routines.insertRoutineTemplate R t pos) = (.ok newid, db1)) :
    db1 = ⟨{ db.store with
        routine_templates := db.store.routine_templates ++ [⟨newid, R, t, pos⟩]
        seq_routine_templates := newid }, db.faults.tail⟩ ∧
    newid = nextId db.store.seq_routine_templates
      (db.store.routine_templates.map fun rt => rt.id) ∧
    t ∈ db.store.workout_templates.map (fun x => x.id) ∧
    R ∈ db.store.routines.map (fun x => x.id) ∧
    ¬ ∃ rt ∈ db.store.routine_templates, rt.routine_id = R ∧ rt.position = pos := by
  unfold DB.Exec routines.insertRoutineTemplate at h
  split_ifs at h with h1 h2 h3
  · simp at h
  · simp at h
  · simp at h
  · simp only [Prod.mk.injEq, Except.ok.injEq] at h
    obtain ⟨rfl, rfl⟩ := h
    push_neg at h3
    exact ⟨rfl, rfl, h3.2, h3.1, h2⟩

/-- The timestamp update of `AddTemplate` touches `routines` only and keeps its
ids. -/
theorem exec_touchRoutine (now : Nat) (db : DB) (R : Int) :
    (db.Exec (routines.touchRoutine now R)).2.store.routine_templates =
      db.store.routine_templates ∧
    (db.Exec (routines.touchRoutine now R)).2.store.workout_templates =
      db.store.workout_templates ∧
    (db.Exec (routines.touchRoutine now R)).2.store.routines.map (fun r => r.id) =
      db.store.routines.map (fun r => r.id) := by
  unfold DB.Exec routines.touchRoutine
  cases hf : db.fails with
  | true => exact ⟨rfl, rfl, rfl⟩
  | false =>
    refine ⟨rfl, rfl, ?_⟩
    simp only [if_false, Bool.false_eq_true, List.map_map]
    apply List.map_congr_left
    intro t _
    simp only [Function.comp]
    split_ifs <;> rfl

/-- A successful `routines.AddTemplate` appended one row at the next position
of the routine; the template exists, and only the timestamps of `routines` may
differ besides. -/
theorem routines_AddTemplate_ok (now : Nat) (db db1 : DB) (R t id : Int)
    (h : routines.AddTemplate now db R t = (.ok id, db1)) :
    (∃ pos, db1.store.routine_templates = db.store.routine_templates ++ [⟨id, R, t, pos⟩] ∧
      (∀ m, sqlMax ((db.store.routine_templates.filter fun rt =>
        rt.routine_id = R).map fun rt => rt.position) = some m → pos = m + 1) ∧
      (sqlMax ((db.store.routine_templates.filter fun rt =>
        rt.routine_id = R).map fun rt => rt.position) = none → pos = 1)) ∧
    t ∈ db.store.workout_templates.map (fun x => x.id) ∧
    db1.store.workout_templates = db.store.workout_templates ∧
    db1.store.routines.map (fun r => r.id) = db.store.routines.map (fun r => r.id) := by
  unfold routines.AddTemplate DB.QueryRow at h
  cases hf : db.fails with
  | true => simp [hf] at h
  | false =>
    simp only [hf, if_false, Bool.false_eq_true] at h
    split at h
    · simp at h
    · rename_i newid db2 hexec
      simp only [Prod.mk.injEq, Except.ok.injEq] at h
      obtain ⟨rfl, rfl⟩ := h
      obtain ⟨hdb2, _, ht, _, _⟩ := exec_insertRoutineTemplate_ok _ _ _ _ _ _ hexec
      obtain ⟨ht1, ht2, ht3⟩ := exec_touchRoutine now db2 R
      subst hdb2
      refine ⟨⟨_, ht1, ?_, ?_⟩, ht, ht2, ht3⟩
      · intro m hm
        rw [hm]
      · intro hm
        rw [hm]

/-- The rows of a routine after a run of successful appends: the rows it had,
then one row per call in the order of the calls, at the next positions. -/
theorem addTemplates_rows (now : Nat) (R : Int) (calls : List Int) :
    ∀ (db db1 : DB) (done : List Int),
    (db.store.routine_templates.filter fun rt => rt.routine_id = R).map
      (fun rt => rt.template_id) = done →
    (db.store.routine_templates.filter fun rt => rt.routine_id = R).map
      (fun rt => rt.position) = (List.range done.length).map (fun i : Nat => (i : Int) + 1) →
    (∀ rt ∈ db.store.routine_templates.filter (fun rt => rt.routine_id = R),
      rt.template_id ∈ db.store.workout_templates.map fun x => x.id) →
    routines.addTemplates now db R calls = some db1 →
    (db1.store.routine_templates.filter fun rt => rt.routine_id = R).map
      (fun rt => rt.template_id) = done ++ calls ∧
    (db1.store.routine_templates.filter fun rt => rt.routine_id = R).map
      (fun rt => rt.position) =
      (List.range (done.length + calls.length)).map (fun i : Nat => (i : Int) + 1) ∧
    (∀ rt ∈ db1.store.routine_templates.filter (fun rt => rt.routine_id = R),
      rt.template_id ∈ db1.store.workout_templates.map fun x => x.id) ∧
    db1.store.workout_templates = db.store.workout_templates ∧
    db1.store.routines.map (fun r => r.id) = db.store.routines.map (fun r => r.id) := by
  induction calls with
  | nil =>
    intro db db1 done h1 h2 h3 h
    simp only [routines.addTemplates, Option.some.injEq] at h
    subst h
    simp only [List.append_nil, List.length_nil, Nat.add_zero]
    exact ⟨h1, h2, h3, trivial, trivial⟩
  | cons c calls ih =>
    intro db db1 done h1 h2 h3 h
    unfold routines.addTemplates at h
    split at h
    · rename_i newid db2 hadd
      obtain ⟨⟨pos, hrt, hp1, hp2⟩, ht, hwt, hr⟩ := routines_AddTemplate_ok _ _ _ _ _ _ hadd
      rw [h2] at hp1 hp2
      have hpos := pos_of_sqlMax_positions done.length pos hp1 hp2
      subst hpos
      have hfil : (db2.store.routine_templates.filter fun rt => rt.routine_id = R) =
          (db.store.routine_templates.filter fun rt => rt.routine_id = R) ++
            [⟨newid, R, c, (done.length : Int) + 1⟩] := by
        rw [hrt, List.filter_append]
        simp
      obtain ⟨r1, r2, r3, r4, r5⟩ := ih db2 db1 (done ++ [c])
        (by rw [hfil, List.map_append, h1]; rfl)
        (by rw [hfil, List.map_append, h2, List.length_append, List.length_singleton,
          positions_succ]; rfl)
        (by
          intro rt hrt1
          rw [hfil] at hrt1
          rw [hwt]
          rcases List.mem_append.1 hrt1 with hm | hm
          · exact h3 rt hm
          · rw [List.mem_singleton.1 hm]; exact ht)
        h
      refine ⟨by rw [r1]; simp, ?_, r3, r4.trans hwt, r5.trans hr⟩
      rw [r2]
      simp only [List.length_append, List.length_cons, List.length_nil]
      congr 2
      omega
    · cases h

/-- On a healthy connection `routines.GetByID` returns the first row with the
id, together with the joined rows of the routine in position order. -/
theorem routines_GetByID_healthy (s : Store) (R : Int) (row : RoutineRow)
    (rest : List RoutineRow) (h : s.routines.filter (fun r => r.id = R) = row :: rest) :
    routines.GetByID (DB.healthy s) R =
      (.ok (some ⟨row.id, row.name, row.created_at, row.updated_at,
        (orderBy routines.byJoinedPosition
          ((routines.routineJoin s).filter fun r => r.1.routine_id = R)).map
          routines.scanRoutineTemplate⟩), DB.healthy s) := by
  unfold routines.GetByID routines.GetRoutineTemplates
  simp only [DB.QueryRow, DB.Query, DB.healthy_fails, if_false, Bool.false_eq_true,
    DB.healthy_step, DB.healthy_store, h]

/-- C18: on a store whose templates are keyed, for a routine that exists and
has no template row, after a run of `routines.AddTemplate` calls that all
returned no error `routines.GetByID` returns one routine template per call, in
the order of the calls, each joined with its template, the i-th at position
i. -/
theorem AddTemplate_n_times_GetByID (now : Nat) (db db1 : DB) (R : Int) (calls : List Int)
    (hpk : pkTemplates db.store) (hR : R ∈ db.store.routines.map fun r => r.id)
    (hempty : ∀ rt ∈ db.store.routine_templates, rt.routine_id ≠ R)
    (h : routines.addTemplates now db R calls = some db1) :
    ∃ r, (routines.GetByID (DB.healthy db1.store) R).1 = .ok (some r) ∧ r.ID = R ∧
      r.Templates.length = calls.length ∧
      r.Templates.map (fun x => x.TemplateID) = calls ∧
      r.Templates.map (fun x => x.Position) =
        (List.range calls.length).map (fun i : Nat => (i : Int) + 1) ∧
      ∀ x ∈ r.Templates, x.RoutineID = R ∧ x.Template.ID = x.TemplateID ∧
        ∃ wt ∈ db1.store.workout_templates,
          x.Template = ⟨wt.id, wt.name, wt.created_at, wt.updated_at, []⟩ := by
  have hnil : (db.store.routine_templates.filter fun rt => rt.routine_id = R) = [] := by
    rw [List.filter_eq_nil_iff]
    intro rt hrt
    simpa using hempty rt hrt
  obtain ⟨r1, r2, r3, r4, r5⟩ := addTemplates_rows now R calls db db1 []
    (by rw [hnil]; rfl) (by rw [hnil]; rfl)
    (by rw [hnil]; intro rt hrt; exact absurd hrt (List.not_mem_nil _)) h
  simp only [List.nil_append, List.length_nil, Nat.zero_add] at r1 r2
  obtain ⟨row, rest, hrow, hrid⟩ := filter_key_cons (fun r : RoutineRow => r.id)
    db1.store.routines R (by rw [r5]; exact hR)
  have hjoin : (((routines.routineJoin db1.store).filter
      fun r => r.1.routine_id = R).map Prod.fst) =
      db1.store.routine_templates.filter fun rt => rt.routine_id = R :=
    join_filter_fst db1.store.routine_templates db1.store.workout_templates
      (fun rt => rt.template_id) (fun wt => wt.id) (fun rt => rt.routine_id = R)
      (by rw [r4]; exact hpk)
      (fun x hx hp => r3 x (List.mem_filter.2 ⟨hx, hp⟩))
  have hord : orderBy routines.byJoinedPosition
      ((routines.routineJoin db1.store).filter fun r => r.1.routine_id = R) =
      (routines.routineJoin db1.store).filter fun r => r.1.routine_id = R := by
    apply orderBy_of_sorted_map routines.byJoinedPosition (fun r => r.1.position)
      (fun a b hab => hab)
    have := congrArg (List.map fun rt : RoutineTemplateRow => rt.position) hjoin
    simp only [List.map_map, Function.comp_def] at this
    rw [this, r2]
    exact positions_sorted _
  refine ⟨_, by rw [routines_GetByID_healthy _ _ _ _ hrow], hrid, ?_, ?_, ?_, ?_⟩
  · simp only [hord, List.length_map]
    rw [← r1, List.length_map, ← hjoin, List.length_map]
  · simp only [hord, List.map_map, Function.comp_def, routines.scanRoutineTemplate]
    have := congrArg (List.map fun rt : RoutineTemplateRow => rt.template_id) hjoin
    simp only [List.map_map, Function.comp_def] at this
    rw [this, r1]
  · simp only [hord, List.map_map, Function.comp_def, routines.scanRoutineTemplate]
    have := congrArg (List.map fun rt : RoutineTemplateRow => rt.position) hjoin
    simp only [List.map_map, Function.comp_def] at this
    rw [this, r2]
  · intro x hx
    simp only [hord, List.mem_map] at hx
    obtain ⟨r, hr, rfl⟩ := hx
    have hr1 := List.mem_filter.1 hr
    have hk := join_key _ _ (fun rt : RoutineTemplateRow => rt.template_id)
      (fun wt : TemplateRow => wt.id) r hr1.1
    exact ⟨by simpa using hr1.2, hk.2.2.symm, r.2, hk.2.1, rfl⟩

/-- Witness of C18: the three appends of `TestRoutineWithMultipleTemplates`. -/
theorem AddTemplate_n_times_GetByID_witness :
    pkTemplates (DB.healthy Sample.programs).store ∧
    (1 : Int) ∈ (DB.healthy Sample.programs).store.routines.map (fun r => r.id) ∧
    (∀ rt ∈ (DB.healthy Sample.programs).store.routine_templates, rt.routine_id ≠ 1) ∧
    routines.addTemplates 1 (DB.healthy Sample.programs) 1 [1, 2, 3] =
      some (DB.healthy Sample.ppl) ∧
    ∃ r, (routines.GetByID (DB.healthy (DB.healthy Sample.ppl).store) 1).1 = .ok (some r) ∧
      r.ID = 1 ∧
      r.Templates.length = [(1 : Int), 2, 3].length ∧
      r.Templates.map (fun x => x.TemplateID) = [1, 2, 3] ∧
      r.Templates.map (fun x => x.Position) =
        (List.range [(1 : Int), 2, 3].length).map (fun i : Nat => (i : Int) + 1) ∧
      ∀ x ∈ r.Templates, x.RoutineID = 1 ∧ x.Template.ID = x.TemplateID ∧
        ∃ wt ∈ (DB.healthy Sample.ppl).store.workout_templates,
          x.Template = ⟨wt.id, wt.name, wt.created_at, wt.updated_at, []⟩ :=
  ⟨by decide, by decide, by decide, by decide,
    AddTemplate_n_times_GetByID 1 (DB.healthy Sample.programs) (DB.healthy Sample.ppl) 1
      [1, 2, 3] (by decide) (by decide) (by decide) (by decide)⟩

/-! ## C17: appending sets to a workout exercise -/

/-- A successful insert into `logged_sets`. -/
theorem exec_insertLoggedSet_ok (now : Nat) (db db1 : DB) (weid reps : Int) (weight : Weight)
    (pos newid : Int)
    (h : db.Exec (insertLoggedSet now weid reps weight pos) = (.ok newid, db1)) :
    db1 = ⟨{ db.store with
        logged_sets := db.store.logged_sets ++ [⟨newid, weid, reps, weight, pos, now⟩]
        seq_logged_sets := newid }, db.faults.tail⟩ ∧
    newid = nextId db.store.seq_logged_sets (db.store.logged_sets.map fun ls => ls.id) ∧
    0 ≤ reps ∧ 0 ≤ weight ∧
    weid ∈ db.store.workout_exercises.map (fun x => x.id) ∧
    ¬ ∃ ls ∈ db.store.logged_sets, ls.workout_exercise_id = weid ∧ ls.position = pos := by
  unfold DB.Exec insertLoggedSet at h
  split_ifs at h with h1 h2 h3 h4
  · simp at h
  · simp at h
  · simp at h
  · simp only [Prod.mk.injEq, Except.ok.injEq] at h
    obtain ⟨rfl, rfl⟩ := h
    push_neg at h2
    exact ⟨rfl, rfl, h2.1, h2.2, h4, h3⟩
  · simp at h

/-- A successful `AddSet` appended one row at the next position of the workout
exercise and changed no other table. -/
theorem AddSet_ok (now : Nat) (db db1 : DB) (weid reps : Int) (weight : Weight) (id : Int)
    (h : AddSet now db weid reps weight = (.ok id, db1)) :
    (∃ pos, db1.store = { db.store with
        logged_sets := db.store.logged_sets ++ [⟨id, weid, reps, weight, pos, now⟩]
        seq_logged_sets := id } ∧
      (∀ m, sqlMax ((db.store.logged_sets.filter fun ls =>
        ls.workout_exercise_id = weid).map fun ls => ls.position) = some m → pos = m + 1) ∧
      (sqlMax ((db.store.logged_sets.filter fun ls =>
        ls.workout_exercise_id = weid).map fun ls => ls.position) = none → pos = 1)) ∧
    0 ≤ reps ∧ 0 ≤ weight := by
  unfold AddSet DB.QueryRow at h
  cases hf : db.fails with
  | true => simp [hf] at h
  | false =>
    simp only [hf, if_false, Bool.false_eq_true] at h
    obtain ⟨hdb1, _, hr, hw, _, _⟩ := exec_insertLoggedSet_ok _ _ _ _ _ _ _ _ h
    subst hdb1
    refine ⟨⟨_, rfl, ?_, ?_⟩, hr, hw⟩
    · intro m hm
      rw [hm]
    · intro hm
      rw [hm]

/-- The sets of a workout exercise after a run of successful appends: the sets
it had, then one per call in the order of the calls, at the next positions. -/
theorem addSets_rows (now : Nat) (weid : Int) (calls : List (Int × Weight)) :
    ∀ (db db1 : DB) (done : List (Int × Weight)),
    (db.store.logged_sets.filter fun ls => ls.workout_exercise_id = weid).map
      (fun ls => (ls.reps, ls.weight)) = done →
    (db.store.logged_sets.filter fun ls => ls.workout_exercise_id = weid).map
      (fun ls => ls.position) = (List.range done.length).map (fun i : Nat => (i : Int) + 1) →
    addSets now db weid calls = some db1 →
    (db1.store.logged_sets.filter fun ls => ls.workout_exercise_id = weid).map
      (fun ls => (ls.reps, ls.weight)) = done ++ calls ∧
    (db1.store.logged_sets.filter fun ls => ls.workout_exercise_id = weid).map
      (fun ls => ls.position) =
      (List.range (done.length + calls.length)).map (fun i : Nat => (i : Int) + 1) ∧
    db1.store.workout_exercises = db.store.workout_exercises ∧
    db1.store.exercises = db.store.exercises := by
  induction calls with
  | nil =>
    intro db db1 done h1 h2 h
    simp only [addSets, Option.some.injEq] at h
    subst h
    simp only [List.append_nil, List.length_nil, Nat.add_zero]
    exact ⟨h1, h2, trivial, trivial⟩
  | cons c calls ih =>
    intro db db1 done h1 h2 h
    unfold addSets at h
    split at h
    · rename_i newid db2 hadd
      obtain ⟨⟨pos, hst, hp1, hp2⟩, _, _⟩ := AddSet_ok _ _ _ _ _ _ _ hadd
      rw [h2] at hp1 hp2
      have hpos := pos_of_sqlMax_positions done.length pos hp1 hp2
      subst hpos
      have hfil : (db2.store.logged_sets.filter fun ls => ls.workout_exercise_id = weid) =
          (db.store.logged_sets.filter fun ls => ls.workout_exercise_id = weid) ++
            [⟨newid, weid, c.1, c.2, (done.length : Int) + 1, now⟩] := by
        rw [hst, List.filter_append]
        simp
      obtain ⟨r1, r2, r3, r4⟩ := ih db2 db1 (done ++ [c])
        (by rw [hfil, List.map_append, h1]; rfl)
        (by rw [hfil, List.map_append, h2, List.length_append, List.length_singleton,
          positions_succ]; rfl)
        h
      refine ⟨by rw [r1]; simp, ?_, by rw [r3, hst], by rw [r4, hst]⟩
      rw [r2]
      simp only [List.length_append, List.length_cons, List.length_nil]
      congr 2
      omega
    · cases h

/-- On a healthy connection `GetWorkoutExerciseByID` returns the first joined
row with the id, with the sets of that workout exercise in position order. -/
theorem GetWorkoutExerciseByID_sets (s : Store) (id : Int) (row : WorkoutExerciseRow × Exercise)
    (rest : List (WorkoutExerciseRow × Exercise))
    (h : (exerciseJoin s).filter (fun r => r.1.id = id) = row :: rest) :
    ∃ lw, GetWorkoutExerciseByID (DB.healthy s) id =
      (.ok (some { scanWorkoutExercise row with
        Sets := orderBy byPosition (s.logged_sets.filter fun ls =>
          ls.workout_exercise_id = row.1.id)
        LastWeight := lw }), DB.healthy s) := by
  obtain ⟨lw, hlw⟩ := GetLastWeight_healthy s (scanWorkoutExercise row).ExerciseID
    (scanWorkoutExercise row).WorkoutID
  refine ⟨lw, ?_⟩
  unfold GetWorkoutExerciseByID
  simp only [DB.QueryRow, DB.healthy_fails, if_false, Bool.false_eq_true, DB.healthy_step,
    DB.healthy_store, h, GetLoggedSets, DB.Query, hlw]
  rfl

/-- C17: on a store with keyed workout exercises that reference their
exercises, for a workout exercise without sets, after a run of `AddSet` calls
that all returned no error `GetWorkoutExerciseByID` returns that workout
exercise with one set per call, in the order of the calls, the i-th at position
i with the reps and the weight of the i-th call. -/
theorem AddSet_n_times_GetWorkoutExerciseByID (now : Nat) (db db1 : DB) (we : WorkoutExerciseRow)
    (calls : List (Int × Weight)) (hpk : pkWorkoutExercises db.store)
    (hfk : fkExerciseOfWorkoutExercise db.store) (hwe : we ∈ db.store.workout_exercises)
    (hempty : ∀ ls ∈ db.store.logged_sets, ls.workout_exercise_id ≠ we.id)
    (h : addSets now db we.id calls = some db1) :
    ∃ x, (GetWorkoutExerciseByID (DB.healthy db1.store) we.id).1 = .ok (some x) ∧
      x.ID = we.id ∧ x.WorkoutID = we.workout_id ∧ x.ExerciseID = we.exercise_id ∧
      x.Sets.length = calls.length ∧
      x.Sets.map (fun ls => (ls.reps, ls.weight)) = calls ∧
      x.Sets.map (fun ls => ls.position) =
        (List.range calls.length).map (fun i : Nat => (i : Int) + 1) ∧
      ∀ ls ∈ x.Sets, ls.workout_exercise_id = we.id := by
  have hnil : (db.store.logged_sets.filter fun ls => ls.workout_exercise_id = we.id) = [] := by
    rw [List.filter_eq_nil_iff]
    intro ls hls
    simpa using hempty ls hls
  obtain ⟨r1, r2, r3, r4⟩ := addSets_rows now we.id calls db db1 []
    (by rw [hnil]; rfl) (by rw [hnil]; rfl) h
  simp only [List.nil_append, List.length_nil, Nat.zero_add] at r1 r2
  have hpk1 : pkWorkoutExercises db1.store := by unfold pkWorkoutExercises; rw [r3]; exact hpk
  have hfk1 : fkExerciseOfWorkoutExercise db1.store := by
    unfold fkExerciseOfWorkoutExercise; rw [r3, r4]; exact hfk
  obtain ⟨e, rest, hrow⟩ := exerciseJoin_first db1.store we (by rw [r3]; exact hwe) hpk1 hfk1
  obtain ⟨lw, hget⟩ := GetWorkoutExerciseByID_sets db1.store we.id (we, e) rest hrow
  have hord : orderBy byPosition
      (db1.store.logged_sets.filter fun ls => ls.workout_exercise_id = we.id) =
      db1.store.logged_sets.filter fun ls => ls.workout_exercise_id = we.id := by
    apply orderBy_of_sorted_map byPosition (fun ls => ls.position) (fun a b hab => hab)
    rw [r2]
    exact positions_sorted _
  refine ⟨_, by rw [hget], rfl, rfl, rfl, ?_, ?_, ?_, ?_⟩
  · simp only [hord]
    rw [← r1, List.length_map]
  · simp only [hord]
    exact r1
  · simp only [hord]
    exact r2
  · intro ls hls
    simp only [hord] at hls
    simpa using (List.mem_filter.1 hls).2

/-- Witness of C17: the three sets of `TestMultipleSetsWithPositions`. -/
theorem AddSet_n_times_GetWorkoutExerciseByID_witness :
    pkWorkoutExercises (DB.healthy Sample.session).store ∧
    fkExerciseOfWorkoutExercise (DB.healthy Sample.session).store ∧
    (⟨1, 1, 1, 1⟩ : WorkoutExerciseRow) ∈ (DB.healthy Sample.session).store.workout_exercises ∧
    (∀ ls ∈ (DB.healthy Sample.session).store.logged_sets,
      ls.workout_exercise_id ≠ (⟨1, 1, 1, 1⟩ : WorkoutExerciseRow).id) ∧
    addSets 1 (DB.healthy Sample.session) (⟨1, 1, 1, 1⟩ : WorkoutExerciseRow).id
      [(5, 135), (5, 185), (5, 225)] = some (DB.healthy Sample.squats) ∧
    ∃ x, (GetWorkoutExerciseByID (DB.healthy (DB.healthy Sample.squats).store)
        (⟨1, 1, 1, 1⟩ : WorkoutExerciseRow).id).1 = .ok (some x) ∧
      x.ID = (⟨1, 1, 1, 1⟩ : WorkoutExerciseRow).id ∧
      x.WorkoutID = (⟨1, 1, 1, 1⟩ : WorkoutExerciseRow).workout_id ∧
      x.ExerciseID = (⟨1, 1, 1, 1⟩ : WorkoutExerciseRow).exercise_id ∧
      x.Sets.length = [((5 : Int), (135 : Weight)), (5, 185), (5, 225)].length ∧
      x.Sets.map (fun ls => (ls.reps, ls.weight)) = [(5, 135), (5, 185), (5, 225)] ∧
      x.Sets.map (fun ls => ls.position) =
        (List.range [((5 : Int), (135 : Weight)), (5, 185), (5, 225)].length).map
          (fun i : Nat => (i : Int) + 1) ∧
      ∀ ls ∈ x.Sets, ls.workout_exercise_id = (⟨1, 1, 1, 1⟩ : WorkoutExerciseRow).id :=
  ⟨by decide, by decide, by decide, by decide, by decide,
    AddSet_n_times_GetWorkoutExerciseByID 1 (DB.healthy Sample.session)
      (DB.healthy Sample.squats) ⟨1, 1, 1, 1⟩ [(5, 135), (5, 185), (5, 225)]
      (by decide) (by decide) (by decide) (by decide) (by decide)⟩

/-! ## Left joins and groups -/

theorem leftJoin_cons {α β : Type} (a : α) (l : List α) (f : α → List β) :
    leftJoin (a :: l) f = leftJoin [a] f ++ leftJoin l f := by
  simp [leftJoin, List.flatMap_cons]

/-- The rows of a left join that have a match are the matches. -/
theorem leftJoin_matched {α β : Type} (l : List α) (f : α → List β) :
    (leftJoin l f).filterMap (fun r => r.2) = l.flatMap f := by
  induction l with
  | nil => rfl
  | cons a l ih =>
    rw [leftJoin_cons, List.filterMap_append, ih, List.flatMap_cons]
    congr 1
    unfold leftJoin
    rw [List.flatMap_singleton]
    cases f a with
    | nil => rfl
    | cons b bs =>
      rw [List.filterMap_map]
      exact congrFun (List.filterMap_eq_map id) (b :: bs) |>.trans (List.map_id _)

/-- A left join keeps every left row. -/
theorem mem_leftJoin_fst {α β : Type} (l : List α) (f : α → List β) (a : α) :
    a ∈ (leftJoin l f).map Prod.fst ↔ a ∈ l := by
  induction l with
  | nil => simp [leftJoin]
  | cons x l ih =>
    rw [leftJoin_cons, List.map_append, List.mem_append, ih, List.mem_cons]
    apply or_congr_left
    unfold leftJoin
    rw [List.flatMap_singleton]
    cases f x with
    | nil => simp
    | cons b bs =>
      simp only [List.map_map, List.mem_map, Function.comp]
      constructor
      · rintro ⟨y, _, rfl⟩; rfl
      · rintro rfl; exact ⟨b, List.mem_cons_self _ _, rfl⟩

/-- The left rows of a left join of one row are that row. -/
theorem leftJoin_single_fst {α β : Type} (a : α) (f : α → List β) :
    ∀ r ∈ leftJoin [a] f, r.1 = a := by
  intro r hr
  unfold leftJoin at hr
  rw [List.flatMap_singleton] at hr
  cases hf : f a with
  | nil => rw [hf] at hr; simp at hr; rw [hr]
  | cons b bs =>
    rw [hf] at hr
    simp only [List.mem_map] at hr
    obtain ⟨y, _, rfl⟩ := hr
    rfl

/-- A left join is the concatenation of the left joins of its left rows. -/
theorem leftJoin_singles {α β : Type} (l : List α) (f : α → List β) :
    leftJoin l f = l.flatMap fun a => leftJoin [a] f := by
  unfold leftJoin
  simp only [List.flatMap_singleton]

/-- The joined rows are the blocks of the workouts, in the order of the
workouts. -/
theorem summaryJoin_eq (s : Store) :
    summaryJoin s = s.workouts.flatMap fun w =>
      leftJoin (leftJoin [w] fun w => s.workout_exercises.filter fun we => we.workout_id = w.id)
        fun r =>
          match r.2 with
          | none => []
          | some we => s.logged_sets.filter fun ls => ls.workout_exercise_id = we.id := by
  unfold summaryJoin
  rw [leftJoin_singles s.workouts]
  unfold leftJoin
  exact List.flatMap_assoc _ _ _

/-- The workout of every joined row of the block of a workout. -/
theorem block_fst (w : WorkoutRow) (g : WorkoutRow × Option WorkoutExerciseRow → List LoggedSet)
    (f : WorkoutRow → List WorkoutExerciseRow) :
    ∀ r ∈ leftJoin (leftJoin [w] f) g, r.1.1 = w := by
  intro r hr
  have h1 : r.1 ∈ (leftJoin (leftJoin [w] f) g).map Prod.fst := List.mem_map_of_mem _ hr
  rw [mem_leftJoin_fst] at h1
  exact leftJoin_single_fst w f r.1 h1

/-- Picking the block of one element out of a concatenation of blocks. -/
theorem flatMap_filter_block {α β : Type} [DecidableEq α] (l : List α) (b : α → List β)
    (p : β → Bool) (w : α) (hnd : l.Nodup) (hw : w ∈ l)
    (hin : ∀ r ∈ b w, p r = true) (hout : ∀ x ∈ l, x ≠ w → ∀ r ∈ b x, p r = false) :
    (l.flatMap b).filter p = b w := by
  induction l with
  | nil => exact absurd hw (List.not_mem_nil _)
  | cons x l ih =>
    rw [List.flatMap_cons, List.filter_append]
    rw [List.nodup_cons] at hnd
    by_cases hx : x = w
    · subst hx
      have h1 : (b x).filter p = b x := List.filter_eq_self.2 hin
      have h2 : (l.flatMap b).filter p = [] := by
        rw [List.filter_eq_nil_iff]
        intro r hr
        rw [List.mem_flatMap] at hr
        obtain ⟨y, hy, hry⟩ := hr
        have hne : y ≠ x := fun h => hnd.1 (h ▸ hy)
        rw [hout y (List.mem_cons_of_mem _ hy) hne r hry]
        simp
      rw [h1, h2, List.append_nil]
    · have h1 : (b x).filter p = [] := by
        rw [List.filter_eq_nil_iff]
        intro r hr
        rw [hout x (List.mem_cons_self _ _) hx r hr]
        simp
      rw [h1, List.nil_append]
      exact ih hnd.2 ((List.mem_cons.1 hw).resolve_left fun h => hx h.symm)
        fun y hy => hout y (List.mem_cons_of_mem _ hy)

/-- The matches of the matches of a two-level left join. -/
theorem leftJoin_flatMap_matched {α β γ : Type} (l : List α) (f : α → List β) (h : β → List γ) :
    ((leftJoin l f).flatMap fun r =>
      match r.2 with
      | none => []
      | some b => h b) = (l.flatMap f).flatMap h := by
  induction l with
  | nil => rfl
  | cons a l ih =>
    rw [leftJoin_cons, List.flatMap_append, ih, List.flatMap_cons, List.flatMap_append]
    congr 1
    unfold leftJoin
    rw [List.flatMap_singleton]
    cases f a with
    | nil => rfl
    | cons b bs => rw [List.flatMap_map]

/-- Every workout has at least one joined row, and every joined row is the row
of a workout. -/
theorem mem_summaryJoin_workout (s : Store) (w : WorkoutRow) :
    w ∈ (summaryJoin s).map (fun r => r.1.1) ↔ w ∈ s.workouts := by
  have : (summaryJoin s).map (fun r => r.1.1) =
      ((summaryJoin s).map Prod.fst).map Prod.fst := by
    rw [List.map_map]; rfl
  rw [this]
  unfold summaryJoin
  constructor
  · intro h
    obtain ⟨p, hp, rfl⟩ := List.mem_map.1 h
    rw [mem_leftJoin_fst] at hp
    exact (mem_leftJoin_fst _ _ _).1 (List.mem_map_of_mem _ hp)
  · intro h
    obtain ⟨p, hp, hpw⟩ := List.mem_map.1 ((mem_leftJoin_fst s.workouts
      (fun w => s.workout_exercises.filter fun we => we.workout_id = w.id) w).2 h)
    obtain ⟨r, hr, hrp⟩ := List.mem_map.1 ((mem_leftJoin_fst _
      (fun r : WorkoutRow × Option WorkoutExerciseRow =>
        match r.2 with
        | none => []
        | some we => s.logged_sets.filter fun ls => ls.workout_exercise_id = we.id) p).2 hp)
    exact List.mem_map.2 ⟨r.1, List.mem_map_of_mem _ hr, by rw [hrp, hpw]⟩

/-- A group key determines the workout under the primary key. -/
theorem groupKey_inj (s : Store) (hpk : pkWorkouts s) (a b : WorkoutRow) (ha : a ∈ s.workouts)
    (hb : b ∈ s.workouts) (h : groupKey a = groupKey b) : a = b :=
  List.inj_on_of_nodup_map hpk ha hb (congrArg Prod.fst h)

/-- The groups of `listByStatus` are the workouts with the status. -/
theorem mem_groupKeys (s : Store) (st : WorkoutStatus) (k : GroupKey) :
    k ∈ (((summaryJoin s).filter fun r => r.1.1.status = st).map fun r => groupKey r.1.1).dedup ↔
      k ∈ (s.workouts.filter fun w => w.status = st).map groupKey := by
  rw [List.mem_dedup]
  simp only [List.mem_map, List.mem_filter, decide_eq_true_eq]
  constructor
  · rintro ⟨r, ⟨hr, hst⟩, rfl⟩
    exact ⟨r.1.1, ⟨(mem_summaryJoin_workout s _).1 (List.mem_map_of_mem (fun r => r.1.1) hr), hst⟩,
      rfl⟩
  · rintro ⟨w, ⟨hw, hst⟩, rfl⟩
    obtain ⟨r, hr, hrw⟩ := List.mem_map.1 ((mem_summaryJoin_workout s w).2 hw)
    exact ⟨r, ⟨hr, by rw [hrw]; exact hst⟩, by rw [hrw]⟩

/-- Under the primary key the joined rows of the group of a workout are the
block of that workout. -/
theorem group_eq_block (s : Store) (hpk : pkWorkouts s) (w : WorkoutRow) (hw : w ∈ s.workouts) :
    (((summaryJoin s).filter fun r => r.1.1.status = w.status).filter
      fun r => groupKey r.1.1 = groupKey w) =
      leftJoin (leftJoin [w] fun w => s.workout_exercises.filter fun we => we.workout_id = w.id)
        fun r =>
          match r.2 with
          | none => []
          | some we => s.logged_sets.filter fun ls => ls.workout_exercise_id = we.id := by
  rw [List.filter_filter, summaryJoin_eq]
  apply flatMap_filter_block s.workouts _ _ w (List.Nodup.of_map _ hpk) hw
  · intro r hr
    rw [block_fst w _ _ r hr]
    simp
  · intro x hx hne r hr
    rw [block_fst x _ _ r hr]
    have : groupKey x ≠ groupKey w := fun h => hne (groupKey_inj s hpk x w hx hw h)
    simp [this]

/-- The value of `COUNT(ls.id)` over the block of a workout. -/
theorem block_set_count (s : Store) (w : WorkoutRow) :
    ((leftJoin (leftJoin [w] fun w => s.workout_exercises.filter fun we => we.workout_id = w.id)
        fun r =>
          match r.2 with
          | none => []
          | some we => s.logged_sets.filter fun ls => ls.workout_exercise_id = we.id).filterMap
      fun r => r.2.map fun ls => ls.id).length =
      ((s.workout_exercises.filter fun we => we.workout_id = w.id).map fun we =>
        (s.logged_sets.filter fun ls => ls.workout_exercise_id = we.id).length).sum := by
  rw [← List.map_filterMap, List.length_map, leftJoin_matched]
  have h := leftJoin_flatMap_matched [w]
    (fun w => s.workout_exercises.filter fun we => we.workout_id = w.id)
    (fun we => s.logged_sets.filter fun ls => ls.workout_exercise_id = we.id)
  rw [List.flatMap_singleton] at h
  refine Eq.trans (congrArg List.length (Eq.trans
    (congrArg (fun G => List.flatMap (leftJoin [w] fun w =>
      s.workout_exercises.filter fun we => we.workout_id = w.id) G)
      (funext fun r => ?_)) h)) ?_
  · obtain ⟨a, o⟩ := r
    cases o <;> rfl
  · rw [List.length_flatMap]
    rfl

/-- The value of `COUNT(DISTINCT we.id)` over the block of a workout. -/
theorem block_exercise_count (s : Store) (hpk : pkWorkoutExercises s) (w : WorkoutRow) :
    (((leftJoin (leftJoin [w] fun w => s.workout_exercises.filter fun we => we.workout_id = w.id)
        fun r =>
          match r.2 with
          | none => []
          | some we => s.logged_sets.filter fun ls => ls.workout_exercise_id = we.id).filterMap
      fun r => r.1.2.map fun we => we.id).dedup).length =
      (s.workout_exercises.filter fun we => we.workout_id = w.id).length := by
  have hnd : ((s.workout_exercises.filter fun we => we.workout_id = w.id).map
      fun we => we.id).Nodup :=
    List.Nodup.sublist ((List.filter_sublist _).map _) hpk
  rw [← List.length_map (s.workout_exercises.filter fun we => we.workout_id = w.id)
    fun we => we.id]
  apply List.Perm.length_eq
  rw [List.perm_ext_iff_of_nodup (List.nodup_dedup _) hnd]
  intro x
  rw [List.mem_dedup]
  have h1 : ∀ (L : List ((WorkoutRow × Option WorkoutExerciseRow) × Option LoggedSet)),
      L.filterMap (fun r => r.1.2.map fun we => we.id) =
      ((L.map Prod.fst).filterMap fun p => p.2).map fun we => we.id := by
    intro L
    rw [List.map_filterMap, List.filterMap_map]
    rfl
  rw [h1]
  have h2 : ∀ y, y ∈ ((leftJoin (leftJoin [w] fun w =>
        s.workout_exercises.filter fun we => we.workout_id = w.id)
        fun r =>
          match r.2 with
          | none => []
          | some we => s.logged_sets.filter fun ls => ls.workout_exercise_id = we.id).map
        Prod.fst).filterMap (fun p => p.2) ↔
      y ∈ s.workout_exercises.filter fun we => we.workout_id = w.id := by
    intro y
    rw [List.mem_filterMap]
    simp only [mem_leftJoin_fst]
    rw [← List.flatMap_singleton
      (fun w : WorkoutRow => s.workout_exercises.filter fun we => we.workout_id = w.id) w,
      ← leftJoin_matched, List.mem_filterMap]
  simp only [List.mem_map, h2]

/-! ## C19 and C20: the workout lists -/

instance : IsTotal _ newestFirst := ⟨fun a b => by unfold newestFirst; omega⟩

instance : IsTrans _ newestFirst := ⟨fun a b c => by unfold newestFirst; omega⟩

/-- A successful `listByStatus` read the store of the connection. -/
theorem listByStatus_ok (db : DB) (st : WorkoutStatus) (out : List WorkoutSummary)
    (h : (listByStatus db st).1 = .ok out) :
    out = (orderBy newestFirst
      ((((summaryJoin db.store).filter fun r => r.1.1.status = st).map
        fun r => groupKey r.1.1).dedup)).map
      fun k => summarize k
        (((summaryJoin db.store).filter fun r => r.1.1.status = st).filter
          fun r => groupKey r.1.1 = k) := by
  unfold listByStatus DB.Query at h
  cases hf : db.fails with
  | true => simp [hf] at h
  | false =>
    simp only [hf, if_false, Bool.false_eq_true, Except.ok.injEq] at h
    exact h.symm

/-- Every summary of a successful `listByStatus` is the summary of the block of
a workout with the status. -/
theorem listByStatus_mem (db : DB) (st : WorkoutStatus) (out : List WorkoutSummary)
    (x : WorkoutSummary) (hpk : pkWorkouts db.store) (h : (listByStatus db st).1 = .ok out)
    (hx : x ∈ out) :
    ∃ w ∈ db.store.workouts, w.status = st ∧
      x = summarize (groupKey w)
        (leftJoin (leftJoin [w] fun w =>
          db.store.workout_exercises.filter fun we => we.workout_id = w.id)
          fun r =>
            match r.2 with
            | none => []
            | some we => db.store.logged_sets.filter fun ls => ls.workout_exercise_id = we.id) := by
  rw [listByStatus_ok db st out h, List.mem_map] at hx
  obtain ⟨k, hk, rfl⟩ := hx
  rw [mem_orderBy, mem_groupKeys, List.mem_map] at hk
  obtain ⟨w, hw, rfl⟩ := hk
  rw [List.mem_filter] at hw
  have hst : w.status = st := by simpa using hw.2
  subst hst
  exact ⟨w, hw.1, rfl, by rw [group_eq_block db.store hpk w hw.1]⟩

/-- C19: on a store with keyed workouts and workout exercises, every summary
that `ListInProgress` or `ListFinished` returns has as `ExerciseCount` the
number of `workout_exercises` rows of its workout and as `SetCount` the number
of `logged_sets` rows summed over those rows; both are 0 when the workout has
no exercise. -/
theorem summary_counts (db : DB) (out : List WorkoutSummary) (x : WorkoutSummary)
    (hpk : pkWorkouts db.store) (hpkwe : pkWorkoutExercises db.store)
    (h : (ListInProgress db).1 = .ok out ∨ (ListFinished db).1 = .ok out) (hx : x ∈ out) :
    x.ExerciseCount =
      (db.store.workout_exercises.filter fun we => we.workout_id = x.ID).length ∧
    x.SetCount =
      ((db.store.workout_exercises.filter fun we => we.workout_id = x.ID).map fun we =>
        (db.store.logged_sets.filter fun ls => ls.workout_exercise_id = we.id).length).sum ∧
    ((db.store.workout_exercises.filter fun we => we.workout_id = x.ID) = [] →
      x.ExerciseCount = 0 ∧ x.SetCount = 0) := by
  have key : ∃ st, (listByStatus db st).1 = .ok out := by
    rcases h with h | h
    · exact ⟨_, h⟩
    · exact ⟨_, h⟩
  obtain ⟨st, hst⟩ := key
  obtain ⟨w, _, _, rfl⟩ := listByStatus_mem db st out x hpk hst hx
  have h1 := block_exercise_count db.store hpkwe w
  have h2 := block_set_count db.store w
  refine ⟨h1, h2, ?_⟩
  intro hnil
  refine ⟨h1.trans ?_, h2.trans ?_⟩
  · exact (congrArg List.length hnil).trans rfl
  · show (List.map _ (db.store.workout_exercises.filter fun we => we.workout_id = w.id)).sum = 0
    have : (db.store.workout_exercises.filter fun we => we.workout_id = w.id) = [] := hnil
    rw [this]
    rfl

/-- Witness of C19: the finished workout of the sample store has one exercise
with two sets. -/
theorem summary_counts_witness :
    pkWorkouts (DB.healthy Sample.gym).store ∧ pkWorkoutExercises (DB.healthy Sample.gym).store ∧
    (ListFinished (DB.healthy Sample.gym)).1 =
      .ok [⟨1, "Workout 1", 10, WorkoutStatus.finished, 1, 2⟩] ∧
    (⟨1, "Workout 1", 10, WorkoutStatus.finished, 1, 2⟩ : WorkoutSummary) ∈
      [(⟨1, "Workout 1", 10, WorkoutStatus.finished, 1, 2⟩ : WorkoutSummary)] ∧
    ((1 : Nat) = ((DB.healthy Sample.gym).store.workout_exercises.filter
        fun we => we.workout_id = 1).length ∧
      (2 : Nat) = (((DB.healthy Sample.gym).store.workout_exercises.filter
        fun we => we.workout_id = 1).map fun we =>
          ((DB.healthy Sample.gym).store.logged_sets.filter
            fun ls => ls.workout_exercise_id = we.id).length).sum ∧
      (((DB.healthy Sample.gym).store.workout_exercises.filter
        fun we => we.workout_id = 1) = [] → (1 : Nat) = 0 ∧ (2 : Nat) = 0)) :=
  ⟨by decide, by decide, by decide, by decide,
    summary_counts (DB.healthy Sample.gym) [⟨1, "Workout 1", 10, WorkoutStatus.finished, 1, 2⟩]
      ⟨1, "Workout 1", 10, WorkoutStatus.finished, 1, 2⟩ (by decide) (by decide)
      (Or.inr (by decide)) (by decide)⟩

/-- A list that is a rearrangement of the images of rows is the list of the
images of a rearrangement of the rows. -/
theorem perm_map_lift {α β : Type} [DecidableEq α] (f : α → β) :
    ∀ (l : List β) (l1 : List α), l.Perm (l1.map f) → ∃ l2 : List α, l2.Perm l1 ∧ l2.map f = l := by
  intro l
  induction l with
  | nil =>
    intro l1 h
    have : l1 = [] := by
      have := h.length_eq
      simp only [List.length_nil, List.length_map] at this
      exact List.length_eq_zero.1 this.symm
    exact ⟨[], by rw [this], rfl⟩
  | cons b l ih =>
    intro l1 h
    have hb : b ∈ l1.map f := h.subset (List.mem_cons_self _ _)
    obtain ⟨a, ha, rfl⟩ := List.mem_map.1 hb
    have hp : l1.Perm (a :: l1.erase a) := List.perm_cons_erase ha
    have h2 : (f a :: l).Perm (f a :: (l1.erase a).map f) := h.trans (hp.map f)
    obtain ⟨l2, hl2, hm⟩ := ih (l1.erase a) (List.Perm.cons_inv h2)
    exact ⟨a :: l2, (hl2.cons a).trans hp.symm, by rw [List.map_cons, hm]⟩

/-- On a healthy connection `listByStatus` returns one summary per workout with
the status, in an order that is sorted by date descending and then by creation
time descending. -/
theorem listByStatus_healthy (s : Store) (hpk : pkWorkouts s) (st : WorkoutStatus) :
    ∃ (out : List WorkoutSummary) (ws : List WorkoutRow), (listByStatus (DB.healthy s) st).1 = .ok out ∧
      ws.Perm (s.workouts.filter fun w => w.status = st) ∧
      out.map (fun x => (x.ID, x.Name, x.Date, x.Status)) =
        ws.map (fun w => (w.id, w.name, w.date, w.status)) ∧
      ws.Pairwise (fun a b =>
        b.date < a.date ∨ (a.date = b.date ∧ b.created_at ≤ a.created_at)) := by
  have hK : (((summaryJoin s).filter fun r => r.1.1.status = st).map
      fun r => groupKey r.1.1).dedup.Perm ((s.workouts.filter fun w => w.status = st).map
        groupKey) := by
    rw [List.perm_ext_iff_of_nodup (List.nodup_dedup _)]
    · exact mem_groupKeys s st
    · have h1 : ((s.workouts.filter fun w => w.status = st).map fun w => w.id).Nodup :=
        List.Nodup.sublist ((List.filter_sublist _).map _) hpk
      have h2 : ((s.workouts.filter fun w => w.status = st).map fun w => w.id) =
          ((s.workouts.filter fun w => w.status = st).map groupKey).map Prod.fst := by
        rw [List.map_map]; rfl
      rw [h2] at h1
      exact List.Nodup.of_map _ h1
  obtain ⟨ws, hws, hmap⟩ := perm_map_lift groupKey _ _
    ((List.perm_insertionSort newestFirst _).trans hK)
  have hsorted := List.sorted_insertionSort newestFirst
    ((((summaryJoin s).filter fun r => r.1.1.status = st).map fun r => groupKey r.1.1).dedup)
  refine ⟨_, ws, rfl, hws, ?_, ?_⟩
  · simp only [listByStatus, DB.Query, DB.healthy_fails, if_false, Bool.false_eq_true,
      DB.healthy_store, orderBy]
    rw [← hmap]
    simp only [List.map_map, Function.comp_def, summarize, groupKey]
  · rw [← hmap] at hsorted
    unfold List.Sorted at hsorted
    rw [List.pairwise_map] at hsorted
    exact hsorted

/-- The ids of a listing that shows the workouts with one status: no id twice,
and the id of a workout is listed exactly when the workout has the status. -/
theorem listing_ids (s : Store) (hpk : pkWorkouts s) (st : WorkoutStatus)
    (out : List WorkoutSummary) (ws : List WorkoutRow)
    (hperm : ws.Perm (s.workouts.filter fun w => w.status = st))
    (hmap : out.map (fun x => (x.ID, x.Name, x.Date, x.Status)) =
      ws.map (fun w => (w.id, w.name, w.date, w.status))) :
    (out.map fun x => x.ID).Nodup ∧
      ∀ w ∈ s.workouts, (w.id ∈ out.map fun x => x.ID) ↔ w.status = st := by
  have hid : (out.map fun x => x.ID) = ws.map fun w => w.id := by
    have := congrArg (List.map Prod.fst) hmap
    simpa only [List.map_map, Function.comp_def] using this
  have hp : (ws.map fun w => w.id).Perm
      ((s.workouts.filter fun w => w.status = st).map fun w => w.id) := hperm.map _
  rw [hid]
  constructor
  · exact hp.nodup_iff.2 (List.Nodup.sublist ((List.filter_sublist _).map _) hpk)
  · intro w hw
    rw [hp.mem_iff, List.mem_map]
    constructor
    · rintro ⟨w1, hw1, hid1⟩
      rw [List.mem_filter] at hw1
      have : w1 = w := List.inj_on_of_nodup_map hpk hw1.1 hw hid1
      rw [← this]
      simpa using hw1.2
    · intro hst
      exact ⟨w, List.mem_filter.2 ⟨hw, by simpa using hst⟩, rfl⟩

/-- C20: on a store with keyed workouts `ListFinished` returns the workouts
whose status is finished and `ListInProgress` those whose status is
in_progress, each once, so that every workout is in exactly one of the two
lists, and each list is sorted by date descending and then by creation time
descending. -/
theorem lists_partition_sorted (s : Store) (hpk : pkWorkouts s) :
    ∃ (fin inp : List WorkoutSummary) (wsF wsI : List WorkoutRow),
      (ListFinished (DB.healthy s)).1 = .ok fin ∧
      (ListInProgress (DB.healthy s)).1 = .ok inp ∧
      wsF.Perm (s.workouts.filter fun w => w.status = WorkoutStatus.finished) ∧
      wsI.Perm (s.workouts.filter fun w => w.status = WorkoutStatus.in_progress) ∧
      fin.map (fun x => (x.ID, x.Name, x.Date, x.Status)) =
        wsF.map (fun w => (w.id, w.name, w.date, w.status)) ∧
      inp.map (fun x => (x.ID, x.Name, x.Date, x.Status)) =
        wsI.map (fun w => (w.id, w.name, w.date, w.status)) ∧
      wsF.Pairwise (fun a b =>
        b.date < a.date ∨ (a.date = b.date ∧ b.created_at ≤ a.created_at)) ∧
      wsI.Pairwise (fun a b =>
        b.date < a.date ∨ (a.date = b.date ∧ b.created_at ≤ a.created_at)) ∧
      (fin.map fun x => x.ID).Nodup ∧ (inp.map fun x => x.ID).Nodup ∧
      ∀ w ∈ s.workouts,
        ((w.id ∈ fin.map fun x => x.ID) ∧ w.id ∉ inp.map fun x => x.ID) ∨
        ((w.id ∉ fin.map fun x => x.ID) ∧ w.id ∈ inp.map fun x => x.ID) := by
  obtain ⟨fin, wsF, hF, hpF, hmF, hsF⟩ := listByStatus_healthy s hpk WorkoutStatus.finished
  obtain ⟨inp, wsI, hI, hpI, hmI, hsI⟩ := listByStatus_healthy s hpk WorkoutStatus.in_progress
  obtain ⟨hnF, hiF⟩ := listing_ids s hpk _ fin wsF hpF hmF
  obtain ⟨hnI, hiI⟩ := listing_ids s hpk _ inp wsI hpI hmI
  refine ⟨fin, inp, wsF, wsI, hF, hI, hpF, hpI, hmF, hmI, hsF, hsI, hnF, hnI, ?_⟩
  intro w hw
  rw [hiF w hw, hiI w hw]
  cases w.status with
  | in_progress => exact Or.inr ⟨(fun h => by cases h), rfl⟩
  | finished => exact Or.inl ⟨rfl, (fun h => by cases h)⟩

/-- Witness of C20: the two lists of the sample store. -/
theorem lists_partition_sorted_witness :
    pkWorkouts Sample.gym ∧
    ∃ (fin inp : List WorkoutSummary) (wsF wsI : List WorkoutRow),
      (ListFinished (DB.healthy Sample.gym)).1 = .ok fin ∧
      (ListInProgress (DB.healthy Sample.gym)).1 = .ok inp ∧
      wsF.Perm (Sample.gym.workouts.filter fun w => w.status = WorkoutStatus.finished) ∧
      wsI.Perm (Sample.gym.workouts.filter fun w => w.status = WorkoutStatus.in_progress) ∧
      fin.map (fun x => (x.ID, x.Name, x.Date, x.Status)) =
        wsF.map (fun w => (w.id, w.name, w.date, w.status)) ∧
      inp.map (fun x => (x.ID, x.Name, x.Date, x.Status)) =
        wsI.map (fun w => (w.id, w.name, w.date, w.status)) ∧
      wsF.Pairwise (fun a b =>
        b.date < a.date ∨ (a.date = b.date ∧ b.created_at ≤ a.created_at)) ∧
      wsI.Pairwise (fun a b =>
        b.date < a.date ∨ (a.date = b.date ∧ b.created_at ≤ a.created_at)) ∧
      (fin.map fun x => x.ID).Nodup ∧ (inp.map fun x => x.ID).Nodup ∧
      ∀ w ∈ Sample.gym.workouts,
        ((w.id ∈ fin.map fun x => x.ID) ∧ w.id ∉ inp.map fun x => x.ID) ∨
        ((w.id ∉ fin.map fun x => x.ID) ∧ w.id ∈ inp.map fun x => x.ID) :=
  ⟨by decide, lists_partition_sorted Sample.gym (by decide)⟩

/-! ## Properties kept along the operations -/

/-- A statement run by `Exec` either leaves the store as it was or is the
successful statement on the store. -/
theorem DB.Exec_store {α : Type} (db : DB) (stmt : Store → Except DbErr (α × Store)) :
    (db.Exec stmt).2.store = db.store ∨ ∃ a, stmt db.store = .ok (a, (db.Exec stmt).2.store) := by
  unfold DB.Exec
  cases db.fails with
  | true => exact Or.inl rfl
  | false =>
    simp only [if_false, Bool.false_eq_true]
    cases h : stmt db.store with
    | error e => exact Or.inl rfl
    | ok r => exact Or.inr ⟨r.1, rfl⟩

/-- A property of the store that every successful run of the statement
establishes holds after `Exec` when it held before. -/
theorem DB.Exec_inv {α : Type} (P : Store → Prop) (db : DB)
    (stmt : Store → Except DbErr (α × Store)) (h0 : P db.store)
    (h : ∀ a s1, stmt db.store = .ok (a, s1) → P s1) : P (db.Exec stmt).2.store := by
  rcases DB.Exec_store db stmt with h1 | ⟨a, h1⟩
  · rw [h1]; exact h0
  · exact h a _ h1

/-- The same for a statement inside a transaction. -/
theorem Tx.Exec_conn_inv {α : Type} (P : Store → Prop) (tx : Tx)
    (stmt : Store → Except DbErr (α × Store)) (h0 : P tx.conn.store)
    (h : ∀ a s1, stmt tx.conn.store = .ok (a, s1) → P s1) : P (tx.Exec stmt).2.conn.store :=
  DB.Exec_inv P tx.conn stmt h0 h

/-- Go `AddSet` runs its insert on the store it read the next position from. -/
theorem AddSet_inv (P : Store → Prop) (now : Nat) (db : DB) (weid reps : Int) (weight : Weight)
    (h0 : P db.store)
    (h : ∀ pos a s1,
      (∀ m, sqlMax ((db.store.logged_sets.filter fun ls =>
        ls.workout_exercise_id = weid).map fun ls => ls.position) = some m → pos = m + 1) →
      (sqlMax ((db.store.logged_sets.filter fun ls =>
        ls.workout_exercise_id = weid).map fun ls => ls.position) = none → pos = 1) →
      insertLoggedSet now weid reps weight pos db.store = .ok (a, s1) → P s1) :
    P (AddSet now db weid reps weight).2.store := by
  unfold AddSet DB.QueryRow
  cases hf : db.fails with
  | true => exact h0
  | false =>
    simp only [if_false, Bool.false_eq_true]
    apply DB.Exec_inv P db.step _ h0
    intro a s1 hs
    refine h _ a s1 ?_ ?_ hs
    · intro m hm; rw [hm]
    · intro hm; rw [hm]

/-- Go `AddExercise` runs its insert on the store it read the next position
from. -/
theorem AddExercise_inv (P : Store → Prop) (db : DB) (wid eid : Int) (h0 : P db.store)
    (h : ∀ pos a s1,
      (∀ m, sqlMax ((db.store.workout_exercises.filter fun we =>
        we.workout_id = wid).map fun we => we.position) = some m → pos = m + 1) →
      (sqlMax ((db.store.workout_exercises.filter fun we =>
        we.workout_id = wid).map fun we => we.position) = none → pos = 1) →
      insertWorkoutExercise wid eid pos db.store = .ok (a, s1) → P s1) :
    P (AddExercise db wid eid).2.store := by
  unfold AddExercise DB.QueryRow
  cases hf : db.fails with
  | true => exact h0
  | false =>
    simp only [if_false, Bool.false_eq_true]
    apply DB.Exec_inv P db.step _ h0
    intro a s1 hs
    refine h _ a s1 ?_ ?_ hs
    · intro m hm; rw [hm]
    · intro hm; rw [hm]

/-- Go `templates.AddExercise`: the insert on the store the next position was
read from, then the timestamp update. -/
theorem templates_AddExercise_inv (P : Store → Prop) (now : Nat) (db : DB) (T e ts tr : Int)
    (h0 : P db.store)
    (h : ∀ pos a s1,
      (∀ m, sqlMax ((db.store.template_exercises.filter fun te =>
        te.template_id = T).map fun te => te.position) = some m → pos = m + 1) →
      (sqlMax ((db.store.template_exercises.filter fun te =>
        te.template_id = T).map fun te => te.position) = none → pos = 1) →
      templates.insertTemplateExercise T e ts tr pos db.store = .ok (a, s1) → P s1)
    (htouch : ∀ s wt, P s → P { s with workout_templates := wt }) :
    P (templates.AddExercise now db T e ts tr).2.store := by
  unfold templates.AddExercise DB.QueryRow
  cases hf : db.fails with
  | true => exact h0
  | false =>
    simp only [if_false, Bool.false_eq_true]
    split
    · rename_i e1 db2 hexec
      have hdb2 : db2 = (db.step.Exec _).2 := (congrArg Prod.snd hexec).symm
      subst hdb2
      apply DB.Exec_inv P db.step _ h0
      intro a s1 hs
      refine h _ a s1 ?_ ?_ hs
      · intro m hm; rw [hm]
      · intro hm; rw [hm]
    · rename_i id db2 hexec
      have hdb2 : db2 = (db.step.Exec _).2 := (congrArg Prod.snd hexec).symm
      subst hdb2
      apply DB.Exec_inv P _ _
      · apply DB.Exec_inv P db.step _ h0
        intro a s1 hs
        refine h _ a s1 ?_ ?_ hs
        · intro m hm; rw [hm]
        · intro hm; rw [hm]
      · intro a s1 hs
        cases hs
        apply htouch
        apply DB.Exec_inv P db.step _ h0
        intro a s1 hs
        refine h _ a s1 ?_ ?_ hs
        · intro m hm; rw [hm]
        · intro hm; rw [hm]

/-- Go `routines.AddTemplate`: the insert on the store the next position was
read from, then the timestamp update. -/
theorem routines_AddTemplate_inv (P : Store → Prop) (now : Nat) (db : DB) (R T : Int)
    (h0 : P db.store)
    (h : ∀ pos a s1,
      (∀ m, sqlMax ((db.store.routine_templates.filter fun rt =>
        rt.routine_id = R).map fun rt => rt.position) = some m → pos = m + 1) →
      (sqlMax ((db.store.routine_templates.filter fun rt =>
        rt.routine_id = R).map fun rt => rt.position) = none → pos = 1) →
      routines.insertRoutineTemplate R T pos db.store = .ok (a, s1) → P s1)
    (htouch : ∀ s rs, P s → P { s with routines := rs }) :
    P (routines.AddTemplate now db R T).2.store := by
  unfold routines.AddTemplate DB.QueryRow
  cases hf : db.fails with
  | true => exact h0
  | false =>
    simp only [if_false, Bool.false_eq_true]
    split
    · rename_i e1 db2 hexec
      have hdb2 : db2 = (db.step.Exec _).2 := (congrArg Prod.snd hexec).symm
      subst hdb2
      apply DB.Exec_inv P db.step _ h0
      intro a s1 hs
      refine h _ a s1 ?_ ?_ hs
      · intro m hm; rw [hm]
      · intro hm; rw [hm]
    · rename_i id db2 hexec
      have hdb2 : db2 = (db.step.Exec _).2 := (congrArg Prod.snd hexec).symm
      subst hdb2
      apply DB.Exec_inv P _ _
      · apply DB.Exec_inv P db.step _ h0
        intro a s1 hs
        refine h _ a s1 ?_ ?_ hs
        · intro m hm; rw [hm]
        · intro hm; rw [hm]
      · intro a s1 hs
        cases hs
        apply htouch
        apply DB.Exec_inv P db.step _ h0
        intro a s1 hs
        refine h _ a s1 ?_ ?_ hs
        · intro m hm; rw [hm]
        · intro hm; rw [hm]

/-- The insert loop of `CreateFromTemplate` keeps what each of its inserts
keeps. -/
theorem copyExercises_inv (P : Store → Prop) (wid : Int) (exs : List (Int × Int)) :
    ∀ (db : DB), P db.store →
    (∀ s ex a s1, P s → ex ∈ exs → insertWorkoutExercise wid ex.1 ex.2 s = .ok (a, s1) → P s1) →
    P (copyExercises db wid exs).2.store := by
  induction exs with
  | nil => intro db h0 _; exact h0
  | cons ex rest ih =>
    intro db h0 h
    unfold copyExercises
    have h1 : P (db.Exec (insertWorkoutExercise wid ex.1 ex.2)).2.store :=
      DB.Exec_inv P db _ h0 fun a s1 hs => h _ ex a s1 h0 (List.mem_cons_self _ _) hs
    split
    · rename_i e1 db1 hexec
      have hdb1 : db1 = (db.Exec _).2 := (congrArg Prod.snd hexec).symm
      subst hdb1
      exact h1
    · rename_i a1 db1 hexec
      have hdb1 : db1 = (db.Exec _).2 := (congrArg Prod.snd hexec).symm
      subst hdb1
      exact ih _ h1 fun s ex1 a s1 hP hm hs => h s ex1 a s1 hP (List.mem_cons_of_mem _ hm) hs

/-- An insert into `workout_exercises` changes no other table. -/
theorem insertWorkoutExercise_template_exercises (wid eid pos : Int) (s s1 : Store) (a : Int)
    (h : insertWorkoutExercise wid eid pos s = .ok (a, s1)) :
    s1.template_exercises = s.template_exercises := by
  unfold insertWorkoutExercise at h
  split_ifs at h
  cases h
  rfl

/-- Go `CreateFromTemplate`: the insert of the workout, then one insert per
exercise row of the template, each with the exercise and the position of the
row. -/
theorem CreateFromTemplate_inv (P : Store → Prop) (now : Nat) (db : DB) (name : String)
    (date : Nat) (T : Int) (h0 : P db.store)
    (hw : ∀ a s1, insertWorkout now name date (some T) db.store = .ok (a, s1) → P s1)
    (hwe : ∀ s te wid a s1, P s → te ∈ s.template_exercises →
      insertWorkoutExercise wid te.exercise_id te.position s = .ok (a, s1) → P s1) :
    P (CreateFromTemplate now db name date T).2.store := by
  unfold CreateFromTemplate Create
  have h1 : P (db.Exec (insertWorkout now name date (some T))).2.store :=
    DB.Exec_inv P db _ h0 hw
  split
  · rename_i e1 db1 hexec
    have hdb1 : db1 = (db.Exec _).2 := (congrArg Prod.snd hexec).symm
    subst hdb1
    exact h1
  · rename_i wid db1 hexec
    have hdb1 : db1 = (db.Exec _).2 := (congrArg Prod.snd hexec).symm
    subst hdb1
    unfold DB.Query
    cases hf : (db.Exec (insertWorkout now name date (some T))).2.fails with
    | true => exact h1
    | false =>
      simp only [if_false, Bool.false_eq_true]
      have h2 := copyExercises_inv
        (fun s => P s ∧ s.template_exercises =
          (db.Exec (insertWorkout now name date (some T))).2.store.template_exercises) wid
        ((orderBy byTemplatePosition
          ((db.Exec (insertWorkout now name date (some T))).2.store.template_exercises.filter
            fun te => te.template_id = T)).map fun te => (te.exercise_id, te.position))
        (db.Exec (insertWorkout now name date (some T))).2.step ⟨h1, rfl⟩
        (by
          intro s ex a s1 hP hex hs
          obtain ⟨te, hte, rfl⟩ := List.mem_map.1 hex
          rw [mem_orderBy] at hte
          have hte1 := (List.mem_filter.1 hte).1
          refine ⟨hwe s te wid a s1 hP.1 (by rw [hP.2]; exact hte1) hs, ?_⟩
          rw [insertWorkoutExercise_template_exercises _ _ _ _ _ _ hs, hP.2])
      exact h2.1

/-- The update loop of `templates.ReorderExercises` keeps what each of its
updates, to a position of at least 1, keeps. -/
theorem templates_reorderLoop_inv (P : Store → Prop) (T : Int)
    (h : ∀ s pos id a s1, P s → 1 ≤ pos →
      templates.updateExercisePosition pos id T s = .ok (a, s1) → P s1)
    (ids : List Int) :
    ∀ (tx : Tx) (i : Int), 0 ≤ i → P tx.conn.store →
      P (templates.reorderLoop tx T i ids).2.conn.store := by
  induction ids with
  | nil => intro tx i _ h0; exact h0
  | cons id rest ih =>
    intro tx i hi h0
    unfold templates.reorderLoop
    have h1 : P (tx.Exec (templates.updateExercisePosition (i + 1) id T)).2.conn.store :=
      Tx.Exec_conn_inv P tx _ h0 fun a s1 hs => h _ _ _ a s1 h0 (by omega) hs
    split
    · rename_i e1 tx1 hexec
      have htx1 : tx1 = (tx.Exec _).2 := (congrArg Prod.snd hexec).symm
      subst htx1
      exact h1
    · rename_i a1 tx1 hexec
      have htx1 : tx1 = (tx.Exec _).2 := (congrArg Prod.snd hexec).symm
      subst htx1
      exact ih _ (i + 1) (by omega) h1

/-- Go `templates.ReorderExercises` keeps what each of its updates keeps. -/
theorem templates_ReorderExercises_inv (P : Store → Prop) (db : DB) (T : Int) (ids : List Int)
    (h0 : P db.store)
    (h : ∀ s pos id a s1, P s → 1 ≤ pos →
      templates.updateExercisePosition pos id T s = .ok (a, s1) → P s1) :
    P (templates.ReorderExercises db T ids).2.store := by
  unfold templates.ReorderExercises DB.Begin
  cases hf : db.fails with
  | true => exact h0
  | false =>
    simp only [if_false, Bool.false_eq_true]
    have hs := templates_reorderLoop_snapshot ⟨db.store, db.step⟩ T 0 ids
    have hl := templates_reorderLoop_inv P T h ids ⟨db.store, db.step⟩ 0 (le_refl _) h0
    split
    · rename_i e1 tx1 hloop
      have htx1 : tx1 = (templates.reorderLoop _ T 0 ids).2 := (congrArg Prod.snd hloop).symm
      subst htx1
      show P (templates.reorderLoop ⟨db.store, db.step⟩ T 0 ids).2.snapshot
      rw [hs]
      exact h0
    · rename_i a1 tx1 hloop
      have htx1 : tx1 = (templates.reorderLoop _ T 0 ids).2 := (congrArg Prod.snd hloop).symm
      subst htx1
      unfold Tx.Commit
      split_ifs
      · show P (templates.reorderLoop ⟨db.store, db.step⟩ T 0 ids).2.snapshot
        rw [hs]
        exact h0
      · exact hl

/-- The update loop of `routines.ReorderTemplates` keeps what each of its
updates, to a position of at least 1, keeps. -/
theorem routines_reorderLoop_inv (P : Store → Prop) (R : Int)
    (h : ∀ s pos id a s1, P s → 1 ≤ pos →
      routines.updateTemplatePosition pos id R s = .ok (a, s1) → P s1)
    (ids : List Int) :
    ∀ (tx : Tx) (i : Int), 0 ≤ i → P tx.conn.store →
      P (routines.reorderLoop tx R i ids).2.conn.store := by
  induction ids with
  | nil => intro tx i _ h0; exact h0
  | cons id rest ih =>
    intro tx i hi h0
    unfold routines.reorderLoop
    have h1 : P (tx.Exec (routines.updateTemplatePosition (i + 1) id R)).2.conn.store :=
      Tx.Exec_conn_inv P tx _ h0 fun a s1 hs => h _ _ _ a s1 h0 (by omega) hs
    split
    · rename_i e1 tx1 hexec
      have htx1 : tx1 = (tx.Exec _).2 := (congrArg Prod.snd hexec).symm
      subst htx1
      exact h1
    · rename_i a1 tx1 hexec
      have htx1 : tx1 = (tx.Exec _).2 := (congrArg Prod.snd hexec).symm
      subst htx1
      exact ih _ (i + 1) (by omega) h1

/-- Go `routines.ReorderTemplates` keeps what each of its updates keeps. -/
theorem routines_ReorderTemplates_inv (P : Store → Prop) (db : DB) (R : Int) (ids : List Int)
    (h0 : P db.store)
    (h : ∀ s pos id a s1, P s → 1 ≤ pos →
      routines.updateTemplatePosition pos id R s = .ok (a, s1) → P s1) :
    P (routines.ReorderTemplates db R ids).2.store := by
  unfold routines.ReorderTemplates DB.Begin
  cases hf : db.fails with
  | true => exact h0
  | false =>
    simp only [if_false, Bool.false_eq_true]
    have hs := routines_reorderLoop_snapshot ⟨db.store, db.step⟩ R 0 ids
    have hl := routines_reorderLoop_inv P R h ids ⟨db.store, db.step⟩ 0 (le_refl _) h0
    split
    · rename_i e1 tx1 hloop
      have htx1 : tx1 = (routines.reorderLoop _ R 0 ids).2 := (congrArg Prod.snd hloop).symm
      subst htx1
      show P (routines.reorderLoop ⟨db.store, db.step⟩ R 0 ids).2.snapshot
      rw [hs]
      exact h0
    · rename_i a1 tx1 hloop
      have htx1 : tx1 = (routines.reorderLoop _ R 0 ids).2 := (congrArg Prod.snd hloop).symm
      subst htx1
      unfold Tx.Commit
      split_ifs
      · show P (routines.reorderLoop ⟨db.store, db.step⟩ R 0 ids).2.snapshot
        rw [hs]
        exact h0
      · exact hl

/-! ## C11: finished workouts stay finished -/

/-- Every store is reached from itself by the listed calls on healthy
connections. -/
theorem reachableFrom_after (s : Store) (ops : List Op) : ReachableFrom s (s.after ops) := by
  have key : ∀ (ops : List Op) (t : Store), ReachableFrom s t →
      ReachableFrom s (ops.foldl (fun t op => (op.run (DB.healthy t)).store) t) := by
    intro ops
    induction ops with
    | nil => intro t ht; exact ht
    | cons op rest ih =>
      intro t ht
      exact ih _ (ReachableFrom.step t [] op ht)
  exact key ops s ReachableFrom.refl

/-- A call that leaves `workouts` and its counter alone keeps the state of the
workouts. -/
theorem finishedKept_frame (s0 s s1 : Store) (hw : s1.workouts = s.workouts)
    (hq : s1.seq_workouts = s.seq_workouts) (h : finishedKept s0 s) : finishedKept s0 s1 := by
  unfold finishedKept pkWorkouts at h ⊢
  rw [hw, hq]
  exact h

/-- An update of workout rows that keeps their ids and either keeps status and
`finished_at` or finishes a workout in progress keeps the state of the
workouts. -/
theorem finishedKept_map (s0 s s1 : Store) (f : WorkoutRow → WorkoutRow)
    (hw : s1.workouts = s.workouts.map f) (hq : s1.seq_workouts = s.seq_workouts)
    (hf : ∀ w, (f w).id = w.id ∧
      (((f w).status = w.status ∧ (f w).finished_at = w.finished_at) ∨
        (w.status = WorkoutStatus.in_progress ∧ (f w).status = WorkoutStatus.finished ∧
          (f w).finished_at.isSome)))
    (h : finishedKept s0 s) : finishedKept s0 s1 := by
  obtain ⟨hpk, hle, hseq, hiff, hkeep⟩ := h
  unfold finishedKept pkWorkouts
  rw [hw, hq]
  refine ⟨?_, ?_, hseq, ?_, ?_⟩
  · rw [List.map_map]
    have : ((fun w : WorkoutRow => w.id) ∘ f) = fun w => w.id := funext fun w => (hf w).1
    rw [this]
    exact hpk
  · intro w hw1
    obtain ⟨w2, hw2, rfl⟩ := List.mem_map.1 hw1
    rw [(hf w2).1]
    exact hle w2 hw2
  · intro w hw1
    obtain ⟨w2, hw2, rfl⟩ := List.mem_map.1 hw1
    rcases (hf w2).2 with ⟨h1, h2⟩ | ⟨h1, h2, h3⟩
    · rw [h1, h2]; exact hiff w2 hw2
    · exact ⟨fun _ => h2, fun _ => h3⟩
  · intro w0 hw0 hfin w hw1 hid
    obtain ⟨w2, hw2, rfl⟩ := List.mem_map.1 hw1
    have hk := hkeep w0 hw0 hfin w2 hw2 (by rw [← (hf w2).1]; exact hid)
    rcases (hf w2).2 with ⟨h1, h2⟩ | ⟨h1, h2, h3⟩
    · rw [h1, h2]; exact hk
    · rw [hk.1] at h1
      cases h1

/-- A delete of workout rows keeps the state of the workouts. -/
theorem finishedKept_filter (s0 s s1 : Store) (p : WorkoutRow → Bool)
    (hw : s1.workouts = s.workouts.filter p) (hq : s1.seq_workouts = s.seq_workouts)
    (h : finishedKept s0 s) : finishedKept s0 s1 := by
  obtain ⟨hpk, hle, hseq, hiff, hkeep⟩ := h
  unfold finishedKept pkWorkouts
  rw [hw, hq]
  refine ⟨List.Nodup.sublist ((List.filter_sublist _).map _) hpk,
    fun w hw1 => hle w (List.mem_filter.1 hw1).1, hseq,
    fun w hw1 => hiff w (List.mem_filter.1 hw1).1,
    fun w0 hw0 hfin w hw1 hid => hkeep w0 hw0 hfin w (List.mem_filter.1 hw1).1 hid⟩

/-- An insert of a workout in progress under the next id keeps the state of
the workouts. -/
theorem finishedKept_append (s0 s s1 : Store) (row : WorkoutRow)
    (hs0 : ∀ w0 ∈ s0.workouts, w0.id ≤ s0.seq_workouts)
    (hw : s1.workouts = s.workouts ++ [row]) (hq : s1.seq_workouts = row.id)
    (hid : row.id = nextId s.seq_workouts (s.workouts.map fun w => w.id))
    (hst : row.status = WorkoutStatus.in_progress) (hfa : row.finished_at = none)
    (h : finishedKept s0 s) : finishedKept s0 s1 := by
  obtain ⟨hpk, hle, hseq, hiff, hkeep⟩ := h
  have hlt : s.seq_workouts < row.id := by
    rw [hid]
    have := (le_foldl_max (s.workouts.map fun w => w.id) (max s.seq_workouts 0)).1
    unfold nextId
    have h2 : s.seq_workouts ≤ max s.seq_workouts 0 := le_max_left _ _
    omega
  unfold finishedKept pkWorkouts
  rw [hw, hq]
  refine ⟨?_, ?_, by omega, ?_, ?_⟩
  · rw [List.map_append, List.nodup_append]
    refine ⟨hpk, List.nodup_singleton _, ?_⟩
    intro x hx hx1
    simp only [List.map_cons, List.map_nil, List.mem_singleton] at hx1
    subst hx1
    rw [hid] at hx
    exact nextId_not_mem _ _ hx
  · intro w hw1
    rcases List.mem_append.1 hw1 with hm | hm
    · have := hle w hm; omega
    · rw [List.mem_singleton.1 hm]
  · intro w hw1
    rcases List.mem_append.1 hw1 with hm | hm
    · exact hiff w hm
    · rw [List.mem_singleton.1 hm, hst, hfa]
      exact ⟨(fun h => by cases h), (fun h => by cases h)⟩
  · intro w0 hw0 hfin w hw1 hwid
    rcases List.mem_append.1 hw1 with hm | hm
    · exact hkeep w0 hw0 hfin w hm hwid
    · rw [List.mem_singleton.1 hm] at hwid
      have := hs0 w0 hw0
      omega

/-- Every call keeps the state of the workouts: only `Create`,
`CreateFromTemplate`, `Update`, `Finish`, `Delete` and `templates.Delete` write
`workouts` at all. -/
theorem Op.run_finishedKept (s0 : Store) (hs0 : ∀ w0 ∈ s0.workouts, w0.id ≤ s0.seq_workouts)
    (op : Op) (db : DB) (h : finishedKept s0 db.store) : finishedKept s0 (op.run db).store := by
  cases op with
  | exercisesCreate now name =>
    refine DB.Exec_inv (finishedKept s0) db _ h fun a s1 hs => ?_
    unfold exercises.insertExercise at hs
    split_ifs at hs
    cases hs
    exact h
  | exercisesDelete id =>
    refine DB.Exec_inv (finishedKept s0) db _ h fun a s1 hs => ?_
    unfold exercises.deleteExercise at hs
    split_ifs at hs
    cases hs
    exact h
  | templatesCreate now name =>
    refine DB.Exec_inv (finishedKept s0) db _ h fun a s1 hs => ?_
    unfold templates.insertTemplate at hs
    cases hs
    exact h
  | templatesUpdate now id name =>
    refine DB.Exec_inv (finishedKept s0) db _ h fun a s1 hs => ?_
    unfold templates.updateTemplate at hs
    cases hs
    exact h
  | templatesDelete id =>
    refine DB.Exec_inv (finishedKept s0) db _ h fun a s1 hs => ?_
    unfold templates.deleteTemplate at hs
    split_ifs at hs
    · cases hs
      refine finishedKept_map s0 db.store _ _ rfl rfl (fun w => ?_) h
      split_ifs
      · exact ⟨rfl, Or.inl ⟨rfl, rfl⟩⟩
      · exact ⟨rfl, Or.inl ⟨rfl, rfl⟩⟩
    · cases hs
      exact h
  | templatesAddExercise now t e ts tr =>
    refine templates_AddExercise_inv (finishedKept s0) now db t e ts tr h
      (fun pos a s1 _ _ hs => ?_) (fun s wt hP => hP)
    unfold templates.insertTemplateExercise at hs
    split_ifs at hs
    cases hs
    exact h
  | templatesUpdateExercise id ts tr =>
    refine DB.Exec_inv (finishedKept s0) db _ h fun a s1 hs => ?_
    split_ifs at hs
    cases hs
    exact h
  | templatesRemoveExercise id =>
    refine DB.Exec_inv (finishedKept s0) db _ h fun a s1 hs => ?_
    unfold templates.deleteTemplateExercise at hs
    cases hs
    exact h
  | templatesReorderExercises t ids =>
    refine templates_ReorderExercises_inv (finishedKept s0) db t ids h
      (fun s pos id a s1 hP _ hs => ?_)
    unfold templates.updateExercisePosition at hs
    split_ifs at hs
    cases hs
    exact hP
  | routinesCreate now name =>
    refine DB.Exec_inv (finishedKept s0) db _ h fun a s1 hs => ?_
    unfold routines.insertRoutine at hs
    cases hs
    exact h
  | routinesUpdate now id name =>
    refine DB.Exec_inv (finishedKept s0) db _ h fun a s1 hs => ?_
    unfold routines.updateRoutine at hs
    cases hs
    exact h
  | routinesDelete id =>
    refine DB.Exec_inv (finishedKept s0) db _ h fun a s1 hs => ?_
    unfold routines.deleteRoutine at hs
    split_ifs at hs <;> cases hs <;> exact h
  | routinesAddTemplate now r t =>
    refine routines_AddTemplate_inv (finishedKept s0) now db r t h
      (fun pos a s1 _ _ hs => ?_) (fun s rs hP => hP)
    unfold routines.insertRoutineTemplate at hs
    split_ifs at hs
    cases hs
    exact h
  | routinesRemoveTemplate id =>
    refine DB.Exec_inv (finishedKept s0) db _ h fun a s1 hs => ?_
    unfold routines.deleteRoutineTemplate at hs
    cases hs
    exact h
  | routinesReorderTemplates r ids =>
    refine routines_ReorderTemplates_inv (finishedKept s0) db r ids h
      (fun s pos id a s1 hP _ hs => ?_)
    unfold routines.updateTemplatePosition at hs
    split_ifs at hs
    cases hs
    exact hP
  | workoutsCreate now name date t =>
    refine DB.Exec_inv (finishedKept s0) db _ h fun a s1 hs => ?_
    unfold insertWorkout at hs
    split_ifs at hs
    cases hs
    exact finishedKept_append s0 db.store _ _ hs0 rfl rfl rfl rfl rfl h
  | workoutsCreateFromTemplate now name date t =>
    refine CreateFromTemplate_inv (finishedKept s0) now db name date t h
      (fun a s1 hs => ?_) (fun s te wid a s1 hP _ hs => ?_)
    · unfold insertWorkout at hs
      split_ifs at hs
      cases hs
      exact finishedKept_append s0 db.store _ _ hs0 rfl rfl rfl rfl rfl h
    · unfold insertWorkoutExercise at hs
      split_ifs at hs
      cases hs
      exact hP
  | workoutsUpdate id name date notes =>
    refine DB.Exec_inv (finishedKept s0) db _ h fun a s1 hs => ?_
    cases hs
    refine finishedKept_map s0 db.store _ _ rfl rfl (fun w => ?_) h
    split_ifs
    · exact ⟨rfl, Or.inl ⟨rfl, rfl⟩⟩
    · exact ⟨rfl, Or.inl ⟨rfl, rfl⟩⟩
  | workoutsFinish now id =>
    refine DB.Exec_inv (finishedKept s0) db _ h fun a s1 hs => ?_
    cases hs
    refine finishedKept_map s0 db.store _ _ rfl rfl (fun w => ?_) h
    split_ifs with hc
    · exact ⟨rfl, Or.inr ⟨hc.2, rfl, rfl⟩⟩
    · exact ⟨rfl, Or.inl ⟨rfl, rfl⟩⟩
  | workoutsDelete id =>
    refine DB.Exec_inv (finishedKept s0) db _ h fun a s1 hs => ?_
    unfold deleteWorkout at hs
    split_ifs at hs
    · cases hs
      exact finishedKept_filter s0 db.store _ _ rfl rfl h
    · cases hs
      exact h
  | workoutsAddExercise w e =>
    refine AddExercise_inv (finishedKept s0) db w e h (fun pos a s1 _ _ hs => ?_)
    unfold insertWorkoutExercise at hs
    split_ifs at hs
    cases hs
    exact h
  | workoutsRemoveExercise id =>
    refine DB.Exec_inv (finishedKept s0) db _ h fun a s1 hs => ?_
    cases hs
    exact h
  | workoutsAddSet now we reps weight =>
    refine AddSet_inv (finishedKept s0) now db we reps weight h (fun pos a s1 _ _ hs => ?_)
    unfold insertLoggedSet at hs
    split_ifs at hs
    cases hs
    exact h
  | workoutsUpdateSet id reps weight =>
    refine DB.Exec_inv (finishedKept s0) db _ h fun a s1 hs => ?_
    split_ifs at hs
    cases hs
    exact h
  | workoutsDeleteSet id =>
    refine DB.Exec_inv (finishedKept s0) db _ h fun a s1 hs => ?_
    cases hs
    exact h

/-- The state of the workouts is kept along every sequence of calls. -/
theorem finishedKept_of_reachableFrom (s0 t : Store)
    (hs0 : ∀ w0 ∈ s0.workouts, w0.id ≤ s0.seq_workouts) (h0 : finishedKept s0 s0)
    (h : ReachableFrom s0 t) : finishedKept s0 t := by
  induction h with
  | refl => exact h0
  | step t faults op _ ih => exact Op.run_finishedKept s0 hs0 op ⟨t, faults⟩ ih

/-- A store in which the state of the workouts holds with respect to any
earlier store keeps it with respect to itself. -/
theorem finishedKept_self (s0 s : Store) (h : finishedKept s0 s) : finishedKept s s := by
  obtain ⟨hpk, hle, _, hiff, _⟩ := h
  refine ⟨hpk, hle, le_refl _, hiff, ?_⟩
  intro w0 hw0 _ w hw hid
  have : w = w0 := List.inj_on_of_nodup_map hpk hw hw0 hid
  rw [this]
  exact ⟨by assumption, rfl⟩

/-- C11: in every store `s` reached from the empty store by the operations, on
connections that may fail, a workout has `finished_at` set exactly when its
status is finished; and in every store `t` reached from `s` a workout that was
finished in `s` is, as long as its row exists, finished with the `finished_at`
it had in `s`; the ids of the workouts are a key in both stores. -/
theorem finished_at_iff_finished_and_kept (s t : Store) (hs : Reachable s)
    (ht : ReachableFrom s t) :
    (∀ w ∈ s.workouts, w.finished_at.isSome ↔ w.status = WorkoutStatus.finished) ∧
    (∀ w ∈ s.workouts, w.status = WorkoutStatus.finished → ∀ w1 ∈ t.workouts, w1.id = w.id →
      w1.status = WorkoutStatus.finished ∧ w1.finished_at = w.finished_at) ∧
    pkWorkouts s ∧ pkWorkouts t := by
  have hempty : finishedKept Store.empty Store.empty :=
    ⟨List.nodup_nil, fun w hw => absurd hw (List.not_mem_nil _), le_refl _,
      fun w hw => absurd hw (List.not_mem_nil _), fun w hw => absurd hw (List.not_mem_nil _)⟩
  have h1 : finishedKept Store.empty s :=
    finishedKept_of_reachableFrom Store.empty s
      (fun w hw => absurd hw (List.not_mem_nil _)) hempty hs
  have h2 : finishedKept s t :=
    finishedKept_of_reachableFrom s t h1.2.1 (finishedKept_self _ _ h1) ht
  exact ⟨h1.2.2.2.1, h2.2.2.2.2, h1.1, h2.1⟩

/-- Witness of C11: the workout 1, finished at time 5, after an update, a second
finish, the deletion of its template and a new workout. -/
theorem finished_at_iff_finished_and_kept_witness :
    Reachable Sample.done ∧ ReachableFrom Sample.done Sample.doneLater ∧
    Sample.done.workouts =
      [⟨1, "Monday", 10, none, WorkoutStatus.finished, some 1, 1, some 5⟩] ∧
    Sample.doneLater.workouts =
      [⟨1, "Monday", 10, none, WorkoutStatus.finished, none, 1, some 5⟩,
        ⟨2, "Friday", 14, none, WorkoutStatus.in_progress, none, 12, none⟩] ∧
    (∀ w ∈ Sample.done.workouts, w.finished_at.isSome ↔ w.status = WorkoutStatus.finished) ∧
    (∀ w ∈ Sample.done.workouts, w.status = WorkoutStatus.finished →
      ∀ w1 ∈ Sample.doneLater.workouts, w1.id = w.id →
        w1.status = WorkoutStatus.finished ∧ w1.finished_at = w.finished_at) ∧
    pkWorkouts Sample.done ∧ pkWorkouts Sample.doneLater :=
  ⟨reachableFrom_after _ _, reachableFrom_after _ _, by decide, by decide,
    finished_at_iff_finished_and_kept Sample.done Sample.doneLater (reachableFrom_after _ _)
      (reachableFrom_after _ _)⟩

/-! ## C15: positions along the operations -/

/-- The four tables of positioned children, one by one. -/
theorem positions_forall (s : Store) :
    (∀ l ∈ s.positions, positionsDistinct l) ↔
      positionsDistinct (s.template_exercises.map fun te => (te.template_id, te.position)) ∧
      positionsDistinct (s.routine_templates.map fun rt => (rt.routine_id, rt.position)) ∧
      positionsDistinct (s.workout_exercises.map fun we => (we.workout_id, we.position)) ∧
      positionsDistinct (s.logged_sets.map fun ls => (ls.workout_exercise_id, ls.position)) := by
  unfold Store.positions
  simp only [List.forall_mem_cons, List.not_mem_nil, false_imp_iff, implies_true, and_true]

/-- Deleting rows keeps the positions distinct and at least 1. -/
theorem positionsDistinct_filter {α : Type} (key : α → Int × Int) (p : α → Bool) (l : List α)
    (h : positionsDistinct (l.map key)) : positionsDistinct ((l.filter p).map key) :=
  ⟨List.Nodup.sublist ((List.filter_sublist _).map _) h.1, fun x hx => by
    obtain ⟨a, ha, rfl⟩ := List.mem_map.1 hx
    exact h.2 _ (List.mem_map_of_mem _ (List.mem_filter.1 ha).1)⟩

/-- An update that leaves parent and position of every row alone keeps the
positions as they are. -/
theorem positionsDistinct_map {α : Type} (key : α → Int × Int) (f : α → α) (l : List α)
    (hf : ∀ a, key (f a) = key a) (h : positionsDistinct (l.map key)) :
    positionsDistinct ((l.map f).map key) := by
  have : (l.map f).map key = l.map key := by
    rw [List.map_map]
    exact List.map_congr_left fun a _ => hf a
  rw [this]
  exact h

/-- Appending a row at a free position that is at least 1 keeps the positions
distinct and at least 1. -/
theorem positionsDistinct_append {α : Type} (key : α → Int × Int) (l : List α) (a : α)
    (hpos : 1 ≤ (key a).2) (hfree : key a ∉ l.map key) (h : positionsDistinct (l.map key)) :
    positionsDistinct ((l ++ [a]).map key) := by
  rw [List.map_append]
  refine ⟨List.nodup_append.2 ⟨h.1, List.nodup_singleton _, ?_⟩, ?_⟩
  · intro x hx hx1
    simp only [List.map_cons, List.map_nil, List.mem_singleton] at hx1
    subst hx1
    exact hfree hx
  · intro x hx
    rcases List.mem_append.1 hx with hm | hm
    · exact h.2 x hm
    · simp only [List.map_cons, List.map_nil, List.mem_singleton] at hm
      rw [hm]
      exact hpos

/-- Two different members make a list longer than 1. -/
theorem one_lt_length_of_mem_ne {α : Type} (l : List α) (a b : α) (ha : a ∈ l) (hb : b ∈ l)
    (hab : a ≠ b) : 1 < l.length := by
  match l, ha, hb with
  | [x], ha, hb =>
    rw [List.mem_singleton] at ha hb
    exact absurd (ha.trans hb.symm) hab
  | _ :: _ :: _, _, _ => simp

/-- Moving the one matched row of a parent to a position of at least 1 that no
other row of the parent holds keeps the positions distinct and at least 1. -/
theorem positionsDistinct_update {α : Type} (key : α → Int × Int) (m : α → Prop)
    [DecidablePred m] (upd : α → α) (T p : Int) (l : List α) (hp : 1 ≤ p)
    (hupd : ∀ a, m a → key (upd a) = (T, p))
    (hlen : ¬ 1 < (l.filter fun a => m a).length)
    (hfree : ¬ ((∃ a ∈ l, m a) ∧ ∃ b ∈ l, ¬ m b ∧ (key b).1 = T ∧ (key b).2 = p))
    (h : positionsDistinct (l.map key)) :
    positionsDistinct ((l.map fun a => if m a then upd a else a).map key) := by
  rw [List.map_map]
  constructor
  · have h1 := h.1
    unfold List.Nodup at h1 ⊢
    rw [List.pairwise_map] at h1 ⊢
    refine List.Pairwise.imp_of_mem ?_ h1
    intro a b ha hb hab
    simp only [Function.comp]
    by_cases hma : m a <;> by_cases hmb : m b
    · exfalso
      apply hlen
      exact one_lt_length_of_mem_ne _ a b (List.mem_filter.2 ⟨ha, by simpa using hma⟩)
        (List.mem_filter.2 ⟨hb, by simpa using hmb⟩) (fun hE => hab (by rw [hE]))
    · rw [if_pos hma, if_neg hmb, hupd a hma]
      intro hE
      exact hfree ⟨⟨a, ha, hma⟩, b, hb, hmb, by rw [← hE], by rw [← hE]⟩
    · rw [if_neg hma, if_pos hmb, hupd b hmb]
      intro hE
      exact hfree ⟨⟨b, hb, hmb⟩, a, ha, hma, by rw [hE], by rw [hE]⟩
    · rw [if_neg hma, if_neg hmb]
      exact hab
  · intro x hx
    obtain ⟨a, ha, rfl⟩ := List.mem_map.1 hx
    simp only [Function.comp]
    by_cases hma : m a
    · rw [if_pos hma, hupd a hma]
      exact hp
    · rw [if_neg hma]
      exact h.2 _ (List.mem_map_of_mem _ ha)

/-- The value of `MAX` is one of the values. -/
theorem sqlMax_mem (l : List Int) (m : Int) (h : sqlMax l = some m) : m ∈ l := by
  cases l with
  | nil => cases h
  | cons a l =>
    simp only [sqlMax, Option.some.injEq] at h
    subst h
    have key : ∀ (l : List Int) (a : Int), l.foldl max a = a ∨ l.foldl max a ∈ l := by
      intro l
      induction l with
      | nil => intro a; exact Or.inl rfl
      | cons b l ih =>
        intro a
        rw [List.foldl_cons]
        rcases ih (max a b) with h1 | h1
        · rw [h1]
          rcases max_choice a b with h2 | h2
          · exact Or.inl h2
          · exact Or.inr (by rw [h2]; exact List.mem_cons_self _ _)
        · exact Or.inr (List.mem_cons_of_mem _ h1)
    rcases key l a with h1 | h1
    · rw [h1]; exact List.mem_cons_self _ _
    · exact List.mem_cons_of_mem _ h1

/-- The next position after positions of at least 1 is at least 1. -/
theorem one_le_next_position (l : List Int) (pos : Int) (hl : ∀ x ∈ l, 1 ≤ x)
    (hsome : ∀ m, sqlMax l = some m → pos = m + 1) (hnone : sqlMax l = none → pos = 1) :
    1 ≤ pos := by
  cases h : sqlMax l with
  | none => rw [hnone h]
  | some m =>
    rw [hsome m h]
    have := hl m (sqlMax_mem l m h)
    omega

/-- A successful insert into `template_exercises` at a position of at least 1
keeps the positions distinct and at least 1. -/
theorem insertTemplateExercise_positions (T e ts tr pos : Int) (s s1 : Store) (a : Int)
    (hpos : 1 ≤ pos) (h : ∀ l ∈ s.positions, positionsDistinct l)
    (hs : templates.insertTemplateExercise T e ts tr pos s = .ok (a, s1)) :
    ∀ l ∈ s1.positions, positionsDistinct l := by
  rw [positions_forall] at h ⊢
  unfold templates.insertTemplateExercise at hs
  split_ifs at hs with h1 h2 h3
  cases hs
  refine ⟨positionsDistinct_append _ _ _ hpos ?_ h.1, h.2.1, h.2.2.1, h.2.2.2⟩
  intro hmem
  obtain ⟨te, hte, hkey⟩ := List.mem_map.1 hmem
  simp only [Prod.mk.injEq] at hkey
  exact h2 ⟨te, hte, hkey.1, hkey.2⟩

/-- A successful insert into `routine_templates` at a position of at least 1
keeps the positions distinct and at least 1. -/
theorem insertRoutineTemplate_positions (R T pos : Int) (s s1 : Store) (a : Int)
    (hpos : 1 ≤ pos) (h : ∀ l ∈ s.positions, positionsDistinct l)
    (hs : routines.insertRoutineTemplate R T pos s = .ok (a, s1)) :
    ∀ l ∈ s1.positions, positionsDistinct l := by
  rw [positions_forall] at h ⊢
  unfold routines.insertRoutineTemplate at hs
  split_ifs at hs with h1 h2
  cases hs
  refine ⟨h.1, positionsDistinct_append _ _ _ hpos ?_ h.2.1, h.2.2.1, h.2.2.2⟩
  intro hmem
  obtain ⟨rt, hrt, hkey⟩ := List.mem_map.1 hmem
  simp only [Prod.mk.injEq] at hkey
  exact h1 ⟨rt, hrt, hkey.1, hkey.2⟩

/-- A successful insert into `workout_exercises` at a position of at least 1
keeps the positions distinct and at least 1. -/
theorem insertWorkoutExercise_positions (wid eid pos : Int) (s s1 : Store) (a : Int)
    (hpos : 1 ≤ pos) (h : ∀ l ∈ s.positions, positionsDistinct l)
    (hs : insertWorkoutExercise wid eid pos s = .ok (a, s1)) :
    ∀ l ∈ s1.positions, positionsDistinct l := by
  rw [positions_forall] at h ⊢
  unfold insertWorkoutExercise at hs
  split_ifs at hs with h1 h2
  cases hs
  refine ⟨h.1, h.2.1, positionsDistinct_append _ _ _ hpos ?_ h.2.2.1, h.2.2.2⟩
  intro hmem
  obtain ⟨we, hwe, hkey⟩ := List.mem_map.1 hmem
  simp only [Prod.mk.injEq] at hkey
  exact h1 ⟨we, hwe, hkey.1, hkey.2⟩

/-- A successful insert into `logged_sets` at a position of at least 1 keeps
the positions distinct and at least 1. -/
theorem insertLoggedSet_positions (now : Nat) (weid reps : Int) (weight : Weight) (pos : Int)
    (s s1 : Store) (a : Int) (hpos : 1 ≤ pos) (h : ∀ l ∈ s.positions, positionsDistinct l)
    (hs : insertLoggedSet now weid reps weight pos s = .ok (a, s1)) :
    ∀ l ∈ s1.positions, positionsDistinct l := by
  rw [positions_forall] at h ⊢
  unfold insertLoggedSet at hs
  split_ifs at hs with h1 h2 h3
  cases hs
  refine ⟨h.1, h.2.1, h.2.2.1, positionsDistinct_append _ _ _ hpos ?_ h.2.2.2⟩
  intro hmem
  obtain ⟨ls, hls, hkey⟩ := List.mem_map.1 hmem
  simp only [Prod.mk.injEq] at hkey
  exact h2 ⟨ls, hls, hkey.1, hkey.2⟩

/-- A successful position update of `ReorderExercises` to a position of at
least 1 keeps the positions distinct and at least 1. -/
theorem updateExercisePosition_positions (pos id T : Int) (s s1 : Store) (a : Unit)
    (hpos : 1 ≤ pos) (h : ∀ l ∈ s.positions, positionsDistinct l)
    (hs : templates.updateExercisePosition pos id T s = .ok (a, s1)) :
    ∀ l ∈ s1.positions, positionsDistinct l := by
  rw [positions_forall] at h ⊢
  unfold templates.updateExercisePosition at hs
  split_ifs at hs with h1
  cases hs
  rw [not_or] at h1
  refine ⟨positionsDistinct_update (fun te : TemplateExerciseRow => (te.template_id, te.position))
    (fun te => te.id = id ∧ te.template_id = T) (fun te => { te with position := pos }) T pos
    s.template_exercises hpos (fun te hte => by simp only [hte.2]) h1.1 ?_ h.1,
    h.2.1, h.2.2.1, h.2.2.2⟩
  exact h1.2

/-- A successful position update of `ReorderTemplates` to a position of at
least 1 keeps the positions distinct and at least 1. -/
theorem updateTemplatePosition_positions (pos id R : Int) (s s1 : Store) (a : Unit)
    (hpos : 1 ≤ pos) (h : ∀ l ∈ s.positions, positionsDistinct l)
    (hs : routines.updateTemplatePosition pos id R s = .ok (a, s1)) :
    ∀ l ∈ s1.positions, positionsDistinct l := by
  rw [positions_forall] at h ⊢
  unfold routines.updateTemplatePosition at hs
  split_ifs at hs with h1
  cases hs
  rw [not_or] at h1
  refine ⟨h.1, positionsDistinct_update
    (fun rt : RoutineTemplateRow => (rt.routine_id, rt.position))
    (fun rt => rt.id = id ∧ rt.routine_id = R) (fun rt => { rt with position := pos }) R pos
    s.routine_templates hpos (fun rt hrt => by simp only [hrt.2]) h1.1 ?_ h.2.1,
    h.2.2.1, h.2.2.2⟩
  exact h1.2

/-- Every call keeps the positions of the children of every parent distinct
and at least 1. -/
theorem Op.run_positions (op : Op) (db : DB) (h : ∀ l ∈ db.store.positions, positionsDistinct l) :
    ∀ l ∈ (op.run db).store.positions, positionsDistinct l := by
  have h4 := (positions_forall db.store).1 h
  cases op with
  | exercisesCreate now name =>
    refine DB.Exec_inv (fun s => ∀ l ∈ s.positions, positionsDistinct l) db _ h fun a s1 hs => ?_
    unfold exercises.insertExercise at hs
    split_ifs at hs
    cases hs
    exact h
  | exercisesDelete id =>
    refine DB.Exec_inv (fun s => ∀ l ∈ s.positions, positionsDistinct l) db _ h fun a s1 hs => ?_
    unfold exercises.deleteExercise at hs
    split_ifs at hs
    cases hs
    exact h
  | templatesCreate now name =>
    refine DB.Exec_inv (fun s => ∀ l ∈ s.positions, positionsDistinct l) db _ h fun a s1 hs => ?_
    unfold templates.insertTemplate at hs
    cases hs
    exact h
  | templatesUpdate now id name =>
    refine DB.Exec_inv (fun s => ∀ l ∈ s.positions, positionsDistinct l) db _ h fun a s1 hs => ?_
    unfold templates.updateTemplate at hs
    cases hs
    exact h
  | templatesDelete id =>
    refine DB.Exec_inv (fun s => ∀ l ∈ s.positions, positionsDistinct l) db _ h fun a s1 hs => ?_
    unfold templates.deleteTemplate at hs
    split_ifs at hs
    · cases hs
      rw [positions_forall]
      exact ⟨positionsDistinct_filter _ _ _ h4.1, positionsDistinct_filter _ _ _ h4.2.1,
        h4.2.2.1, h4.2.2.2⟩
    · cases hs
      exact h
  | templatesAddExercise now t e ts tr =>
    refine templates_AddExercise_inv (fun s => ∀ l ∈ s.positions, positionsDistinct l) now db
      t e ts tr h (fun pos a s1 hsome hnone hs => ?_) (fun s wt hP => hP)
    refine insertTemplateExercise_positions t e ts tr pos db.store s1 a ?_ h hs
    refine one_le_next_position _ pos (fun x hx => ?_) hsome hnone
    obtain ⟨te, hte, rfl⟩ := List.mem_map.1 hx
    exact h4.1.2 _ (List.mem_map_of_mem (fun te : TemplateExerciseRow =>
      (te.template_id, te.position)) (List.mem_filter.1 hte).1)
  | templatesUpdateExercise id ts tr =>
    refine DB.Exec_inv (fun s => ∀ l ∈ s.positions, positionsDistinct l) db _ h fun a s1 hs => ?_
    split_ifs at hs
    cases hs
    rw [positions_forall]
    refine ⟨positionsDistinct_map _ _ _ (fun te => ?_) h4.1, h4.2.1, h4.2.2.1, h4.2.2.2⟩
    split_ifs <;> rfl
  | templatesRemoveExercise id =>
    refine DB.Exec_inv (fun s => ∀ l ∈ s.positions, positionsDistinct l) db _ h fun a s1 hs => ?_
    unfold templates.deleteTemplateExercise at hs
    cases hs
    rw [positions_forall]
    exact ⟨positionsDistinct_filter _ _ _ h4.1, h4.2.1, h4.2.2.1, h4.2.2.2⟩
  | templatesReorderExercises t ids =>
    exact templates_ReorderExercises_inv (fun s => ∀ l ∈ s.positions, positionsDistinct l) db t
      ids h (fun s pos id a s1 hP hpos hs =>
        updateExercisePosition_positions pos id t s s1 a hpos hP hs)
  | routinesCreate now name =>
    refine DB.Exec_inv (fun s => ∀ l ∈ s.positions, positionsDistinct l) db _ h fun a s1 hs => ?_
    unfold routines.insertRoutine at hs
    cases hs
    exact h
  | routinesUpdate now id name =>
    refine DB.Exec_inv (fun s => ∀ l ∈ s.positions, positionsDistinct l) db _ h fun a s1 hs => ?_
    unfold routines.updateRoutine at hs
    cases hs
    exact h
  | routinesDelete id =>
    refine DB.Exec_inv (fun s => ∀ l ∈ s.positions, positionsDistinct l) db _ h fun a s1 hs => ?_
    unfold routines.deleteRoutine at hs
    split_ifs at hs
    · cases hs
      rw [positions_forall]
      exact ⟨h4.1, positionsDistinct_filter _ _ _ h4.2.1, h4.2.2.1, h4.2.2.2⟩
    · cases hs
      exact h
  | routinesAddTemplate now r t =>
    refine routines_AddTemplate_inv (fun s => ∀ l ∈ s.positions, positionsDistinct l) now db
      r t h (fun pos a s1 hsome hnone hs => ?_) (fun s rs hP => hP)
    refine insertRoutineTemplate_positions r t pos db.store s1 a ?_ h hs
    refine one_le_next_position _ pos (fun x hx => ?_) hsome hnone
    obtain ⟨rt, hrt, rfl⟩ := List.mem_map.1 hx
    exact h4.2.1.2 _ (List.mem_map_of_mem (fun rt : RoutineTemplateRow =>
      (rt.routine_id, rt.position)) (List.mem_filter.1 hrt).1)
  | routinesRemoveTemplate id =>
    refine DB.Exec_inv (fun s => ∀ l ∈ s.positions, positionsDistinct l) db _ h fun a s1 hs => ?_
    unfold routines.deleteRoutineTemplate at hs
    cases hs
    rw [positions_forall]
    exact ⟨h4.1, positionsDistinct_filter _ _ _ h4.2.1, h4.2.2.1, h4.2.2.2⟩
  | routinesReorderTemplates r ids =>
    exact routines_ReorderTemplates_inv (fun s => ∀ l ∈ s.positions, positionsDistinct l) db r
      ids h (fun s pos id a s1 hP hpos hs =>
        updateTemplatePosition_positions pos id r s s1 a hpos hP hs)
  | workoutsCreate now name date t =>
    refine DB.Exec_inv (fun s => ∀ l ∈ s.positions, positionsDistinct l) db _ h fun a s1 hs => ?_
    unfold insertWorkout at hs
    split_ifs at hs
    cases hs
    exact h
  | workoutsCreateFromTemplate now name date t =>
    refine CreateFromTemplate_inv (fun s => ∀ l ∈ s.positions, positionsDistinct l) now db name
      date t h (fun a s1 hs => ?_) (fun s te wid a s1 hP hte hs => ?_)
    · unfold insertWorkout at hs
      split_ifs at hs
      cases hs
      exact h
    · refine insertWorkoutExercise_positions wid te.exercise_id te.position s s1 a ?_ hP hs
      exact ((positions_forall s).1 hP).1.2 _ (List.mem_map_of_mem
        (fun te : TemplateExerciseRow => (te.template_id, te.position)) hte)
  | workoutsUpdate id name date notes =>
    refine DB.Exec_inv (fun s => ∀ l ∈ s.positions, positionsDistinct l) db _ h fun a s1 hs => ?_
    cases hs
    exact h
  | workoutsFinish now id =>
    refine DB.Exec_inv (fun s => ∀ l ∈ s.positions, positionsDistinct l) db _ h fun a s1 hs => ?_
    cases hs
    exact h
  | workoutsDelete id =>
    refine DB.Exec_inv (fun s => ∀ l ∈ s.positions, positionsDistinct l) db _ h fun a s1 hs => ?_
    unfold deleteWorkout at hs
    split_ifs at hs
    · cases hs
      rw [positions_forall]
      exact ⟨h4.1, h4.2.1, positionsDistinct_filter _ _ _ h4.2.2.1,
        positionsDistinct_filter _ _ _ h4.2.2.2⟩
    · cases hs
      exact h
  | workoutsAddExercise w e =>
    refine AddExercise_inv (fun s => ∀ l ∈ s.positions, positionsDistinct l) db w e h
      (fun pos a s1 hsome hnone hs => ?_)
    refine insertWorkoutExercise_positions w e pos db.store s1 a ?_ h hs
    refine one_le_next_position _ pos (fun x hx => ?_) hsome hnone
    obtain ⟨we, hwe, rfl⟩ := List.mem_map.1 hx
    exact h4.2.2.1.2 _ (List.mem_map_of_mem (fun we : WorkoutExerciseRow =>
      (we.workout_id, we.position)) (List.mem_filter.1 hwe).1)
  | workoutsRemoveExercise id =>
    refine DB.Exec_inv (fun s => ∀ l ∈ s.positions, positionsDistinct l) db _ h fun a s1 hs => ?_
    cases hs
    rw [positions_forall]
    refine ⟨h4.1, h4.2.1, positionsDistinct_filter _ _ _ h4.2.2.1, ?_⟩
    show positionsDistinct ((if _ then _ else _ : List LoggedSet).map _)
    split_ifs
    · exact positionsDistinct_filter _ _ _ h4.2.2.2
    · exact h4.2.2.2
  | workoutsAddSet now we reps weight =>
    refine AddSet_inv (fun s => ∀ l ∈ s.positions, positionsDistinct l) now db we reps weight h
      (fun pos a s1 hsome hnone hs => ?_)
    refine insertLoggedSet_positions now we reps weight pos db.store s1 a ?_ h hs
    refine one_le_next_position _ pos (fun x hx => ?_) hsome hnone
    obtain ⟨ls, hls, rfl⟩ := List.mem_map.1 hx
    exact h4.2.2.2.2 _ (List.mem_map_of_mem (fun ls : LoggedSet =>
      (ls.workout_exercise_id, ls.position)) (List.mem_filter.1 hls).1)
  | workoutsUpdateSet id reps weight =>
    refine DB.Exec_inv (fun s => ∀ l ∈ s.positions, positionsDistinct l) db _ h fun a s1 hs => ?_
    split_ifs at hs
    cases hs
    rw [positions_forall]
    refine ⟨h4.1, h4.2.1, h4.2.2.1, positionsDistinct_map _ _ _ (fun ls => ?_) h4.2.2.2⟩
    split_ifs <;> rfl
  | workoutsDeleteSet id =>
    refine DB.Exec_inv (fun s => ∀ l ∈ s.positions, positionsDistinct l) db _ h fun a s1 hs => ?_
    cases hs
    rw [positions_forall]
    exact ⟨h4.1, h4.2.1, h4.2.2.1, positionsDistinct_filter _ _ _ h4.2.2.2⟩

/-- Calls after calls: what is reached from a reached store is reached. -/
theorem reachableFrom_trans (s t u : Store) (h1 : ReachableFrom s t) (h2 : ReachableFrom t u) :
    ReachableFrom s u := by
  induction h2 with
  | refl => exact h1
  | step v faults op _ ih => exact ReachableFrom.step v faults op ih

/-- The sample store with the gap is reached from the empty store. -/
theorem reachable_squatsGap : Reachable Sample.squatsGap :=
  reachableFrom_trans _ _ _
    (reachableFrom_trans _ _ _ (reachableFrom_after Store.empty _)
      (reachableFrom_after Sample.session _))
    (reachableFrom_after Sample.squats _)

/-- C15 as stated fails: the store reached by three `AddSet` calls and the
`DeleteSet` of the second set holds the two sets of workout exercise 1 at the
positions 1 and 3, which are not the positions 1, 2; the positions are still
distinct and at least 1. -/
theorem positions_gap_after_DeleteSet :
    Reachable Sample.squatsGap ∧
    Sample.squatsGap.logged_sets.map (fun ls => (ls.workout_exercise_id, ls.position)) =
      [(1, 1), (1, 3)] ∧
    ¬ (∀ l ∈ Sample.squatsGap.positions, positionsDense l) ∧
    ∀ l ∈ Sample.squatsGap.positions, positionsDistinct l :=
  ⟨reachable_squatsGap, by decide, by decide, by decide⟩

/-- C15, amended: in every store reached from the empty store by the
operations, on connections that may fail, the positions of the children of
each parent (template exercises of a template, routine templates of a routine,
workout exercises of a workout, logged sets of a workout exercise) are at
least 1 and no two children of a parent share a position. -/
theorem positions_distinct_of_reachable (s : Store) (h : Reachable s) :
    ∀ l ∈ s.positions, positionsDistinct l := by
  induction h with
  | refl => decide
  | step t faults op _ ih => exact Op.run_positions op ⟨t, faults⟩ ih

/-- Witness of the amended C15: the store with the gap. -/
theorem positions_distinct_of_reachable_witness :
    Reachable Sample.squatsGap ∧ ∀ l ∈ Sample.squatsGap.positions, positionsDistinct l :=
  ⟨reachable_squatsGap, positions_distinct_of_reachable Sample.squatsGap reachable_squatsGap⟩

/-! ## C21: updating a workout in progress -/

/-- On a connection whose statement runs, `Update` returns no error and
rewrites the rows of `workouts` one by one. -/
theorem Update_store (db : DB) (id : Int) (name : String) (date : Nat) (notes : String)
    (hf : db.fails = false) :
    Update db id name date notes =
      (.ok (), ⟨{ db.store with
        workouts := db.store.workouts.map fun w =>
          if w.id = id ∧ w.status = WorkoutStatus.in_progress then
            { w with name := name, date := date, notes := some notes }
          else w }, db.faults.tail⟩) := by
  unfold Update DB.Exec
  simp only [hf, if_false, Bool.false_eq_true]

/-- C21: on a store with keyed workouts and a connection whose statement runs,
`Update` of a workout in progress returns no error, sets name, date and notes
of its row and nothing else of it, and leaves every other row of `workouts`,
the order of the rows, and every other table and counter as they were. -/
theorem Update_in_progress (db : DB) (id : Int) (name : String) (date : Nat) (notes : String)
    (w : WorkoutRow) (hf : db.fails = false) (hpk : pkWorkouts db.store)
    (hw : w ∈ db.store.workouts) (hid : w.id = id)
    (hst : w.status = WorkoutStatus.in_progress) :
    (Update db id name date notes).1 = .ok () ∧
    (Update db id name date notes).2.store =
      { db.store with workouts := (Update db id name date notes).2.store.workouts } ∧
    (Update db id name date notes).2.store.workouts.map (fun x => x.id) =
      db.store.workouts.map (fun x => x.id) ∧
    (Update db id name date notes).2.store.workouts.filter (fun x => x.id = id) =
      [{ w with name := name, date := date, notes := some notes }] ∧
    (Update db id name date notes).2.store.workouts.filter (fun x => x.id ≠ id) =
      db.store.workouts.filter (fun x => x.id ≠ id) := by
  rw [Update_store db id name date notes hf]
  refine ⟨rfl, rfl, ?_, ?_, ?_⟩
  · simp only [List.map_map]
    apply List.map_congr_left
    intro x _
    simp only [Function.comp]
    split_ifs <;> rfl
  · simp only
    rw [List.filter_map]
    have h1 : db.store.workouts.filter
        ((fun x : WorkoutRow => decide (x.id = id)) ∘ fun w =>
          if w.id = id ∧ w.status = WorkoutStatus.in_progress then
            { w with name := name, date := date, notes := some notes }
          else w) = [w] := by
      rw [← filter_key_eq_singleton (fun x : WorkoutRow => x.id) _ hpk w hw, hid]
      apply List.filter_congr
      intro x _
      simp only [Function.comp]
      split_ifs <;> rfl
    rw [h1, List.map_cons, List.map_nil, if_pos ⟨hid, hst⟩]
  · simp only
    rw [List.filter_map]
    have h1 : db.store.workouts.filter
        ((fun x : WorkoutRow => decide (x.id ≠ id)) ∘ fun w =>
          if w.id = id ∧ w.status = WorkoutStatus.in_progress then
            { w with name := name, date := date, notes := some notes }
          else w) = db.store.workouts.filter (fun x => x.id ≠ id) := by
      apply List.filter_congr
      intro x _
      simp only [Function.comp]
      split_ifs <;> rfl
    rw [h1]
    conv_rhs => rw [← List.map_id (db.store.workouts.filter fun x => x.id ≠ id)]
    apply List.map_congr_left
    intro x hx
    have hne : x.id ≠ id := by simpa using (List.mem_filter.1 hx).2
    rw [if_neg (fun h => hne h.1)]
    rfl

/-- Witness of C21: the workout 2 of the sample store is in progress. -/
theorem Update_in_progress_witness :
    (DB.healthy Sample.gym).fails = false ∧ pkWorkouts (DB.healthy Sample.gym).store ∧
    (⟨2, "Workout 2", 17, none, WorkoutStatus.in_progress, some 1, 20, none⟩ : WorkoutRow) ∈
      (DB.healthy Sample.gym).store.workouts ∧
    (Update (DB.healthy Sample.gym) 2 "New Name" 20 "Some notes").1 = .ok () ∧
    (Update (DB.healthy Sample.gym) 2 "New Name" 20 "Some notes").2.store =
      { (DB.healthy Sample.gym).store with
        workouts := (Update (DB.healthy Sample.gym) 2 "New Name" 20 "Some notes").2.store.workouts } ∧
    (Update (DB.healthy Sample.gym) 2 "New Name" 20 "Some notes").2.store.workouts.map
        (fun x => x.id) = (DB.healthy Sample.gym).store.workouts.map (fun x => x.id) ∧
    (Update (DB.healthy Sample.gym) 2 "New Name" 20 "Some notes").2.store.workouts.filter
        (fun x => x.id = 2) =
      [⟨2, "New Name", 20, some "Some notes", WorkoutStatus.in_progress, some 1, 20, none⟩] ∧
    (Update (DB.healthy Sample.gym) 2 "New Name" 20 "Some notes").2.store.workouts.filter
        (fun x => x.id ≠ 2) = (DB.healthy Sample.gym).store.workouts.filter (fun x => x.id ≠ 2) :=
  ⟨rfl, by decide, by decide,
    Update_in_progress (DB.healthy Sample.gym) 2 "New Name" 20 "Some notes"
      ⟨2, "Workout 2", 17, none, WorkoutStatus.in_progress, some 1, 20, none⟩ rfl (by decide)
      (by decide) rfl rfl⟩

/-! ## C22: deleting a workout -/

/-- On a connection whose statement runs, `Delete` of an existing workout
returns no error and removes its row, its exercise rows and their sets. -/
theorem Delete_store (db : DB) (id : Int) (hf : db.fails = false)
    (hex : id ∈ db.store.workouts.map fun w => w.id) :
    Delete db id =
      (.ok (), ⟨{ db.store with
        workouts := db.store.workouts.filter fun w => w.id ≠ id
        workout_exercises := db.store.workout_exercises.filter fun we => we.workout_id ≠ id
        logged_sets := db.store.logged_sets.filter fun ls =>
          ¬ ∃ we ∈ db.store.workout_exercises,
            we.workout_id = id ∧ ls.workout_exercise_id = we.id }, db.faults.tail⟩) := by
  obtain ⟨w, hw, hwid⟩ := List.mem_map.1 hex
  unfold Delete DB.Exec deleteWorkout
  simp only [hf, if_false, Bool.false_eq_true]
  rw [if_pos ⟨w, hw, hwid⟩]

/-- C22: on a store with keyed workout exercises and a connection whose
statement runs, `Delete` of an existing workout returns no error; afterwards
`GetByID` of the id returns no workout and no error, no exercise row of the
workout and no set of such a row is left, and every other workout row, every
exercise row of another workout and every set of such a row are there as
before, in the same order; the other tables are as they were. -/
theorem Delete_cascades (db : DB) (id : Int) (hf : db.fails = false)
    (hpk : pkWorkoutExercises db.store) (hex : id ∈ db.store.workouts.map fun w => w.id) :
    (Delete db id).1 = .ok () ∧
    GetByID (DB.healthy (Delete db id).2.store) id =
      (.ok none, DB.healthy (Delete db id).2.store) ∧
    (∀ we ∈ (Delete db id).2.store.workout_exercises, we.workout_id ≠ id) ∧
    (∀ ls ∈ (Delete db id).2.store.logged_sets, ∀ we ∈ db.store.workout_exercises,
      we.workout_id = id → ls.workout_exercise_id ≠ we.id) ∧
    (Delete db id).2.store.workouts = db.store.workouts.filter (fun w => w.id ≠ id) ∧
    (Delete db id).2.store.workout_exercises =
      db.store.workout_exercises.filter (fun we => we.workout_id ≠ id) ∧
    (∀ we ∈ db.store.workout_exercises, we.workout_id ≠ id →
      (Delete db id).2.store.logged_sets.filter (fun ls => ls.workout_exercise_id = we.id) =
        db.store.logged_sets.filter (fun ls => ls.workout_exercise_id = we.id)) ∧
    (Delete db id).2.store.exercises = db.store.exercises ∧
    (Delete db id).2.store.workout_templates = db.store.workout_templates ∧
    (Delete db id).2.store.template_exercises = db.store.template_exercises ∧
    (Delete db id).2.store.routines = db.store.routines ∧
    (Delete db id).2.store.routine_templates = db.store.routine_templates := by
  rw [Delete_store db id hf hex]
  refine ⟨rfl, ?_, ?_, ?_, rfl, rfl, ?_, rfl, rfl, rfl, rfl, rfl⟩
  · apply GetByID_healthy_none
    simp only
    rw [List.filter_filter, List.filter_eq_nil_iff]
    intro w _
    simp
  · intro we hwe
    simpa using (List.mem_filter.1 hwe).2
  · intro ls hls we hwe hwid heq
    have := (List.mem_filter.1 hls).2
    simp only [decide_eq_true_eq] at this
    exact this ⟨we, hwe, hwid, heq⟩
  · intro we hwe hne
    simp only
    rw [List.filter_filter]
    apply List.filter_congr
    intro ls _
    rw [Bool.eq_iff_iff]
    simp only [Bool.and_eq_true, decide_eq_true_eq]
    refine ⟨fun hh => hh.1, fun h => ⟨h, ?_⟩⟩
    rintro ⟨we1, hwe1, hid1, heq1⟩
    have : we1 = we := List.inj_on_of_nodup_map hpk hwe1 hwe (heq1.symm.trans h)
    rw [this] at hid1
    exact hne hid1

/-- Witness of C22: deleting the finished workout 1 of the sample store, with
its exercise row 1 and its two sets, leaves the workout 2 and its row. -/
theorem Delete_cascades_witness :
    (DB.healthy Sample.gym).fails = false ∧ pkWorkoutExercises (DB.healthy Sample.gym).store ∧
    (1 : Int) ∈ (DB.healthy Sample.gym).store.workouts.map (fun w => w.id) ∧
    (Delete (DB.healthy Sample.gym) 1).2.store.workouts.map (fun w => w.id) = [2] ∧
    (Delete (DB.healthy Sample.gym) 1).2.store.logged_sets = [] ∧
    ((Delete (DB.healthy Sample.gym) 1).1 = .ok () ∧
    GetByID (DB.healthy (Delete (DB.healthy Sample.gym) 1).2.store) 1 =
      (.ok none, DB.healthy (Delete (DB.healthy Sample.gym) 1).2.store) ∧
    (∀ we ∈ (Delete (DB.healthy Sample.gym) 1).2.store.workout_exercises, we.workout_id ≠ 1) ∧
    (∀ ls ∈ (Delete (DB.healthy Sample.gym) 1).2.store.logged_sets,
      ∀ we ∈ (DB.healthy Sample.gym).store.workout_exercises,
        we.workout_id = 1 → ls.workout_exercise_id ≠ we.id) ∧
    (Delete (DB.healthy Sample.gym) 1).2.store.workouts =
      (DB.healthy Sample.gym).store.workouts.filter (fun w => w.id ≠ 1) ∧
    (Delete (DB.healthy Sample.gym) 1).2.store.workout_exercises =
      (DB.healthy Sample.gym).store.workout_exercises.filter (fun we => we.workout_id ≠ 1) ∧
    (∀ we ∈ (DB.healthy Sample.gym).store.workout_exercises, we.workout_id ≠ 1 →
      (Delete (DB.healthy Sample.gym) 1).2.store.logged_sets.filter
          (fun ls => ls.workout_exercise_id = we.id) =
        (DB.healthy Sample.gym).store.logged_sets.filter
          (fun ls => ls.workout_exercise_id = we.id)) ∧
    (Delete (DB.healthy Sample.gym) 1).2.store.exercises =
      (DB.healthy Sample.gym).store.exercises ∧
    (Delete (DB.healthy Sample.gym) 1).2.store.workout_templates =
      (DB.healthy Sample.gym).store.workout_templates ∧
    (Delete (DB.healthy Sample.gym) 1).2.store.template_exercises =
      (DB.healthy Sample.gym).store.template_exercises ∧
    (Delete (DB.healthy Sample.gym) 1).2.store.routines =
      (DB.healthy Sample.gym).store.routines ∧
    (Delete (DB.healthy Sample.gym) 1).2.store.routine_templates =
      (DB.healthy Sample.gym).store.routine_templates) :=
  ⟨rfl, by decide, by decide, by decide, by decide,
    Delete_cascades (DB.healthy Sample.gym) 1 rfl (by decide) (by decide)⟩

/-! ## C23: deleting a referenced exercise -/

/-- C23: `exercises.Delete` of an exercise that a template exercise row
references returns an error and leaves the store as it was, so the exercise
row and every row that references it are still there; on a connection whose
statement runs the error is the foreign key failure. -/
theorem Delete_referenced_exercise (db : DB) (id : Int)
    (he : id ∈ db.store.exercises.map fun e => e.id)
    (hte : ∃ te ∈ db.store.template_exercises, te.exercise_id = id) :
    (∃ e, (exercises.Delete db id).1 = .error e) ∧
    (exercises.Delete db id).2.store = db.store ∧
    (db.fails = false → (exercises.Delete db id).1 = .error DbErr.foreign_key) := by
  obtain ⟨e, hemem, heid⟩ := List.mem_map.1 he
  unfold exercises.Delete DB.Exec exercises.deleteExercise
  rw [if_pos (⟨⟨e, hemem, heid⟩, Or.inl hte⟩ :
    (∃ e ∈ db.store.exercises, e.id = id) ∧
      ((∃ te ∈ db.store.template_exercises, te.exercise_id = id) ∨
        ∃ we ∈ db.store.workout_exercises, we.exercise_id = id))]
  cases hf : db.fails with
  | true => exact ⟨⟨_, rfl⟩, rfl, fun h => by cases h⟩
  | false => exact ⟨⟨_, rfl⟩, rfl, fun _ => rfl⟩

/-- Witness of C23: the exercise 1 of the sample store is in the template 1. -/
theorem Delete_referenced_exercise_witness :
    (1 : Int) ∈ (DB.healthy Sample.gym).store.exercises.map (fun e => e.id) ∧
    (∃ te ∈ (DB.healthy Sample.gym).store.template_exercises, te.exercise_id = 1) ∧
    (exercises.Delete (DB.healthy Sample.gym) 1).1 = .error DbErr.foreign_key ∧
    (∃ e, (exercises.Delete (DB.healthy Sample.gym) 1).1 = .error e) ∧
    (exercises.Delete (DB.healthy Sample.gym) 1).2.store = (DB.healthy Sample.gym).store ∧
    ((DB.healthy Sample.gym).fails = false →
      (exercises.Delete (DB.healthy Sample.gym) 1).1 = .error DbErr.foreign_key) :=
  ⟨by decide, by decide, by decide,
    Delete_referenced_exercise (DB.healthy Sample.gym) 1 (by decide) (by decide)⟩

/-! ## C24: deleting a template -/

/-- On a connection whose statement runs, `templates.Delete` of an existing
template returns no error and applies the cascades of the schema. -/
theorem templates_Delete_store (db : DB) (T : Int) (hf : db.fails = false)
    (hT : T ∈ db.store.workout_templates.map fun t => t.id) :
    templates.Delete db T =
      (.ok (), ⟨{ db.store with
        workout_templates := db.store.workout_templates.filter fun t => t.id ≠ T
        template_exercises := db.store.template_exercises.filter fun te => te.template_id ≠ T
        routine_templates := db.store.routine_templates.filter fun rt => rt.template_id ≠ T
        workouts := db.store.workouts.map fun w =>
          if w.template_id = some T then { w with template_id := none } else w },
        db.faults.tail⟩) := by
  obtain ⟨t, ht, htid⟩ := List.mem_map.1 hT
  unfold templates.Delete DB.Exec templates.deleteTemplate
  simp only [hf, if_false, Bool.false_eq_true]
  rw [if_pos ⟨t, ht, htid⟩]

/-- C24: on a connection whose statement runs, `templates.Delete` of an
existing template `T` returns no error, leaves no template exercise row of `T`
and keeps those of the other templates, leaves `exercises`,
`workout_exercises` and `logged_sets` as they were, and keeps every workout:
the rows of `workouts` are the same in the same order, except that
`template_id` is null where it was `T`. -/
theorem templates_Delete_effects (db : DB) (T : Int) (hf : db.fails = false)
    (hT : T ∈ db.store.workout_templates.map fun t => t.id) :
    (templates.Delete db T).1 = .ok () ∧
    (∀ te ∈ (templates.Delete db T).2.store.template_exercises, te.template_id ≠ T) ∧
    (templates.Delete db T).2.store.template_exercises =
      db.store.template_exercises.filter (fun te => te.template_id ≠ T) ∧
    (templates.Delete db T).2.store.exercises = db.store.exercises ∧
    (templates.Delete db T).2.store.workout_exercises = db.store.workout_exercises ∧
    (templates.Delete db T).2.store.logged_sets = db.store.logged_sets ∧
    (templates.Delete db T).2.store.workouts.map (fun w => w.id) =
      db.store.workouts.map (fun w => w.id) ∧
    (∀ w ∈ db.store.workouts, w.template_id = some T →
      { w with template_id := none } ∈ (templates.Delete db T).2.store.workouts) ∧
    (∀ w ∈ db.store.workouts, w.template_id ≠ some T →
      w ∈ (templates.Delete db T).2.store.workouts) ∧
    (∀ w1 ∈ (templates.Delete db T).2.store.workouts, w1.template_id ≠ some T ∧
      ∃ w ∈ db.store.workouts, w1 = { w with template_id := w1.template_id }) := by
  rw [templates_Delete_store db T hf hT]
  refine ⟨rfl, ?_, rfl, rfl, rfl, rfl, ?_, ?_, ?_, ?_⟩
  · intro te hte
    simpa using (List.mem_filter.1 hte).2
  · simp only [List.map_map]
    apply List.map_congr_left
    intro w _
    simp only [Function.comp]
    split_ifs <;> rfl
  · intro w hw hwt
    exact List.mem_map.2 ⟨w, hw, by rw [if_pos hwt]⟩
  · intro w hw hwt
    exact List.mem_map.2 ⟨w, hw, by rw [if_neg hwt]⟩
  · intro w1 hw1
    obtain ⟨w, hw, rfl⟩ := List.mem_map.1 hw1
    by_cases hwt : w.template_id = some T
    · rw [if_pos hwt]
      exact ⟨(fun h => by cases h), w, hw, rfl⟩
    · rw [if_neg hwt]
      exact ⟨hwt, w, hw, rfl⟩

/-- Witness of C24: deleting the template 1 of the sample store, from which the
workout 2 was made. -/
theorem templates_Delete_effects_witness :
    (DB.healthy Sample.gym).fails = false ∧
    (1 : Int) ∈ (DB.healthy Sample.gym).store.workout_templates.map (fun t => t.id) ∧
    (templates.Delete (DB.healthy Sample.gym) 1).2.store.template_exercises = [] ∧
    (templates.Delete (DB.healthy Sample.gym) 1).2.store.workouts =
      [⟨1, "Workout 1", 10, none, WorkoutStatus.finished, none, 5, some 9⟩,
        ⟨2, "Workout 2", 17, none, WorkoutStatus.in_progress, none, 20, none⟩] ∧
    ((templates.Delete (DB.healthy Sample.gym) 1).1 = .ok () ∧
    (∀ te ∈ (templates.Delete (DB.healthy Sample.gym) 1).2.store.template_exercises,
      te.template_id ≠ 1) ∧
    (templates.Delete (DB.healthy Sample.gym) 1).2.store.template_exercises =
      (DB.healthy Sample.gym).store.template_exercises.filter (fun te => te.template_id ≠ 1) ∧
    (templates.Delete (DB.healthy Sample.gym) 1).2.store.exercises =
      (DB.healthy Sample.gym).store.exercises ∧
    (templates.Delete (DB.healthy Sample.gym) 1).2.store.workout_exercises =
      (DB.healthy Sample.gym).store.workout_exercises ∧
    (templates.Delete (DB.healthy Sample.gym) 1).2.store.logged_sets =
      (DB.healthy Sample.gym).store.logged_sets ∧
    (templates.Delete (DB.healthy Sample.gym) 1).2.store.workouts.map (fun w => w.id) =
      (DB.healthy Sample.gym).store.workouts.map (fun w => w.id) ∧
    (∀ w ∈ (DB.healthy Sample.gym).store.workouts, w.template_id = some 1 →
      { w with template_id := none } ∈
        (templates.Delete (DB.healthy Sample.gym) 1).2.store.workouts) ∧
    (∀ w ∈ (DB.healthy Sample.gym).store.workouts, w.template_id ≠ some 1 →
      w ∈ (templates.Delete (DB.healthy Sample.gym) 1).2.store.workouts) ∧
    (∀ w1 ∈ (templates.Delete (DB.healthy Sample.gym) 1).2.store.workouts,
      w1.template_id ≠ some 1 ∧
      ∃ w ∈ (DB.healthy Sample.gym).store.workouts,
        w1 = { w with template_id := w1.template_id })) :=
  ⟨rfl, by decide, by decide, by decide,
    templates_Delete_effects (DB.healthy Sample.gym) 1 rfl (by decide)⟩

/-! ## C26: targets below 1 -/

/-- C26: with `targetSets < 1` or `targetReps < 1`, `templates.AddExercise`
returns an error on every connection and leaves the store as it was, so no row
is inserted and no `updated_at` is written; and `HandleAddExercise` answers such
a request with status 400 and hands the connection back untouched, without a
statement run on it. -/
theorem AddExercise_rejects_low_targets (now : Nat) (db : DB) (T e ts tr : Int)
    (h : ts < 1 ∨ tr < 1) :
    (∃ err, (templates.AddExercise now db T e ts tr).1 = .error err) ∧
    (templates.AddExercise now db T e ts tr).2.store = db.store ∧
    (db.fails = false → db.step.fails = false →
      (templates.AddExercise now db T e ts tr).1 = .error DbErr.check) ∧
    ∀ id exercise_id : Option Int,
      (templates.HandleAddExercise now db id exercise_id (some ts) (some tr)).1.status = 400 ∧
      (templates.HandleAddExercise now db id exercise_id (some ts) (some tr)).2 = db := by
  have hcheck : ts ≤ 0 ∨ tr ≤ 0 := by omega
  refine ⟨?_, ?_, ?_, ?_⟩
  · unfold templates.AddExercise DB.QueryRow
    cases hf : db.fails with
    | true => exact ⟨_, rfl⟩
    | false =>
      simp only [if_false, Bool.false_eq_true]
      unfold DB.Exec templates.insertTemplateExercise
      rw [if_pos hcheck]
      cases db.step.fails with
      | true => exact ⟨_, rfl⟩
      | false => exact ⟨_, rfl⟩
  · unfold templates.AddExercise DB.QueryRow
    cases hf : db.fails with
    | true => rfl
    | false =>
      simp only [if_false, Bool.false_eq_true]
      unfold DB.Exec templates.insertTemplateExercise
      rw [if_pos hcheck]
      cases db.step.fails with
      | true => rfl
      | false => rfl
  · intro hf hf2
    unfold templates.AddExercise DB.QueryRow
    simp only [hf, if_false, Bool.false_eq_true]
    unfold DB.Exec templates.insertTemplateExercise
    rw [if_pos hcheck]
    simp only [hf2, if_false, Bool.false_eq_true]
  · intro id exercise_id
    unfold templates.HandleAddExercise
    cases id with
    | none => exact ⟨rfl, rfl⟩
    | some templateID =>
      cases exercise_id with
      | none => exact ⟨rfl, rfl⟩
      | some exerciseID =>
        simp only
        by_cases h1 : ts < 1
        · rw [if_pos h1]
          exact ⟨rfl, rfl⟩
        · rw [if_neg h1, if_pos (h.resolve_left h1)]
          exact ⟨rfl, rfl⟩

/-- Witness of C26: zero sets on the sample template. -/
theorem AddExercise_rejects_low_targets_witness :
    ((0 : Int) < 1 ∨ (5 : Int) < 1) ∧
    (templates.AddExercise 3 (DB.healthy Sample.catalog) 1 1 0 5).1 = .error DbErr.check ∧
    (templates.HandleAddExercise 3 (DB.healthy Sample.catalog) (some 1) (some 1) (some 0)
      (some 5)).1 = ⟨400, .text "Invalid target sets"⟩ ∧
    ((∃ err, (templates.AddExercise 3 (DB.healthy Sample.catalog) 1 1 0 5).1 = .error err) ∧
    (templates.AddExercise 3 (DB.healthy Sample.catalog) 1 1 0 5).2.store =
      (DB.healthy Sample.catalog).store ∧
    ((DB.healthy Sample.catalog).fails = false → (DB.healthy Sample.catalog).step.fails = false →
      (templates.AddExercise 3 (DB.healthy Sample.catalog) 1 1 0 5).1 = .error DbErr.check) ∧
    ∀ id exercise_id : Option Int,
      (templates.HandleAddExercise 3 (DB.healthy Sample.catalog) id exercise_id (some 0)
        (some 5)).1.status = 400 ∧
      (templates.HandleAddExercise 3 (DB.healthy Sample.catalog) id exercise_id (some 0)
        (some 5)).2 = DB.healthy Sample.catalog) :=
  ⟨by decide, by decide, by decide,
    AddExercise_rejects_low_targets 3 (DB.healthy Sample.catalog) 1 1 0 5 (by decide)⟩

/-! ## C27: a failed query of the last weight -/

/-- C27, evaluated: when the driver fails the query of `GetLastWeight`, the
call returns no weight and no error, on every store; on the sample store the
healthy call returns the weight 235, the failed call returns `nil, nil`, and
`getLastWeightsBatch` with the same failure returns the error. -/
theorem GetLastWeight_swallows_error (db : DB) (E X : Int) (hf : db.fails = true) :
    GetLastWeight db E X = (.ok none, db.step) ∧
    (GetLastWeight (DB.healthy Sample.gym) 1 2).1 = .ok (some 235) ∧
    (GetLastWeight ⟨Sample.gym, [true]⟩ 1 2).1 = .ok none ∧
    (getLastWeightsBatch ⟨Sample.gym, [true]⟩ [1] 2).1 = .error DbErr.driver := by
  refine ⟨?_, by decide, by decide, by decide⟩
  unfold GetLastWeight DB.QueryRow
  simp only [hf, if_true]
  rfl

/-- Witness of C27: the connection to the sample store whose next statement
fails. -/
theorem GetLastWeight_swallows_error_witness :
    (⟨Sample.gym, [true]⟩ : DB).fails = true ∧
    (GetLastWeight ⟨Sample.gym, [true]⟩ 1 2 = (.ok none, (⟨Sample.gym, [true]⟩ : DB).step) ∧
    (GetLastWeight (DB.healthy Sample.gym) 1 2).1 = .ok (some 235) ∧
    (GetLastWeight ⟨Sample.gym, [true]⟩ 1 2).1 = .ok none ∧
    (getLastWeightsBatch ⟨Sample.gym, [true]⟩ [1] 2).1 = .error DbErr.driver) :=
  ⟨rfl, GetLastWeight_swallows_error ⟨Sample.gym, [true]⟩ 1 2 rfl⟩

/-! ## C28: the position of an append -/

/-- The value of `MAX` is at least every value. -/
theorem le_sqlMax (l : List Int) (m : Int) (h : sqlMax l = some m) : ∀ x ∈ l, x ≤ m := by
  cases l with
  | nil => cases h
  | cons a l =>
    simp only [sqlMax, Option.some.injEq] at h
    subst h
    intro x hx
    rcases List.mem_cons.1 hx with rfl | hx1
    · exact (le_foldl_max l x).1
    · exact (le_foldl_max l a).2 x hx1

/-- The position that an append computes from `MAX(position)`: 1 over no rows,
else the greatest position plus 1, in both cases above every position. -/
theorem next_position_spec (l : List Int) (pos : Int)
    (hsome : ∀ m, sqlMax l = some m → pos = m + 1) (hnone : sqlMax l = none → pos = 1) :
    ((l = [] ∧ pos = 1) ∨ ∃ m ∈ l, (∀ x ∈ l, x ≤ m) ∧ pos = m + 1) ∧ ∀ x ∈ l, x < pos := by
  cases h : sqlMax l with
  | none =>
    have hl : l = [] := by
      cases l with
      | nil => rfl
      | cons a t => simp [sqlMax] at h
    subst hl
    exact ⟨Or.inl ⟨rfl, hnone h⟩, fun x hx => absurd hx (List.not_mem_nil _)⟩
  | some m =>
    have hle := le_sqlMax l m h
    refine ⟨Or.inr ⟨m, sqlMax_mem l m h, hle, hsome m h⟩, fun x hx => ?_⟩
    rw [hsome m h]
    have := hle x hx
    omega

/-- A successful `AddExercise` appended one row at the next position of the
workout. -/
theorem workouts_AddExercise_ok (db db1 : DB) (wid eid id : Int)
    (h : AddExercise db wid eid = (.ok id, db1)) :
    ∃ pos, db1.store.workout_exercises = db.store.workout_exercises ++ [⟨id, wid, eid, pos⟩] ∧
      (∀ m, sqlMax ((db.store.workout_exercises.filter fun we =>
        we.workout_id = wid).map fun we => we.position) = some m → pos = m + 1) ∧
      (sqlMax ((db.store.workout_exercises.filter fun we =>
        we.workout_id = wid).map fun we => we.position) = none → pos = 1) := by
  unfold AddExercise DB.QueryRow at h
  cases hf : db.fails with
  | true => simp [hf] at h
  | false =>
    simp only [hf, if_false, Bool.false_eq_true] at h
    obtain ⟨_, hdb1, _, _⟩ := exec_insertWorkoutExercise_ok _ _ _ _ _ _ h
    subst hdb1
    refine ⟨_, rfl, ?_, ?_⟩
    · intro m hm
      rw [hm]
    · intro hm
      rw [hm]

/-- C28: every successful append (`templates.AddExercise`,
`workouts.AddExercise`, `workouts.AddSet`, `routines.AddTemplate`) adds one
row to its table, with the position 1 when the parent has no row and the
greatest position of the rows of the parent plus 1 otherwise; that position is
above the position of every row the parent had.  With the sets at the
positions 1 and 3 the next set gets position 4. -/
theorem append_position_is_next :
    (∀ (now : Nat) (db db1 : DB) (T e ts tr id : Int),
      templates.AddExercise now db T e ts tr = (.ok id, db1) →
      ∃ pos, db1.store.template_exercises =
          db.store.template_exercises ++ [⟨id, T, e, ts, tr, pos⟩] ∧
        ((((db.store.template_exercises.filter fun te => te.template_id = T).map
            fun te => te.position) = [] ∧ pos = 1) ∨
          ∃ m ∈ (db.store.template_exercises.filter fun te => te.template_id = T).map
              fun te => te.position,
            (∀ x ∈ (db.store.template_exercises.filter fun te => te.template_id = T).map
              fun te => te.position, x ≤ m) ∧ pos = m + 1) ∧
        ∀ te ∈ db.store.template_exercises, te.template_id = T → te.position < pos) ∧
    (∀ (db db1 : DB) (wid eid id : Int),
      AddExercise db wid eid = (.ok id, db1) →
      ∃ pos, db1.store.workout_exercises =
          db.store.workout_exercises ++ [⟨id, wid, eid, pos⟩] ∧
        ((((db.store.workout_exercises.filter fun we => we.workout_id = wid).map
            fun we => we.position) = [] ∧ pos = 1) ∨
          ∃ m ∈ (db.store.workout_exercises.filter fun we => we.workout_id = wid).map
              fun we => we.position,
            (∀ x ∈ (db.store.workout_exercises.filter fun we => we.workout_id = wid).map
              fun we => we.position, x ≤ m) ∧ pos = m + 1) ∧
        ∀ we ∈ db.store.workout_exercises, we.workout_id = wid → we.position < pos) ∧
    (∀ (now : Nat) (db db1 : DB) (weid reps : Int) (weight : Weight) (id : Int),
      AddSet now db weid reps weight = (.ok id, db1) →
      ∃ pos, db1.store.logged_sets =
          db.store.logged_sets ++ [⟨id, weid, reps, weight, pos, now⟩] ∧
        ((((db.store.logged_sets.filter fun ls => ls.workout_exercise_id = weid).map
            fun ls => ls.position) = [] ∧ pos = 1) ∨
          ∃ m ∈ (db.store.logged_sets.filter fun ls => ls.workout_exercise_id = weid).map
              fun ls => ls.position,
            (∀ x ∈ (db.store.logged_sets.filter fun ls => ls.workout_exercise_id = weid).map
              fun ls => ls.position, x ≤ m) ∧ pos = m + 1) ∧
        ∀ ls ∈ db.store.logged_sets, ls.workout_exercise_id = weid → ls.position < pos) ∧
    (∀ (now : Nat) (db db1 : DB) (R T id : Int),
      routines.AddTemplate now db R T = (.ok id, db1) →
      ∃ pos, db1.store.routine_templates =
          db.store.routine_templates ++ [⟨id, R, T, pos⟩] ∧
        ((((db.store.routine_templates.filter fun rt => rt.routine_id = R).map
            fun rt => rt.position) = [] ∧ pos = 1) ∨
          ∃ m ∈ (db.store.routine_templates.filter fun rt => rt.routine_id = R).map
              fun rt => rt.position,
            (∀ x ∈ (db.store.routine_templates.filter fun rt => rt.routine_id = R).map
              fun rt => rt.position, x ≤ m) ∧ pos = m + 1) ∧
        ∀ rt ∈ db.store.routine_templates, rt.routine_id = R → rt.position < pos) ∧
    (Sample.squatsGap.logged_sets.map (fun ls => (ls.workout_exercise_id, ls.position)) =
        [(1, 1), (1, 3)] ∧
      (AddSet 9 (DB.healthy Sample.squatsGap) 1 5 245).2.store.logged_sets.map
        (fun ls => (ls.workout_exercise_id, ls.position)) = [(1, 1), (1, 3), (1, 4)]) := by
  refine ⟨?_, ?_, ?_, ?_, by decide⟩
  · intro now db db1 T e ts tr id h
    obtain ⟨⟨pos, hrows, hsome, hnone⟩, _⟩ := templates_AddExercise_ok now db db1 T e ts tr id h
    obtain ⟨h1, h2⟩ := next_position_spec _ pos hsome hnone
    exact ⟨pos, hrows, h1, fun te hte hT =>
      h2 _ (List.mem_map_of_mem _ (List.mem_filter.2 ⟨hte, by simpa using hT⟩))⟩
  · intro db db1 wid eid id h
    obtain ⟨pos, hrows, hsome, hnone⟩ := workouts_AddExercise_ok db db1 wid eid id h
    obtain ⟨h1, h2⟩ := next_position_spec _ pos hsome hnone
    exact ⟨pos, hrows, h1, fun we hwe hW =>
      h2 _ (List.mem_map_of_mem _ (List.mem_filter.2 ⟨hwe, by simpa using hW⟩))⟩
  · intro now db db1 weid reps weight id h
    obtain ⟨⟨pos, hst, hsome, hnone⟩, _⟩ := AddSet_ok now db db1 weid reps weight id h
    obtain ⟨h1, h2⟩ := next_position_spec _ pos hsome hnone
    exact ⟨pos, by rw [hst], h1, fun ls hls hW =>
      h2 _ (List.mem_map_of_mem _ (List.mem_filter.2 ⟨hls, by simpa using hW⟩))⟩
  · intro now db db1 R T id h
    obtain ⟨⟨pos, hrows, hsome, hnone⟩, _⟩ := routines_AddTemplate_ok now db db1 R T id h
    obtain ⟨h1, h2⟩ := next_position_spec _ pos hsome hnone
    exact ⟨pos, hrows, h1, fun rt hrt hR =>
      h2 _ (List.mem_map_of_mem _ (List.mem_filter.2 ⟨hrt, by simpa using hR⟩))⟩

/-! ## C29: a reorder is scoped to its template -/

/-- A position update with an id that no row of the template has is a
successful statement that changes nothing. -/
theorem updateExercisePosition_skip (pos id T : Int) (s : Store)
    (h : ∀ te ∈ s.template_exercises, te.id = id → te.template_id ≠ T) :
    templates.updateExercisePosition pos id T s = .ok ((), s) := by
  have hnone : ¬ ∃ te ∈ s.template_exercises, te.id = id ∧ te.template_id = T := by
    rintro ⟨te, hte, hid, hT⟩
    exact h te hte hid hT
  have hfil : (s.template_exercises.filter fun te => te.id = id ∧ te.template_id = T) = [] := by
    rw [List.filter_eq_nil_iff]
    intro te hte hm
    exact hnone ⟨te, hte, by simpa using hm⟩
  have hmap : (s.template_exercises.map fun te =>
      if te.id = id ∧ te.template_id = T then { te with position := pos } else te) =
      s.template_exercises := by
    conv_rhs => rw [← List.map_id s.template_exercises]
    apply List.map_congr_left
    intro te hte
    rw [if_neg (fun hm => hnone ⟨te, hte, hm⟩)]
    rfl
  unfold templates.updateExercisePosition
  rw [hfil, hmap, if_neg]
  · intro hc
    rcases hc with hc | hc
    · simp at hc
    · exact hnone hc.1

/-- The update loop over ids that no row of the template has, on a healthy
connection: no error, nothing changed. -/
theorem templates_reorderLoop_skip (T : Int) (snap s : Store) (ids : List Int)
    (h : ∀ id ∈ ids, ∀ te ∈ s.template_exercises, te.id = id → te.template_id ≠ T) :
    ∀ i : Int, templates.reorderLoop ⟨snap, DB.healthy s⟩ T i ids =
      (.ok (), ⟨snap, DB.healthy s⟩) := by
  induction ids with
  | nil => intro i; rfl
  | cons id rest ih =>
    intro i
    unfold templates.reorderLoop
    have hstep : (⟨snap, DB.healthy s⟩ : Tx).Exec
        (templates.updateExercisePosition (i + 1) id T) = (.ok (), ⟨snap, DB.healthy s⟩) := by
      unfold Tx.Exec DB.Exec
      simp only [DB.healthy_fails, if_false, Bool.false_eq_true, DB.healthy_store,
        updateExercisePosition_skip (i + 1) id T s (h id (List.mem_cons_self _ _))]
      rfl
    rw [hstep]
    exact ih (fun id1 h1 => h id1 (List.mem_cons_of_mem _ h1)) (i + 1)

/-- C29: `templates.ReorderExercises(T, ids)`, with or without an error, leaves
every table but `template_exercises` as it was, keeps the rows of
`template_exercises` in their order with every field but `position`, and
leaves the rows of every other template as they were; the update for an id
that no row of `T` has (the id of a row of another template, or of no row) is a
successful statement that changes nothing, and when the list has only such ids
the call on a healthy connection returns no error and changes nothing. -/
theorem ReorderExercises_scoped (db : DB) (T : Int) (ids : List Int) :
    (templates.ReorderExercises db T ids).2.store =
      { db.store with
        template_exercises := (templates.ReorderExercises db T ids).2.store.template_exercises } ∧
    List.Forall₂ (fun a b : TemplateExerciseRow =>
        b = { a with position := b.position } ∧ (a.template_id ≠ T → b = a))
      db.store.template_exercises
      (templates.ReorderExercises db T ids).2.store.template_exercises ∧
    (∀ (s : Store) (pos id : Int),
      (∀ te ∈ s.template_exercises, te.id = id → te.template_id ≠ T) →
      templates.updateExercisePosition pos id T s = .ok ((), s)) ∧
    ∀ s : Store,
      (∀ id ∈ ids, ∀ te ∈ s.template_exercises, te.id = id → te.template_id ≠ T) →
      templates.ReorderExercises (DB.healthy s) T ids = (.ok (), DB.healthy s) := by
  have key := templates_ReorderExercises_inv
    (fun s1 => s1 = { db.store with template_exercises := s1.template_exercises } ∧
      List.Forall₂ (fun a b : TemplateExerciseRow =>
        b = { a with position := b.position } ∧ (a.template_id ≠ T → b = a))
      db.store.template_exercises s1.template_exercises) db T ids
    ⟨rfl, List.forall₂_same.2 fun x _ => ⟨rfl, fun _ => rfl⟩⟩
    (by
      intro s pos id a s1 hP _ hs
      unfold templates.updateExercisePosition at hs
      split_ifs at hs
      cases hs
      refine ⟨congrArg (fun t : Store => { t with
        template_exercises := s.template_exercises.map fun te : TemplateExerciseRow =>
          if te.id = id ∧ te.template_id = T then { te with position := pos } else te }) hP.1,
        List.forall₂_map_right_iff.2 (hP.2.imp fun x y hxy => ?_)⟩
      obtain ⟨h1, h2⟩ := hxy
      by_cases hm : y.id = id ∧ y.template_id = T
      · rw [if_pos hm]
        have hT : x.template_id = T := by
          have := congrArg TemplateExerciseRow.template_id h1
          simp only at this
          rw [← this]
          exact hm.2
        refine ⟨?_, fun hne => absurd hT hne⟩
        have hy := h1
        cases x
        cases y
        simp only [TemplateExerciseRow.mk.injEq] at hy ⊢
        exact ⟨hy.1, hy.2.1, hy.2.2.1, hy.2.2.2.1, hy.2.2.2.2.1, trivial⟩
      · rw [if_neg hm]
        exact ⟨h1, h2⟩)
  refine ⟨key.1, key.2, fun s pos id h => updateExercisePosition_skip pos id T s h, ?_⟩
  intro s h
  unfold templates.ReorderExercises DB.Begin
  simp only [DB.healthy_fails, if_false, Bool.false_eq_true, DB.healthy_step, DB.healthy_store]
  rw [templates_reorderLoop_skip T s s ids h 0]
  rfl

/-! ## C30: the positions of an instantiated template -/

/-- C30: on a store whose workout exercise rows belong to existing workouts, a
successful `CreateFromTemplate` gives the new workout one exercise row per
exercise row of the template, in the order of the positions of the template,
with the exercise and the position of that row and with nothing else of it:
the pairs of exercise and position of the new workout are, as a multiset, the
pairs of the template.  On the sample template with the rows at the positions
1 and 3 the new workout has its rows at the positions 1 and 3. -/
theorem CreateFromTemplate_copies_positions (now : Nat) (db db1 : DB) (name : String)
    (date : Nat) (T id : Int) (hfk : fkWorkoutOfWorkoutExercise db.store)
    (h : CreateFromTemplate now db name date T = (.ok id, db1)) :
    ((db1.store.workout_exercises.filter fun we => we.workout_id = id).map
        fun we => (we.exercise_id, we.position)).Perm
      ((db.store.template_exercises.filter fun te => te.template_id = T).map
        fun te => (te.exercise_id, te.position)) ∧
    (db1.store.workout_exercises.filter fun we => we.workout_id = id).map
        (fun we => (we.exercise_id, we.position)) =
      (orderBy byTemplatePosition
        (db.store.template_exercises.filter fun te => te.template_id = T)).map
        (fun te => (te.exercise_id, te.position)) ∧
    (∀ we ∈ db1.store.workout_exercises.filter fun we => we.workout_id = id,
      ∃ te ∈ db.store.template_exercises, te.template_id = T ∧
        we = ⟨we.id, id, te.exercise_id, te.position⟩) ∧
    db1.store.workouts = db.store.workouts ++
      [⟨id, name, date, none, WorkoutStatus.in_progress, some T, now, none⟩] ∧
    db1.store.logged_sets = db.store.logged_sets := by
  obtain ⟨hid, hw, _, hls, news, hwe, hpairs, hnews⟩ :=
    CreateFromTemplate_ok now db db1 name date T id h
  have hold : (db.store.workout_exercises.filter fun we => we.workout_id = id) = [] := by
    rw [List.filter_eq_nil_iff]
    intro we hwe1 hwid
    have h1 : we.workout_id = id := by simpa using hwid
    have h2 := hfk we hwe1
    rw [h1, hid] at h2
    exact nextId_not_mem _ _ h2
  have hnew : (news.filter fun we => we.workout_id = id) = news := by
    rw [List.filter_eq_self]
    intro we hwe1
    simpa using (hnews we hwe1).1
  have hfil : (db1.store.workout_exercises.filter fun we => we.workout_id = id) = news := by
    rw [hwe, List.filter_append, hold, hnew, List.nil_append]
  rw [hfil]
  refine ⟨?_, hpairs, ?_, hw, hls⟩
  · rw [hpairs]
    exact (List.perm_insertionSort _ _).map _
  · intro we hwe1
    have hmem : (we.exercise_id, we.position) ∈
        news.map (fun x => (x.exercise_id, x.position)) :=
      List.mem_map_of_mem (fun x : WorkoutExerciseRow => (x.exercise_id, x.position)) hwe1
    rw [hpairs] at hmem
    obtain ⟨te, hte, hkey⟩ := List.mem_map.1 hmem
    rw [mem_orderBy] at hte
    obtain ⟨hte1, hte2⟩ := List.mem_filter.1 hte
    simp only [Prod.mk.injEq] at hkey
    refine ⟨te, hte1, by simpa using hte2, ?_⟩
    have hwid := (hnews we hwe1).1
    cases we
    simp only at hkey hwid
    simp only [WorkoutExerciseRow.mk.injEq]
    exact ⟨trivial, hwid, hkey.1.symm, hkey.2.symm⟩

/-- Witness of C30: the template with a gap, instantiated. -/
theorem CreateFromTemplate_copies_positions_witness :
    fkWorkoutOfWorkoutExercise (DB.healthy Sample.gapped).store ∧
    CreateFromTemplate 7 (DB.healthy Sample.gapped) "Friday" 3 1 =
      (.ok 1, (CreateFromTemplate 7 (DB.healthy Sample.gapped) "Friday" 3 1).2) ∧
    (DB.healthy Sample.gapped).store.template_exercises.map
        (fun te => (te.template_id, te.exercise_id, te.position)) = [(1, 1, 1), (1, 3, 3)] ∧
    (CreateFromTemplate 7 (DB.healthy Sample.gapped) "Friday" 3 1).2.store.workout_exercises =
      [⟨1, 1, 1, 1⟩, ⟨2, 1, 3, 3⟩] ∧
    ((((CreateFromTemplate 7 (DB.healthy Sample.gapped) "Friday" 3 1).2.store.workout_exercises.filter
        fun we => we.workout_id = 1).map fun we => (we.exercise_id, we.position)).Perm
      (((DB.healthy Sample.gapped).store.template_exercises.filter
        fun te => te.template_id = 1).map fun te => (te.exercise_id, te.position)) ∧
    ((CreateFromTemplate 7 (DB.healthy Sample.gapped) "Friday" 3 1).2.store.workout_exercises.filter
        fun we => we.workout_id = 1).map (fun we => (we.exercise_id, we.position)) =
      (orderBy byTemplatePosition
        ((DB.healthy Sample.gapped).store.template_exercises.filter
          fun te => te.template_id = 1)).map (fun te => (te.exercise_id, te.position)) ∧
    (∀ we ∈ (CreateFromTemplate 7 (DB.healthy Sample.gapped) "Friday" 3
        1).2.store.workout_exercises.filter fun we => we.workout_id = 1,
      ∃ te ∈ (DB.healthy Sample.gapped).store.template_exercises, te.template_id = 1 ∧
        we = ⟨we.id, 1, te.exercise_id, te.position⟩) ∧
    (CreateFromTemplate 7 (DB.healthy Sample.gapped) "Friday" 3 1).2.store.workouts =
      (DB.healthy Sample.gapped).store.workouts ++
        [⟨1, "Friday", 3, none, WorkoutStatus.in_progress, some 1, 7, none⟩] ∧
    (CreateFromTemplate 7 (DB.healthy Sample.gapped) "Friday" 3 1).2.store.logged_sets =
      (DB.healthy Sample.gapped).store.logged_sets) :=
  ⟨by decide, by decide, by decide, by decide,
    CreateFromTemplate_copies_positions 7 (DB.healthy Sample.gapped) _ "Friday" 3 1 1
      (by decide) (by decide)⟩

/-! ## C25: what the pattern of `Search` matches -/

instance : IsTotal _ exercises.byName := ⟨fun a b => le_total a.name b.name⟩

instance : IsTrans _ exercises.byName := ⟨fun _ _ _ hab hbc => le_trans hab hbc⟩

/-- A pattern without wildcards followed by `%` matches the texts that begin
with the pattern, upper and lower case alike. -/
theorem like_begins (q : List Char) (h1 : '%' ∉ q) (h2 : '_' ∉ q) :
    ∀ t : List Char, exercises.like (q ++ ['%']) t = true ↔
      q.map Char.toLower <+: t.map Char.toLower := by
  induction q with
  | nil =>
    intro t
    simp only [List.nil_append, List.map_nil, List.nil_prefix, iff_true]
    unfold exercises.like
    rw [if_pos rfl, List.any_eq_true]
    exact ⟨[], (List.mem_tails _ _).2 List.nil_suffix, rfl⟩
  | cons c q ih =>
    intro t
    have hc1 : c ≠ '%' := fun hc => h1 (hc ▸ List.mem_cons_self _ _)
    have hc2 : c ≠ '_' := fun hc => h2 (hc ▸ List.mem_cons_self _ _)
    have ih1 := ih (fun hm => h1 (List.mem_cons_of_mem _ hm))
      (fun hm => h2 (List.mem_cons_of_mem _ hm))
    rw [List.cons_append]
    unfold exercises.like
    rw [if_neg hc1]
    cases t with
    | nil => simp
    | cons d t1 =>
      simp only [List.map_cons, List.cons_prefix_cons, Bool.and_eq_true, Bool.or_eq_true,
        decide_eq_true_eq, hc2, false_or]
      rw [ih1 t1]

/-- The pattern of `Search` for a query without wildcards matches the texts
that contain the query, upper and lower case alike. -/
theorem like_contains (q t : List Char) (h1 : '%' ∉ q) (h2 : '_' ∉ q) :
    exercises.like ('%' :: (q ++ ['%'])) t = true ↔
      q.map Char.toLower <:+: t.map Char.toLower := by
  unfold exercises.like
  rw [if_pos rfl, List.any_eq_true, List.infix_iff_prefix_suffix]
  constructor
  · rintro ⟨t1, ht1, hlike⟩
    exact ⟨t1.map Char.toLower, (like_begins q h1 h2 t1).1 hlike,
      ((List.mem_tails _ _).1 ht1).map _⟩
  · rintro ⟨u, hpre, hsuf⟩
    obtain ⟨v, hv⟩ := hsuf
    refine ⟨t.drop v.length, (List.mem_tails _ _).2 (List.drop_suffix _ _), ?_⟩
    rw [like_begins q h1 h2, List.map_drop, ← hv, List.drop_left]
    exact hpre

/-- For a query without the characters `%` and `_`, on a connection whose
query runs, `Search` returns the exercises whose name contains the query,
upper and lower case ASCII letters alike, each once, sorted by name. -/
theorem Search_without_wildcards (db : DB) (q : String) (hf : db.fails = false)
    (h1 : '%' ∉ q.toList) (h2 : '_' ∉ q.toList) :
    ∃ out, (exercises.Search db q).1 = .ok out ∧ out.Sorted exercises.byName ∧
      out.Perm (db.store.exercises.filter fun e =>
        q.toList.map Char.toLower <:+: e.name.toList.map Char.toLower) := by
  refine ⟨_, by unfold exercises.Search DB.Query; rw [hf]; rfl,
    List.sorted_insertionSort _ _, ?_⟩
  refine (List.perm_insertionSort _ _).trans (List.Perm.of_eq ?_)
  apply List.filter_congr
  intro e _
  have hpat : ("%" ++ q ++ "%").toList = '%' :: (q.toList ++ ['%']) := rfl
  rw [hpat, Bool.eq_iff_iff, like_contains q.toList e.name.toList h1 h2, decide_eq_true_eq]

/-- C25, evaluated: on the store whose one exercise is named Squat,
`exercises.Search` with the query `_` returns that exercise although its name
does not contain the query, and so does the query `q%t`: the characters `%` and
`_` of the query act as wildcards of `LIKE`.  For every query without these two
characters the result is the exercises whose name contains the query, upper
and lower case ASCII letters alike, sorted by name; the empty query returns
all. -/
theorem Search_wildcards_in_query :
    (Sample.session.exercises = [⟨1, "Squat", 0⟩] ∧
    (exercises.Search (DB.healthy Sample.session) "_").1 = .ok [⟨1, "Squat", 0⟩] ∧
    ¬ ("_".toList <:+: "Squat".toList) ∧
    (exercises.Search (DB.healthy Sample.session) "q%t").1 = .ok [⟨1, "Squat", 0⟩] ∧
    ¬ ("q%t".toList.map Char.toLower <:+: "Squat".toList.map Char.toLower) ∧
    (exercises.Search (DB.healthy Sample.session) "QUA").1 = .ok [⟨1, "Squat", 0⟩] ∧
    (exercises.Search (DB.healthy Sample.session) "x").1 = .ok [] ∧
    (exercises.Search (DB.healthy Sample.session) "").1 = .ok [⟨1, "Squat", 0⟩]) ∧
    (∀ (db : DB) (q : String), db.fails = false → '%' ∉ q.toList → '_' ∉ q.toList →
      ∃ out, (exercises.Search db q).1 = .ok out ∧ out.Sorted exercises.byName ∧
        out.Perm (db.store.exercises.filter fun e =>
          q.toList.map Char.toLower <:+: e.name.toList.map Char.toLower)) ∧
    ∀ s : Store, ∃ out, (exercises.Search (DB.healthy s) "").1 = .ok out ∧
      out.Perm s.exercises :=
  ⟨by decide, Search_without_wildcards, fun s => by
    obtain ⟨out, h1, _, h3⟩ := Search_without_wildcards (DB.healthy s) "" rfl
      (by decide) (by decide)
    refine ⟨out, h1, h3.trans (List.Perm.of_eq ?_)⟩
    show s.exercises.filter _ = s.exercises
    rw [List.filter_eq_self]
    intro e _
    exact decide_eq_true (List.nil_infix)⟩

end Phobos
